import Mathlib

/-!
# px4_drv: a shallow embedding of `driver/px4.c`

The driver multiplexes four capture endpoints (`tsdev`) over one USB bridge.
This file embeds the parts of `px4.c` that carry its contracts:

* the transport-stream synchroniser and demultiplexer
  (`px4_ts_sync`, `px4_ts_write`, `px4_on_stream`);
* the tuning procedure (`px4_tsdev_set_channel`);
* the streaming session manager
  (`px4_tsdev_start_streaming`, `px4_tsdev_stop_streaming`);
* the open/release/unplug protocol
  (`px4_tsdev_open`, `px4_tsdev_release`, `px4_disconnect`), sequentially and as
  threads that interleave (`px4_system`);
* the control requests (`px4_tsdev_unlocked_ioctl`) and the LNB supply
  (`px4_set_lnb_power`).

Conventions of the embedding.

* C `u8`/`u32`/`unsigned int` values are `Nat` (reduced modulo `2 ^ 32` where the
  C arithmetic could wrap), C `int` and `atomic_t` values are `Int`, C `bool` is `Bool`.
  The reference count is an unbounded `Int`: nothing proved here takes it near the
  bounds of a 32-bit `atomic_t`.
* A `(u8 *p, u32 remain)` cursor is the list of the `remain` bytes at `p`.
* Every call into a collaborator that is not part of `px4.c` (chip drivers,
  USB pump, allocator) is recorded in `px4_device.trace` and answered by an
  environment `env : HwEnv`, a function of the calls made so far and of the call.
  An out-parameter is always assigned the value the environment supplies; as the
  environment is arbitrary this also covers a callee that leaves it untouched.
* The mutexes (`glock`, `px4->lock`) serialise the operations modelled here; in the
  sequential models each operation is therefore one atomic step. The model of the
  threads (`px4_system`) has the two locks and splits the operations at every access
  to a lock, to `px4->ref` and to `px4->avail`. `pr_debug` is dropped.
-/

namespace Px4

set_option maxRecDepth 100000

/-! ## errno values (`linux/errno.h`) -/

def EIO : Int := 5
def EAGAIN : Int := 11
def EFAULT : Int := 14
def EINVAL : Int := 22
def ENOSYS : Int := 38

/-! ## constants of `px4.c` -/

def TSDEV_NUM : Nat := 4
def ISDB_T : Int := 0
def ISDB_S : Int := 1
def TS_SYNC_COUNT : Nat := 4

/-! ## collaborators -/

/-- Calls that leave `px4.c`. The endpoint whose demodulator or tuner is addressed
is named by its index in `px4->tsdev`. -/
inductive HwCall where
  | it930x_set_gpio (gpio : Nat) (h : Bool)
  | it930x_purge_psb
  | it930x_bus_start_streaming
  | it930x_bus_stop_streaming
  | msleep (ms : Nat)
  | tc90522_write_regs (id : Fin 4) (regs : List (Nat × Nat))
  | tc90522_sleep_s (id : Fin 4) (sleep : Bool)
  | tc90522_sleep_t (id : Fin 4) (sleep : Bool)
  | tc90522_enable_ts_pins_s (id : Fin 4) (e : Bool)
  | tc90522_enable_ts_pins_t (id : Fin 4) (e : Bool)
  | tc90522_set_agc_s (id : Fin 4) (agc : Bool)
  | tc90522_set_agc_t (id : Fin 4) (agc : Bool)
  | tc90522_tmcc_get_tsid_s (id : Fin 4) (slot : Int)
  | tc90522_set_tsid_s (id : Fin 4) (tsid : Nat)
  | tc90522_get_tsid_s (id : Fin 4)
  | tc90522_is_signal_locked_t (id : Fin 4)
  | rt710_init (id : Fin 4)
  | rt710_set_params (id : Fin 4) (freq : Int) (symbol_rate : Nat) (rolloff : Nat)
  | rt710_get_pll_locked (id : Fin 4)
  | r850_init (id : Fin 4)
  | r850_write_config_regs (id : Fin 4) (regs : List Nat)
  | r850_is_pll_locked (id : Fin 4)
  | ringbuffer_alloc (id : Fin 4) (size : Nat)
  | tc90522_get_cn_s (id : Fin 4)
  | tc90522_get_cndat_t (id : Fin 4)
  deriving DecidableEq

/-- Answer of a collaborator: its `int` return value and what it stored through
its out-parameter (a `bool *` or a `u16 *`), if it has one. -/
structure HwResp where
  ret : Int
  flag : Bool
  val : Nat
  deriving DecidableEq

/-- The environment: the answer to a call, given the calls made before it. -/
abbrev HwEnv := List HwCall → HwCall → HwResp

/-! ## data model -/

/-- Modelled from the spec: `ringbuffer.c` is not among the sources. A ring buffer is
its allocation state, its capacity and the bytes written so far;
`ringbuffer_write` appends. -/
structure ringbuffer where
  allocated : Bool
  size : Nat
  data : List Nat
  deriving DecidableEq

/-- Modelled from the spec: `ringbuffer_init` of the missing `ringbuffer.c`. -/
def ringbuffer_init : ringbuffer := ⟨false, 0, []⟩

/-- Modelled from the spec: a successful `ringbuffer_alloc` of the missing `ringbuffer.c`. -/
def ringbuffer_alloc_ok (size : Nat) : ringbuffer := ⟨true, size, []⟩

/-- Modelled from the spec: `ringbuffer_free` of the missing `ringbuffer.c`. -/
def ringbuffer_free (_rb : ringbuffer) : ringbuffer := ⟨false, 0, []⟩

/-- Modelled from the spec: `ringbuffer_write` of the missing `ringbuffer.c`, as append. -/
def ringbuffer_write (rb : ringbuffer) (p : List Nat) : ringbuffer :=
  { rb with data := rb.data ++ p }

/-- The `struct px4_tsdev`. The field `open` of the source is `opened` here (`open` is
a keyword); the chip bindings (`tc90522`, `t`) are the endpoint index in `HwCall`. -/
structure px4_tsdev where
  id : Nat
  isdb : Int
  init : Bool
  opened : Bool
  lnb_power : Bool
  streaming : Int
  rgbuf : ringbuffer

/-- The `struct px4_device`, with the fields of `it930x.bus.usb` that `px4.c` reads or
writes, the slot `devs[dev_idx]` (`registered`: it holds this device) and the
trace of collaborator calls. -/
structure px4_device where
  ref : Int
  avail : Int
  streaming_count : Nat
  tsdev : Fin 4 → px4_tsdev
  streaming_xfer_size : Nat
  streaming_urb_num : Nat
  streaming_no_dma : Bool
  registered : Bool
  trace : List HwCall

/-- Assignment to `px4->tsdev[i]`. -/
def px4_device.set_tsdev (s : px4_device) (i : Fin 4) (t : px4_tsdev) : px4_device :=
  { s with tsdev := fun j => if j = i then t else s.tsdev j }

/-- Update of `px4->tsdev[i]` in place: the endpoint becomes `f` of what it was. -/
def px4_device.modify_tsdev (s : px4_device) (i : Fin 4) (f : px4_tsdev → px4_tsdev) :
    px4_device :=
  { s with tsdev := fun j => if j = i then f (s.tsdev j) else s.tsdev j }

/-- Assignment to `px4->streaming_count`. -/
def px4_device.set_streaming_count (s : px4_device) (n : Nat) : px4_device :=
  { s with streaming_count := n }

/-- Assignment to `bus->usb.streaming_urb_num` and `bus->usb.streaming_no_dma`. -/
def px4_device.set_pump (s : px4_device) (urb_num : Nat) (no_dma : Bool) : px4_device :=
  { s with streaming_urb_num := urb_num, streaming_no_dma := no_dma }

/-- One collaborator call: ask the environment, record the call. -/
def hw (env : HwEnv) (c : HwCall) (s : px4_device) : HwResp × px4_device :=
  (env s.trace c, { s with trace := s.trace ++ [c] })

/-- Memory as `kzalloc` returns it in `px4_probe`: all zero, not yet in `devs`. -/
def px4_kzalloc : px4_device :=
  { ref := 0, avail := 0, streaming_count := 0,
    tsdev := fun _ => ⟨0, 0, false, false, false, 0, ⟨false, 0, []⟩⟩,
    streaming_xfer_size := 0, streaming_urb_num := 0, streaming_no_dma := false,
    registered := false, trace := [] }

/-- The function `px4_init` (it returns 0 always). -/
def px4_init (px4 : px4_device) : px4_device :=
  { px4 with
    ref := 1, avail := 1, streaming_count := 0,
    tsdev := fun i =>
      { px4.tsdev i with
        id := i.val, init := false, opened := false, lnb_power := false,
        streaming := 0, rgbuf := ringbuffer_init } }

/-! ## stream demultiplexer -/

/-- The sync-byte test `(byte & 0x8f) == 0x07`. -/
def is_sync (b : Nat) : Bool := b &&& 0x8f == 0x07

/-- The `for` loop of `px4_ts_sync`: `k` iterations are left and the counter is `i`.
Returns the counter and the flag `b` at loop exit. -/
def px4_ts_sync_for (p : List Nat) : Nat → Nat → Nat × Bool
  | 0, i => (i, true)
  | k + 1, i =>
    if p.length > i * 188 then
      if !is_sync (p.getD (i * 188) 0) then (i, false)
      else px4_ts_sync_for p k (i + 1)
    else (i, true)

/-- The function `px4_ts_sync`: returns `(ret, *buf, *sync_remain)`; `*len` is the length
of the returned cursor. -/
def px4_ts_sync : List Nat → Bool × List Nat × Bool
  | [] => (false, [], false)
  | x :: xs =>
    let r := px4_ts_sync_for (x :: xs) TS_SYNC_COUNT 0
    if r.1 = TS_SYNC_COUNT then (true, x :: xs, false)
    else if r.2 then (false, x :: xs, true)
    else px4_ts_sync xs

/-- The `while` loop of `px4_ts_write`. Every iteration consumes 188 bytes, so `fuel`
iterations suffice for a cursor of at most `188 * fuel` bytes. -/
def px4_ts_write_loop : Nat → px4_device → List Nat → px4_device × List Nat
  | 0, px4, p => (px4, p)
  | fuel + 1, px4, p =>
    if p.length ≥ 188 ∧ is_sync (p.getD 0 0) then
      let id := (p.getD 0 0 &&& 0x70) >>> 4
      let px4' :=
        if h : id ≠ 0 ∧ id < 5 then
          let i : Fin 4 := ⟨id - 1, by omega⟩
          px4.set_tsdev i
            { px4.tsdev i with
              rgbuf := ringbuffer_write (px4.tsdev i).rgbuf (0x47 :: (p.take 188).tail) }
        else px4
      px4_ts_write_loop fuel px4' (p.drop 188)
    else (px4, p)

/-- The function `px4_ts_write`: returns the device and the cursor `(*buf, *len)`. -/
def px4_ts_write (px4 : px4_device) (p : List Nat) : px4_device × List Nat :=
  px4_ts_write_loop p.length px4 p

/-- The `while` loop of `px4_on_stream`. A successful `px4_ts_sync` is followed by a
`px4_ts_write` that consumes at least one record, so `fuel` iterations suffice for
a cursor of at most `fuel` bytes. -/
def px4_on_stream_loop : Nat → px4_device → List Nat → px4_device
  | 0, px4, _ => px4
  | fuel + 1, px4, p =>
    if p.length = 0 then px4
    else
      let r := px4_ts_sync p
      if !r.1 then px4
      else
        let w := px4_ts_write px4 r.2.1
        px4_on_stream_loop fuel w.1 w.2

/-- The function `px4_on_stream`: the `int` it returns (always 0) and the device. -/
def px4_on_stream (px4 : px4_device) (buf : List Nat) : Int × px4_device :=
  (0, px4_on_stream_loop buf.length px4 buf)

/-- A record of the raw stream as the hardware frames it: 188 bytes, the first a
sync byte. -/
def valid_record (r : List Nat) : Prop :=
  r.length = 188 ∧ is_sync (r.getD 0 0) = true

/-- The routing identifier `(p[0] & 0x70) >> 4` of a record. -/
def route_id (r : List Nat) : Nat := (r.getD 0 0 &&& 0x70) >>> 4

/-- A well-formed record: valid, and its routing nibble `(b >> 4) & 7`, `b` the leading
byte, is in 1..4. -/
def well_formed_record (r : List Nat) : Prop :=
  valid_record r ∧ 1 ≤ (r.getD 0 0 >>> 4) &&& 7 ∧ (r.getD 0 0 >>> 4) &&& 7 ≤ 4

/-- The bytes the endpoint `j` is to receive from a run of records: those with routing
identifier `j + 1`, in order, each with its first byte replaced by `0x47`. -/
def routed (j : Fin 4) (recs : List (List Nat)) : List Nat :=
  ((recs.filter (fun r => route_id r = j.val + 1)).map (fun r => 0x47 :: r.tail)).flatten

/-- What one iteration of the loop of `px4_ts_write` does to the device when the
record at the cursor is `r`. -/
def deliver (px4 : px4_device) (r : List Nat) : px4_device :=
  if h : route_id r ≠ 0 ∧ route_id r < 5 then
    let i : Fin 4 := ⟨route_id r - 1, by omega⟩
    px4.set_tsdev i
      { px4.tsdev i with
        rgbuf := ringbuffer_write (px4.tsdev i).rgbuf (0x47 :: r.tail) }
  else px4

/-- The number of records of a run addressed to the endpoint `j`. -/
def routed_count (j : Fin 4) (recs : List (List Nat)) : Nat :=
  (recs.filter (fun r => route_id r = j.val + 1)).length

instance : DecidablePred valid_record := fun r => by
  unfold valid_record; infer_instance

instance : DecidablePred well_formed_record := fun r => by
  unfold well_formed_record; infer_instance

/-- A test record: the leading byte `b`, then 187 zero bytes. -/
def ts_record (b : Nat) : List Nat := b :: List.replicate 187 0

/-- A test record whose last byte looks like a sync byte: `0x17`, 186 zero bytes, `0x17`. -/
def ts_record_tail17 : List Nat := 0x17 :: (List.replicate 186 0 ++ [0x17])

/-! ## tuning -/

/-- The three polling loops of `px4_tsdev_set_channel` of the shape
`while (i--) { ret = query(&locked); if (!ret && locked) break; msleep(delay); }`:
`n` iterations are left, `r` holds `(ret, locked)`. -/
def poll_locked (env : HwEnv) (query : HwCall) (delay : Nat) :
    Nat → Int × Bool → px4_device → (Int × Bool) × px4_device
  | 0, r, px4 => (r, px4)
  | n + 1, _, px4 =>
    let q := hw env query px4
    if q.1.ret = 0 ∧ q.1.flag = true then ((q.1.ret, q.1.flag), q.2)
    else poll_locked env query delay n (q.1.ret, q.1.flag) (hw env (.msleep delay) q.2).2

/-- The loop `while (i--) { ret = tc90522_tmcc_get_tsid_s(tc90522, freq->slot, &tsid);
if (!ret || ret == -EINVAL) break; msleep(10); }`; `r` holds `(ret, tsid)`. -/
def poll_tmcc_tsid (env : HwEnv) (id : Fin 4) (slot : Int) :
    Nat → Int × Nat → px4_device → (Int × Nat) × px4_device
  | 0, r, px4 => (r, px4)
  | n + 1, _, px4 =>
    let q := hw env (.tc90522_tmcc_get_tsid_s id slot) px4
    if q.1.ret = 0 ∨ q.1.ret = - EINVAL then ((q.1.ret, q.1.val % 65536), q.2)
    else poll_tmcc_tsid env id slot n (q.1.ret, q.1.val % 65536) (hw env (.msleep 10) q.2).2

/-- The loop `while (i--) { ret = tc90522_get_tsid_s(tc90522, &tsid2);
if (!ret && tsid2 == tsid) break; msleep(10); }`; `r` holds `(ret, tsid2)`. -/
def poll_tsid (env : HwEnv) (id : Fin 4) (tsid : Nat) :
    Nat → Int × Nat → px4_device → (Int × Nat) × px4_device
  | 0, r, px4 => (r, px4)
  | n + 1, _, px4 =>
    let q := hw env (.tc90522_get_tsid_s id) px4
    if q.1.ret = 0 ∧ q.1.val % 65536 = tsid then ((q.1.ret, q.1.val % 65536), q.2)
    else poll_tsid env id tsid n (q.1.ret, q.1.val % 65536) (hw env (.msleep 10) q.2).2

/-- The `case ISDB_S` of `px4_tsdev_set_channel` from `// set frequency` on, for the
carrier frequency `real_freq`. The locals `tuner_locked`, `tsid`, `tsid2` are
uninitialised in the source; each loop runs at least once and assigns them. -/
def px4_tsdev_set_channel_s (env : HwEnv) (px4 : px4_device) (id : Fin 4) (slot : Int)
    (real_freq : Int) : Int × px4_device :=
  let r1 := hw env (.tc90522_set_agc_s id false) px4
  if r1.1.ret ≠ 0 then (r1.1.ret, r1.2) else
  let r2 := hw env (.tc90522_write_regs id [(0x8e, 0x06), (0xa3, 0xf7)]) r1.2
  if r2.1.ret ≠ 0 then (r2.1.ret, r2.2) else
  let r3 := hw env (.rt710_set_params id real_freq 28860 4) r2.2
  if r3.1.ret ≠ 0 then (r3.1.ret, r3.2) else
  let l := poll_locked env (.rt710_get_pll_locked id) 10 50 (r3.1.ret, false) r3.2
  if l.1.1 ≠ 0 then (l.1.1, l.2) else
  if l.1.2 = false then (- EIO, l.2) else
  let r4 := hw env (.tc90522_set_agc_s id true) l.2
  if r4.1.ret ≠ 0 then (r4.1.ret, r4.2) else
  let t := poll_tmcc_tsid env id slot 50 (r4.1.ret, 0) r4.2
  if t.1.1 ≠ 0 then (t.1.1, t.2) else
  let r5 := hw env (.tc90522_set_tsid_s id t.1.2) t.2
  if r5.1.ret ≠ 0 then (r5.1.ret, r5.2) else
  let c := poll_tsid env id t.1.2 50 (r5.1.ret, 0) r5.2
  if c.1.2 ≠ t.1.2 then (- EAGAIN, c.2) else (c.1.1, c.2)

/-- The `case ISDB_T` of `px4_tsdev_set_channel` after the channel table lookup, for
the table entry `regs` (`u8 regs[R850_NUM_REGS - 0x08]`). -/
def px4_tsdev_set_channel_t (env : HwEnv) (px4 : px4_device) (id : Fin 4)
    (regs : List Nat) : Int × px4_device :=
  let r1 := hw env (.tc90522_write_regs id [(0x47, 0x30)]) px4
  if r1.1.ret ≠ 0 then (r1.1.ret, r1.2) else
  let r2 := hw env (.tc90522_set_agc_t id false) r1.2
  if r2.1.ret ≠ 0 then (r2.1.ret, r2.2) else
  let r3 := hw env (.tc90522_write_regs id [(0x76, 0x0c)]) r2.2
  if r3.1.ret ≠ 0 then (r3.1.ret, r3.2) else
  let r4 := hw env (.r850_write_config_regs id regs) r3.2
  if r4.1.ret ≠ 0 then (r4.1.ret, r4.2) else
  let s4 := (hw env (.msleep 40) r4.2).2
  let regs' := regs.set (0x2f - 0x08) (regs.getD (0x2f - 0x08) 0 ||| 0x02)
  let r5 := hw env (.r850_write_config_regs id regs') s4
  if r5.1.ret ≠ 0 then (r5.1.ret, r5.2) else
  let l := poll_locked env (.r850_is_pll_locked id) 10 50 (r5.1.ret, false) r5.2
  if l.1.1 ≠ 0 then (l.1.1, l.2) else
  if l.1.2 = false then (- EIO, l.2) else
  let r6 := hw env (.tc90522_set_agc_t id true) l.2
  if r6.1.ret ≠ 0 then (r6.1.ret, r6.2) else
  let r7 := hw env (.tc90522_write_regs id [(0x71, 0x21), (0x72, 0x25), (0x75, 0x08)]) r6.2
  if r7.1.ret ≠ 0 then (r7.1.ret, r7.2) else
  let d := poll_locked env (.tc90522_is_signal_locked_t id) 40 50 (r7.1.ret, false) r7.2
  (d.1.1, d.2)

/-- The function `px4_tsdev_set_channel` on the endpoint `px4->tsdev[id]`, for the request
`freq = { freq_no, slot }`. `struct ptx_freq` is declared in `ptx_ioctl.h`, which is not
among the sources; both fields are printed with `%d` and `freq_no` is compared with 0,
so both are C `int`. The channel table `r850_channel_get_regs` (`r850_channel.c`, not
among the sources) is a parameter: it returns its `int` result and the table entry. -/
def px4_tsdev_set_channel (env : HwEnv) (r850_channel_get_regs : Int → Int × List Nat)
    (px4 : px4_device) (id : Fin 4) (freq_no slot : Int) : Int × px4_device :=
  if (px4.tsdev id).isdb = ISDB_S then
    if freq_no < 0 then (- EINVAL, px4)
    else if freq_no < 12 then
      if slot ≥ 8 then (- EINVAL, px4)
      else px4_tsdev_set_channel_s env px4 id slot (1049480 + 38360 * freq_no)
    else if freq_no < 24 then
      px4_tsdev_set_channel_s env px4 id slot (1613000 + 40000 * (freq_no - 12))
    else (- EINVAL, px4)
  else if (px4.tsdev id).isdb = ISDB_T then
    if (freq_no ≥ 3 ∧ freq_no ≤ 12) ∨ (freq_no ≥ 22 ∧ freq_no ≤ 62) then (- ENOSYS, px4)
    else if freq_no ≥ 63 ∧ freq_no ≤ 102 then
      let g := r850_channel_get_regs freq_no
      if g.1 ≠ 0 then (g.1, px4)
      else px4_tsdev_set_channel_t env px4 id g.2
    else (- EINVAL, px4)
  else (- EIO, px4)

/-- The collaborator calls an operation added to the trace of `px4`, given the device
`px4'` it returned. -/
def calls_since (px4 px4' : px4_device) : List HwCall :=
  px4'.trace.drop px4.trace.length

/-- The device `s` with the calls `l` appended to its trace. -/
def px4_device.add_calls (s : px4_device) (l : List HwCall) : px4_device :=
  { s with trace := s.trace ++ l }

/-- The calls of `n` unsuccessful rounds of a polling loop: the query, then the delay. -/
def poll_calls (query : HwCall) (delay : Nat) (n : Nat) : List HwCall :=
  (List.replicate n [query, HwCall.msleep delay]).flatten

/-- The device `s'` is `s` with some calls appended to its trace, each satisfying `P`. -/
def only_calls (P : HwCall → Prop) (s s' : px4_device) : Prop :=
  ∃ l, s' = s.add_calls l ∧ ∀ c ∈ l, P c

/-- The register and tuner writes that `px4_tsdev_set_channel` issues on endpoint `i`
before it polls for phase lock. -/
def pre_pll_write (i : Fin 4) : HwCall → Bool
  | .tc90522_set_agc_s j false => j == i
  | .tc90522_set_agc_t j false => j == i
  | .tc90522_write_regs j _ => j == i
  | .rt710_set_params j _ _ _ => j == i
  | .r850_write_config_regs j _ => j == i
  | _ => false

/-- The tuner phase-lock queries on endpoint `i`. -/
def pll_query (i : Fin 4) : HwCall → Bool
  | .rt710_get_pll_locked j => j == i
  | .r850_is_pll_locked j => j == i
  | _ => false

/-- The calls that re-enable automatic gain control. -/
def agc_enable : HwCall → Bool
  | .tc90522_set_agc_s _ true => true
  | .tc90522_set_agc_t _ true => true
  | _ => false

/-- The calls that command the satellite tuner to a frequency. -/
def is_tuner_command : HwCall → Bool
  | .rt710_set_params _ _ _ _ => true
  | _ => false

/-- The call `c`, if it commands the satellite tuner, commands the tuner of endpoint `i`
to the frequency `f` with the fixed parameters 28860 and 4. -/
def tuner_command_is (i : Fin 4) (f : Int) (c : HwCall) : Prop :=
  is_tuner_command c = true → c = .rt710_set_params i f 28860 4

/-- The carrier frequency of the satellite channel `freq_no`, as `px4_tsdev_set_channel`
computes it for the two sub-ranges of the channel table. -/
def real_freq_s (freq_no : Int) : Int :=
  if freq_no < 12 then 1049480 + 38360 * freq_no else 1613000 + 40000 * (freq_no - 12)

/-- The calls of `px4_tsdev_set_channel` on a satellite endpoint up to the end of a
phase-lock poll that never sees a lock. -/
def pll_timeout_calls_s (i : Fin 4) (real_freq : Int) : List HwCall :=
  [.tc90522_set_agc_s i false, .tc90522_write_regs i [(0x8e, 0x06), (0xa3, 0xf7)],
   .rt710_set_params i real_freq 28860 4] ++ poll_calls (.rt710_get_pll_locked i) 10 50

/-- The calls of `px4_tsdev_set_channel` on a terrestrial endpoint up to the end of a
phase-lock poll that never sees a lock, for the channel table entry `regs`. -/
def pll_timeout_calls_t (i : Fin 4) (regs : List Nat) : List HwCall :=
  [.tc90522_write_regs i [(0x47, 0x30)], .tc90522_set_agc_t i false,
   .tc90522_write_regs i [(0x76, 0x0c)], .r850_write_config_regs i regs, .msleep 40,
   .r850_write_config_regs i (regs.set (0x2f - 0x08) (regs.getD (0x2f - 0x08) 0 ||| 0x02))]
    ++ poll_calls (.r850_is_pll_locked i) 10 50

/-- An environment whose tuners never report phase lock; every call succeeds. -/
def env_no_pll : HwEnv := fun _ c =>
  match c with
  | .rt710_get_pll_locked _ => ⟨0, false, 0⟩
  | .r850_is_pll_locked _ => ⟨0, false, 0⟩
  | _ => ⟨0, true, 0⟩

/-- A channel table for tests: every UHF index resolves to 40 zero bytes. -/
def test_channel_table : Int → Int × List Nat := fun _ => (0, List.replicate 40 0)

/-- What `px4_tsdev_set_channel` did on the satellite endpoint `i` of `px4`, `r` being what
it returned, when the tuner is to be commanded to the frequency `f`: hardware was
accessed, the first call disabling automatic gain control; every tuner command in
the calls made is `rt710_set_params` on endpoint `i` with `f`, 28860 and 4; and when
the two demodulator writes that come first succeed, that command is the third call. -/
def commands_tuner_to (env : HwEnv) (px4 : px4_device) (i : Fin 4) (f : Int)
    (r : Int × px4_device) : Prop :=
  (∃ l, r.2 = px4.add_calls (.tc90522_set_agc_s i false :: l)) ∧
  (∀ c ∈ calls_since px4 r.2, tuner_command_is i f c) ∧
  ((env px4.trace (.tc90522_set_agc_s i false)).ret = 0 →
    (env (px4.trace ++ [.tc90522_set_agc_s i false])
      (.tc90522_write_regs i [(0x8e, 0x06), (0xa3, 0xf7)])).ret = 0 →
    (calls_since px4 r.2).take 3 =
      [.tc90522_set_agc_s i false, .tc90522_write_regs i [(0x8e, 0x06), (0xa3, 0xf7)],
       .rt710_set_params i f 28860 4])

/-! ## streaming sessions -/

/-- Addition of two C `unsigned int` (32-bit) values. -/
def u32_add (a b : Nat) : Nat := (a + b) % 4294967296

/-- Multiplication of two C `unsigned int` (32-bit) values. -/
def u32_mul (a b : Nat) : Nat := (a * b) % 4294967296

/-- The C `x++` on an `unsigned int`. -/
def u32_inc (x : Nat) : Nat := (x + 1) % 4294967296

/-- The C `x--` on an `unsigned int`: below zero it wraps to `2 ^ 32 - 1`. -/
def u32_dec (x : Nat) : Nat := (x + 4294967295) % 4294967296

/-- The labels `fail_after_ringbuffer:` / `fail:` of `px4_tsdev_start_streaming`. -/
def px4_tsdev_start_streaming_fail (px4 : px4_device) (id : Fin 4) (after_ringbuffer : Bool)
    (ret : Int) : Int × px4_device :=
  let s1 :=
    if after_ringbuffer then
      px4.modify_tsdev id (fun t => { t with rgbuf := ringbuffer_free t.rgbuf })
    else px4
  (ret, s1.modify_tsdev id (fun t => { t with streaming := 0 }))

/-- The function `px4_tsdev_start_streaming` on `px4->tsdev[id]`. The module parameters
`max_urbs` and `no_dma` are read at the call. `streaming_xfer_size` and
`streaming_urb_num` are 32-bit unsigned in `it930x-bus.h` (not among the sources), so
their sum is a 32-bit sum. Modelled from the spec: a failing `ringbuffer_alloc`
(`ringbuffer.c` is not among the sources) leaves the ring buffer as it was. -/
def px4_tsdev_start_streaming (env : HwEnv) (max_urbs : Nat) (no_dma : Bool)
    (px4 : px4_device) (id : Fin 4) : Int × px4_device :=
  if (px4.tsdev id).streaming ≠ 0 then (0, px4) else
  let s1 := px4.modify_tsdev id (fun t => { t with streaming := 1 })
  let s2 :=
    if s1.streaming_count = 0 then
      (hw env .it930x_purge_psb (s1.set_pump max_urbs no_dma)).2
    else s1
  let buf_size := u32_add s2.streaming_xfer_size s2.streaming_urb_num
  let p : Int × px4_device :=
    if (s2.tsdev id).isdb = ISDB_S then
      let e := hw env (.tc90522_enable_ts_pins_s id true) s2
      if e.1.ret ≠ 0 then (e.1.ret, (hw env (.tc90522_enable_ts_pins_s id false) e.2).2)
      else (e.1.ret, e.2)
    else if (s2.tsdev id).isdb = ISDB_T then
      let e := hw env (.tc90522_enable_ts_pins_t id true) s2
      if e.1.ret ≠ 0 then (e.1.ret, (hw env (.tc90522_enable_ts_pins_t id false) e.2).2)
      else (e.1.ret, e.2)
    else (- EIO, s2)
  if p.1 ≠ 0 then px4_tsdev_start_streaming_fail p.2 id false p.1 else
  let a := hw env (.ringbuffer_alloc id buf_size) p.2
  if a.1.ret ≠ 0 then px4_tsdev_start_streaming_fail a.2 id false a.1.ret else
  let s3 := a.2.modify_tsdev id (fun t => { t with rgbuf := ringbuffer_alloc_ok buf_size })
  if s3.streaming_count = 0 then
    let b := hw env .it930x_bus_start_streaming s3
    if b.1.ret ≠ 0 then px4_tsdev_start_streaming_fail b.2 id true b.1.ret
    else (b.1.ret, b.2.set_streaming_count (u32_inc b.2.streaming_count))
  else (a.1.ret, s3.set_streaming_count (u32_inc s3.streaming_count))

/-- The function `px4_tsdev_stop_streaming` on `px4->tsdev[id]`; `streaming_count` is an
`unsigned int`. -/
def px4_tsdev_stop_streaming (env : HwEnv) (px4 : px4_device) (id : Fin 4) (avail : Bool) :
    Int × px4_device :=
  if (px4.tsdev id).streaming = 0 then (0, px4) else
  let s1 := px4.modify_tsdev id (fun t => { t with streaming := 0 })
  let s2 := s1.set_streaming_count (u32_dec s1.streaming_count)
  let s3 := if s2.streaming_count = 0 then (hw env .it930x_bus_stop_streaming s2).2 else s2
  let s4 := s3.modify_tsdev id (fun t => { t with rgbuf := ringbuffer_free t.rgbuf })
  if avail = false then (0, s4)
  else if (s4.tsdev id).isdb = ISDB_S then
    let e := hw env (.tc90522_enable_ts_pins_s id false) s4
    (e.1.ret, e.2)
  else if (s4.tsdev id).isdb = ISDB_T then
    let e := hw env (.tc90522_enable_ts_pins_t id false) s4
    (e.1.ret, e.2)
  else (- EIO, s4)

/-- A call of the streaming session manager on one endpoint. -/
inductive StreamOp where
  | start (id : Fin 4) (max_urbs : Nat) (no_dma : Bool)
  | stop (id : Fin 4) (avail : Bool)

/-- The device after one call (its return value is dropped: the call may have failed). -/
def StreamOp.apply (env : HwEnv) (px4 : px4_device) : StreamOp → px4_device
  | .start id max_urbs no_dma => (px4_tsdev_start_streaming env max_urbs no_dma px4 id).2
  | .stop id avail => (px4_tsdev_stop_streaming env px4 id avail).2

/-- The device after a sequence of calls, first call first. -/
def run_stream_ops (env : HwEnv) (px4 : px4_device) (ops : List StreamOp) : px4_device :=
  ops.foldl (StreamOp.apply env) px4

/-- The number of endpoints whose `streaming` flag is set. -/
def streaming_endpoints (px4 : px4_device) : Nat :=
  (Finset.univ.filter (fun i : Fin 4 => (px4.tsdev i).streaming ≠ 0)).card

/-- The devices `a` and `b` agree on every field but the trace and the pump settings
(`streaming_urb_num`, `streaming_no_dma`). -/
def unchanged_by_hw_calls (a b : px4_device) : Prop :=
  a.tsdev = b.tsdev ∧ a.streaming_count = b.streaming_count ∧ a.ref = b.ref ∧
  a.avail = b.avail ∧ a.registered = b.registered ∧
  a.streaming_xfer_size = b.streaming_xfer_size

/-- The invariant of the streaming session manager: `streaming_count` counts the
endpoints whose `streaming` flag is set, and an endpoint that is not streaming holds
no allocated ring buffer. -/
def stream_inv (px4 : px4_device) : Prop :=
  px4.streaming_count = streaming_endpoints px4 ∧
  ∀ i : Fin 4, (px4.tsdev i).streaming = 0 → (px4.tsdev i).rgbuf.allocated = false

/-- An environment in which `ringbuffer_alloc` fails with `-ENOMEM` and every other call
succeeds. -/
def env_alloc_fails : HwEnv := fun _ c =>
  match c with
  | .ringbuffer_alloc _ _ => ⟨-12, false, 0⟩
  | _ => ⟨0, true, 0⟩

/-! ## device lifecycle -/

/-- The function `px4_ref`: `atomic_add_return(1, &px4->ref)`. -/
def px4_ref (px4 : px4_device) : Int × px4_device :=
  (px4.ref + 1, { px4 with ref := px4.ref + 1 })

/-- The function `px4_unref`: `atomic_sub_return(1, &px4->ref)`. -/
def px4_unref (px4 : px4_device) : Int × px4_device :=
  (px4.ref - 1, { px4 with ref := px4.ref - 1 })

/-- The `for` loop of `px4_set_power(px4, true)` over the endpoints still to visit;
`ret` is the local of that name. -/
def px4_set_power_loop (env : HwEnv) : List (Fin 4) → Int → px4_device → Int × px4_device
  | [], ret, px4 => (ret, px4)
  | i :: rest, ret, px4 =>
    let s1 := px4.modify_tsdev i (fun t => { t with init := false })
    let r : Int × px4_device :=
      if (s1.tsdev i).opened = false then
        if (s1.tsdev i).isdb = ISDB_S then
          let q := hw env (.tc90522_sleep_s i true) s1
          (q.1.ret, q.2)
        else if (s1.tsdev i).isdb = ISDB_T then
          let q := hw env (.tc90522_sleep_t i true) s1
          (q.1.ret, q.2)
        else (ret, s1)
      else (ret, s1)
    if r.1 ≠ 0 then
      let s2 := (hw env (.it930x_set_gpio 7 true) r.2).2
      (r.1, (hw env (.it930x_set_gpio 2 false) s2).2)
    else px4_set_power_loop env rest r.1 r.2

/-- The function `px4_set_power`; its parameter `on` is `turn_on` here (`on` is a keyword). -/
def px4_set_power (env : HwEnv) (px4 : px4_device) (turn_on : Bool) : Int × px4_device :=
  if turn_on then
    let r1 := hw env (.it930x_set_gpio 7 false) px4
    if r1.1.ret ≠ 0 then (r1.1.ret, r1.2) else
    let r2 := hw env (.it930x_set_gpio 2 false) r1.2
    if r2.1.ret ≠ 0 then (r2.1.ret, r2.2) else
    let s2 := (hw env (.msleep 10) r2.2).2
    let r3 := hw env (.it930x_set_gpio 2 true) s2
    if r3.1.ret ≠ 0 then (r3.1.ret, r3.2) else
    let s3 := (hw env (.msleep 10) r3.2).2
    px4_set_power_loop env [0, 1, 2, 3] r3.1.ret s3
  else
    let s1 := (hw env (.it930x_set_gpio 7 true) px4).2
    (0, (hw env (.it930x_set_gpio 2 false) s1).2)

/-- The function `px4_set_lnb_power`; its parameter `on` is `turn_on` here. -/
def px4_set_lnb_power (env : HwEnv) (px4 : px4_device) (turn_on : Bool) : Int × px4_device :=
  let b := (px4.tsdev 0).lnb_power || (px4.tsdev 1).lnb_power ||
    (px4.tsdev 2).lnb_power || (px4.tsdev 3).lnb_power
  if (b && !turn_on) || (!b && turn_on) then (0, px4)
  else
    let q := hw env (.it930x_set_gpio 11 turn_on) px4
    (q.1.ret, q.2)

/-- The register table `tc_init_s`. -/
def tc_init_s : List (Nat × Nat) := [(0x15, 0x00), (0x1d, 0x00), (0x04, 0x02)]

/-- The register table `tc_init_t`. -/
def tc_init_t : List (Nat × Nat) :=
  [(0xb0, 0xa0), (0xb2, 0x3d), (0xb3, 0x25), (0xb4, 0x8b), (0xb5, 0x4b), (0xb6, 0x3f),
   (0xb7, 0xff), (0xb8, 0xc0), (0x1f, 0x00), (0x75, 0x00)]

/-- The register table `tc_init_s0`. -/
def tc_init_s0 : List (Nat × Nat) := [(0x07, 0x31), (0x08, 0x77)]

/-- The register table `tc_init_t0`. -/
def tc_init_t0 : List (Nat × Nat) := [(0x0e, 0x77), (0x0f, 0x13)]

/-- The function `px4_tsdev_init` on `px4->tsdev[id]`. -/
def px4_tsdev_init (env : HwEnv) (px4 : px4_device) (id : Fin 4) : Int × px4_device :=
  if (px4.tsdev id).init then (0, px4) else
  let r : Int × px4_device :=
    if (px4.tsdev id).isdb = ISDB_S then
      let r1 := hw env (.tc90522_write_regs id tc_init_s) px4
      if r1.1.ret ≠ 0 then (r1.1.ret, r1.2) else
      let r2 := hw env (.tc90522_enable_ts_pins_s id false) r1.2
      if r2.1.ret ≠ 0 then (r2.1.ret, r2.2) else
      let r3 := hw env (.tc90522_sleep_s id false) r2.2
      if r3.1.ret ≠ 0 then (r3.1.ret, r3.2) else
      let r4 := hw env (.rt710_init id) r3.2
      (r4.1.ret, r4.2)
    else if (px4.tsdev id).isdb = ISDB_T then
      let r1 := hw env (.tc90522_write_regs id tc_init_t) px4
      if r1.1.ret ≠ 0 then (r1.1.ret, r1.2) else
      let r2 := hw env (.tc90522_enable_ts_pins_t id false) r1.2
      if r2.1.ret ≠ 0 then (r2.1.ret, r2.2) else
      let r3 := hw env (.tc90522_sleep_t id false) r2.2
      if r3.1.ret ≠ 0 then (r3.1.ret, r3.2) else
      let r4 := hw env (.r850_init id) r3.2
      (r4.1.ret, r4.2)
    else (- EIO, px4)
  if r.1 = 0 then (r.1, r.2.modify_tsdev id (fun t => { t with init := true }))
  else (r.1, r.2)

/-- The labels `fail_after_power:` / `fail:` of `px4_tsdev_open`; `ref` is the local of
that name. -/
def px4_tsdev_open_fail (env : HwEnv) (px4 : px4_device) (id : Fin 4) (ref : Int)
    (after_power : Bool) (ret : Int) : Int × px4_device :=
  let s1 := if after_power ∧ ref = 2 then (px4_set_power env px4 false).2 else px4
  let s2 := s1.modify_tsdev id (fun t => { t with opened := false })
  (ret, (px4_unref s2).2)

/-- The function `px4_tsdev_open` for the minor number that selects `px4->tsdev[id]` of
this device. The slot `devs[dev_idx]` is null when `registered` is false. On success
`file->private_data` is `&px4->tsdev[id]`. -/
def px4_tsdev_open (env : HwEnv) (px4 : px4_device) (id : Fin 4) : Int × px4_device :=
  if px4.registered = false then (- EFAULT, px4) else
  if px4.avail = 0 then (- EIO, px4) else
  let r := px4_ref px4
  let ref := r.1
  let s0 := r.2
  if (s0.tsdev id).opened then px4_tsdev_open_fail env s0 id ref false (- EIO) else
  let s1 := s0.modify_tsdev id (fun t => { t with opened := true })
  let p : Int × px4_device := if ref = 2 then px4_set_power env s1 true else (0, s1)
  if p.1 ≠ 0 then px4_tsdev_open_fail env p.2 id ref false p.1 else
  let t := px4_tsdev_init env p.2 id
  if t.1 ≠ 0 then px4_tsdev_open_fail env t.2 id ref true t.1 else
  if ref = 2 then
    let w1 := hw env (.tc90522_write_regs 0 tc_init_s0) t.2
    if w1.1.ret ≠ 0 then px4_tsdev_open_fail env w1.2 id ref true w1.1.ret else
    let w2 := hw env (.tc90522_write_regs 2 tc_init_t0) w1.2
    if w2.1.ret ≠ 0 then px4_tsdev_open_fail env w2.2 id ref true w2.1.ret else
    (0, w2.2)
  else (0, t.2)

/-- The function `px4_tsdev_release` for a file whose `private_data` is
`&px4->tsdev[id]` (`px4_tsdev_uninit` is empty). -/
def px4_tsdev_release (env : HwEnv) (px4 : px4_device) (id : Fin 4) : Int × px4_device :=
  let avail := px4.avail
  let s1 := (px4_tsdev_stop_streaming env px4 id (avail ≠ 0)).2
  let s2 := s1.modify_tsdev id (fun t => { t with opened := false })
  let s3 := s2.modify_tsdev id (fun t => { t with lnb_power := false })
  let s4 := if avail ≠ 0 then (px4_set_lnb_power env s3 false).2 else s3
  let u := px4_unref s4
  let s5 := if avail ≠ 0 ∧ u.1 = 1 then (px4_set_power env u.2 false).2 else u.2
  (0, s5)

/-- The part of `px4_disconnect` before its wait loop: the device becomes unavailable,
leaves `devs`, and the reference taken at attach is dropped. -/
def px4_disconnect_begin (px4 : px4_device) : Int × px4_device :=
  let s1 := { px4 with avail := 0 }
  let s2 := { s1 with registered := false }
  px4_unref s2

/-- The device `px4_probe` publishes in `devs` when each of its steps succeeds and the
EEPROM is valid: `px4_init`, the transfer size `xfer_packets * 188` (32-bit), the
standards `px4_load_config` assigns, the three GPIO writes. The calls that bring up
the bridge (`it930x_*`, firmware load) are not part of the trace. -/
def px4_probe_ok (xfer_packets : Nat) : px4_device :=
  let s1 := px4_init px4_kzalloc
  let s2 := { s1 with streaming_xfer_size := u32_mul xfer_packets 188 }
  let s3 := { s2 with
    tsdev := fun i => { s2.tsdev i with isdb := if i.val < 2 then ISDB_S else ISDB_T } }
  { s3 with
    registered := true,
    trace := [.it930x_set_gpio 7 true, .it930x_set_gpio 2 false, .it930x_set_gpio 11 false] }

/-- An environment in which every collaborator call succeeds and every lock query
reports a lock. -/
def env_ok : HwEnv := fun _ _ => ⟨0, true, 0⟩

/-- The number of endpoints whose `open` flag is set. -/
def open_endpoints (px4 : px4_device) : Nat :=
  (Finset.univ.filter (fun i : Fin 4 => (px4.tsdev i).opened = true)).card

/-! ## stream demultiplexer: the properties of the scan and of the extraction -/

/-- The offset `j` of the buffer `p` passes the test of `px4_ts_sync`: each of the positions
`j`, `j + 188`, `j + 376`, `j + 564` that lies inside the buffer holds a sync byte. -/
def sync_passes (p : List Nat) (j : Nat) : Prop :=
  ∀ i, i < 4 → j + i * 188 < p.length → is_sync (p.getD (j + i * 188) 0) = true

instance (p : List Nat) (j : Nat) : Decidable (sync_passes p j) := by
  unfold sync_passes; infer_instance

/-- The device `px4` with the bytes `f j` appended to the ring buffer of each endpoint `j`
and nothing else changed. -/
def with_appended (px4 : px4_device) (f : Fin 4 → List Nat) : px4_device :=
  { px4 with
    tsdev := fun j =>
      { px4.tsdev j with rgbuf := ringbuffer_write (px4.tsdev j).rgbuf (f j) } }

/-! ## tuning: the signal-lock poll of a terrestrial endpoint -/

/-- The signal-lock query of the demodulator of the terrestrial endpoint `i`. -/
def signal_query (i : Fin 4) (c : HwCall) : Bool :=
  decide (c = .tc90522_is_signal_locked_t i)

/-- The calls of `px4_tsdev_set_channel` on a terrestrial endpoint before the phase-lock
poll, for the channel table entry `regs`. -/
def pre_pll_calls_t (i : Fin 4) (regs : List Nat) : List HwCall :=
  [.tc90522_write_regs i [(0x47, 0x30)], .tc90522_set_agc_t i false,
   .tc90522_write_regs i [(0x76, 0x0c)], .r850_write_config_regs i regs, .msleep 40,
   .r850_write_config_regs i (regs.set (0x2f - 0x08) (regs.getD (0x2f - 0x08) 0 ||| 0x02))]

/-- In a polling loop that starts after the calls `tr0` and repeats the query `q` with
the delay `d`, the query reports a lock for the first time in round `k` (counted from
0): it reports none after each of the rounds before. -/
def locks_in_round (env : HwEnv) (tr0 : List HwCall) (q : HwCall) (d k : Nat) : Prop :=
  (∀ j, j < k → (env (tr0 ++ poll_calls q d j) q).flag = false) ∧
  (env (tr0 ++ poll_calls q d k) q).flag = true

instance (env : HwEnv) (tr0 : List HwCall) (q : HwCall) (d k : Nat) :
    Decidable (locks_in_round env tr0 q d k) := by
  unfold locks_in_round; infer_instance

/-- The calls of `px4_tsdev_set_channel` on a terrestrial endpoint whose tuner reports
phase lock in round `k` of its poll and whose demodulator never reports signal lock,
for the channel table entry `regs`. -/
def signal_timeout_calls_t (i : Fin 4) (regs : List Nat) (k : Nat) : List HwCall :=
  pre_pll_calls_t i regs
    ++ poll_calls (.r850_is_pll_locked i) 10 k
    ++ [.r850_is_pll_locked i, .tc90522_set_agc_t i true,
        .tc90522_write_regs i [(0x71, 0x21), (0x72, 0x25), (0x75, 0x08)]]
    ++ poll_calls (.tc90522_is_signal_locked_t i) 40 50

/-- An environment whose terrestrial demodulators never report signal lock; every call
succeeds and every other lock query reports a lock. -/
def env_no_signal : HwEnv := fun _ c =>
  match c with
  | .tc90522_is_signal_locked_t _ => ⟨0, false, 0⟩
  | _ => ⟨0, true, 0⟩

/-- An environment whose terrestrial tuners report phase lock from their third query on
and whose terrestrial demodulators never report signal lock; every call succeeds. -/
def env_pll_third : HwEnv := fun tr c =>
  match c with
  | .tc90522_is_signal_locked_t _ => ⟨0, false, 0⟩
  | .r850_is_pll_locked i => ⟨0, decide (2 ≤ (tr.filter (pll_query i)).length), 0⟩
  | _ => ⟨0, true, 0⟩

/-! ## streaming sessions: the size of the ring buffer -/

/-- The calls of `ringbuffer_alloc`. -/
def alloc_call : HwCall → Bool
  | .ringbuffer_alloc _ _ => true
  | _ => false

/-- The value of `buf_size` in a call of `px4_tsdev_start_streaming` with the module
parameter `max_urbs` on the device `px4`: the 32-bit sum of the transfer size and of
the number of URBs, which is `max_urbs` when no endpoint is streaming and the number
stored at the start of the pump otherwise. -/
def start_buf_size (px4 : px4_device) (max_urbs : Nat) : Nat :=
  u32_add px4.streaming_xfer_size
    (if px4.streaming_count = 0 then max_urbs else px4.streaming_urb_num)

/-! ## streaming sessions: the steps of a start and their answers -/

/-- The call that enables (`e` true) or disables (`e` false) the TS output pins of the
endpoint `i`, by its standard. -/
def start_pins_call (px4 : px4_device) (i : Fin 4) (e : Bool) : HwCall :=
  if (px4.tsdev i).isdb = ISDB_S then .tc90522_enable_ts_pins_s i e
  else .tc90522_enable_ts_pins_t i e

/-- The calls made so far when `px4_tsdev_start_streaming` enables the TS output pins:
those made before the call and, when no endpoint is streaming, `it930x_purge_psb`. -/
def start_trace_pins (px4 : px4_device) : List HwCall :=
  px4.trace ++ (if px4.streaming_count = 0 then [HwCall.it930x_purge_psb] else [])

/-- The answer of the hardware to the first step of a start: enabling the TS output
pins. -/
def start_pins_resp (env : HwEnv) (px4 : px4_device) (i : Fin 4) : HwResp :=
  env (start_trace_pins px4) (start_pins_call px4 i true)

/-- The answer to the second step of a start, `ringbuffer_alloc`, when the first
succeeded. -/
def start_alloc_resp (env : HwEnv) (max_urbs : Nat) (px4 : px4_device) (i : Fin 4) : HwResp :=
  env (start_trace_pins px4 ++ [start_pins_call px4 i true])
    (.ringbuffer_alloc i (start_buf_size px4 max_urbs))

/-- The answer to the third step of a start, `it930x_bus_start_streaming`, when the
first two succeeded and no endpoint is streaming. -/
def start_pump_resp (env : HwEnv) (max_urbs : Nat) (px4 : px4_device) (i : Fin 4) : HwResp :=
  env (start_trace_pins px4 ++
      [start_pins_call px4 i true, .ringbuffer_alloc i (start_buf_size px4 max_urbs)])
    .it930x_bus_start_streaming

/-- An environment in which `it930x_bus_start_streaming` fails with `-EIO` and every
other call succeeds. -/
def env_pump_fails : HwEnv := fun _ c =>
  match c with
  | .it930x_bus_start_streaming => ⟨-5, false, 0⟩
  | _ => ⟨0, true, 0⟩

/-! ## control requests and the LNB supply -/

/-- The request of an `ioctl` on an endpoint, with the part of its argument the driver
uses. The command numbers are macros of `ptx_ioctl.h`, which is not among the sources;
`other` is every command number that is none of the six. `PTX_SET_CHANNEL` carries the
`struct ptx_freq` that `copy_from_user` fetched, `PTX_ENABLE_LNB_POWER` the
`unsigned long arg`. -/
inductive ptx_ioctl_cmd where
  | PTX_SET_CHANNEL (freq_no slot : Int)
  | PTX_START_STREAMING
  | PTX_STOP_STREAMING
  | PTX_GET_CNR
  | PTX_ENABLE_LNB_POWER (arg : Nat)
  | PTX_DISABLE_LNB_POWER
  | other
  deriving DecidableEq

/-- The conversion `(int)arg` of an `unsigned long`: the low 32 bits, as two's
complement. -/
def int_of_ulong (arg : Nat) : Int :=
  if arg % 4294967296 < 2147483648 then (arg % 4294967296 : Nat)
  else ((arg % 4294967296 : Nat) : Int) - 4294967296

/-- The function `px4_tsdev_get_cn` on `px4->tsdev[id]`: the result and the value of
`*cn` afterwards. The caller passes the address of an `int` set to 0; the satellite
demodulator stores 16 bits through `(u16 *)cn` (the low half of the `int` on a
little-endian machine), the terrestrial one stores 32 bits. -/
def px4_tsdev_get_cn (env : HwEnv) (px4 : px4_device) (id : Fin 4) :
    (Int × Nat) × px4_device :=
  if (px4.tsdev id).isdb = ISDB_S then
    let q := hw env (.tc90522_get_cn_s id) px4
    ((q.1.ret, q.1.val % 65536), q.2)
  else if (px4.tsdev id).isdb = ISDB_T then
    let q := hw env (.tc90522_get_cndat_t id) px4
    ((q.1.ret, q.1.val % 4294967296), q.2)
  else ((- EIO, 0), px4)

/-- The function `px4_tsdev_unlocked_ioctl` for a file whose `private_data` is
`&px4->tsdev[id]`: its result and the device. What `PTX_GET_CNR` copies to the caller
is not part of the device. `DISABLE_LNB_POWER_Q4` is not defined. -/
def px4_tsdev_unlocked_ioctl (env : HwEnv) (r850_channel_get_regs : Int → Int × List Nat)
    (max_urbs : Nat) (no_dma : Bool) (px4 : px4_device) (id : Fin 4)
    (cmd : ptx_ioctl_cmd) : Int × px4_device :=
  if px4.avail = 0 then (- EIO, px4) else
  match cmd with
  | .PTX_SET_CHANNEL freq_no slot =>
    px4_tsdev_set_channel env r850_channel_get_regs px4 id freq_no slot
  | .PTX_START_STREAMING => px4_tsdev_start_streaming env max_urbs no_dma px4 id
  | .PTX_STOP_STREAMING => px4_tsdev_stop_streaming env px4 id true
  | .PTX_GET_CNR =>
    let c := px4_tsdev_get_cn env px4 id
    (c.1.1, c.2)
  | .PTX_ENABLE_LNB_POWER arg =>
    let lnb := int_of_ulong arg
    if (px4.tsdev id).isdb ≠ ISDB_S then (- EINVAL, px4)
    else if lnb = 0 then
      let s := px4.modify_tsdev id (fun t => { t with lnb_power := false })
      px4_set_lnb_power env s (s.tsdev id).lnb_power
    else if lnb = 2 then
      let s := px4.modify_tsdev id (fun t => { t with lnb_power := true })
      px4_set_lnb_power env s (s.tsdev id).lnb_power
    else (- EINVAL, px4)
  | .PTX_DISABLE_LNB_POWER =>
    if (px4.tsdev id).isdb ≠ ISDB_S then (- EINVAL, px4)
    else if (px4.tsdev id).lnb_power = false then (0, px4)
    else
      let s := px4.modify_tsdev id (fun t => { t with lnb_power := false })
      px4_set_lnb_power env s false
  | .other => (- ENOSYS, px4)

/-- The writes to GPIO 11, the line that switches the LNB supply. -/
def is_gpio11 : HwCall → Bool
  | .it930x_set_gpio gpio _ => gpio == 11
  | _ => false

/-- The level of GPIO 11 after the call `c`, `acc` being the level written last before
it (`none`: never written). -/
def gpio11_step (acc : Option Bool) (c : HwCall) : Option Bool :=
  match c with
  | .it930x_set_gpio gpio h => if gpio = 11 then some h else acc
  | _ => acc

/-- The level written last to GPIO 11 in a trace of calls. -/
def last_gpio11 (tr : List HwCall) : Option Bool :=
  tr.foldl gpio11_step none

/-- Some endpoint of the device has its `lnb_power` flag set. -/
def lnb_requested (px4 : px4_device) : Bool :=
  (px4.tsdev 0).lnb_power || (px4.tsdev 1).lnb_power ||
    (px4.tsdev 2).lnb_power || (px4.tsdev 3).lnb_power

/-- A call that concerns the LNB supply: one of the two LNB requests on the endpoint
`id`, or the release of the endpoint. -/
inductive LnbOp where
  | enable (id : Fin 4) (arg : Nat)
  | disable (id : Fin 4)
  | release (id : Fin 4)

/-- The device after one call (its return value is dropped); the channel table and the
module parameters are those the `ioctl` is given. -/
def LnbOp.apply (env : HwEnv) (r850_channel_get_regs : Int → Int × List Nat)
    (max_urbs : Nat) (no_dma : Bool) (px4 : px4_device) : LnbOp → px4_device
  | .enable id arg =>
    (px4_tsdev_unlocked_ioctl env r850_channel_get_regs max_urbs no_dma px4 id
      (.PTX_ENABLE_LNB_POWER arg)).2
  | .disable id =>
    (px4_tsdev_unlocked_ioctl env r850_channel_get_regs max_urbs no_dma px4 id
      .PTX_DISABLE_LNB_POWER).2
  | .release id => (px4_tsdev_release env px4 id).2

/-- The device after a sequence of calls, first call first. -/
def run_lnb_ops (env : HwEnv) (r850_channel_get_regs : Int → Int × List Nat)
    (max_urbs : Nat) (no_dma : Bool) (px4 : px4_device) (ops : List LnbOp) : px4_device :=
  ops.foldl (LnbOp.apply env r850_channel_get_regs max_urbs no_dma) px4

/-- What the code under `px4->lock` that neither counts references nor switches the LNB
supply leaves alone, `s` being the device before and `t` the device after: the
reference count, `avail`, the slot in `devs`, the standard and the `lnb_power` flag of
every endpoint; and the calls it made include no write to GPIO 11. -/
def lnb_frame (s t : px4_device) : Prop :=
  t.ref = s.ref ∧ t.avail = s.avail ∧ t.registered = s.registered ∧
  (∀ j, (t.tsdev j).lnb_power = (s.tsdev j).lnb_power ∧ (t.tsdev j).isdb = (s.tsdev j).isdb) ∧
  ∃ l, t.trace = s.trace ++ l ∧ ∀ c ∈ l, is_gpio11 c = false

/-- The LNB invariant: the device is available, and the level written last to GPIO 11
is high or low as some or no endpoint has its `lnb_power` flag set. -/
def lnb_inv (px4 : px4_device) : Prop :=
  px4.avail ≠ 0 ∧ last_gpio11 px4.trace = some (lnb_requested px4)

/-! ## open, release and disconnect as concurrent threads -/

/-- The labels `fail_after_power:` / `fail:` of `px4_tsdev_open` up to
`mutex_unlock(&px4->lock)`: without the `px4_unref` that follows the unlock. -/
def px4_tsdev_open_fail_locked (env : HwEnv) (px4 : px4_device) (id : Fin 4) (ref : Int)
    (after_power : Bool) (ret : Int) : Int × px4_device :=
  let s1 := if after_power ∧ ref = 2 then (px4_set_power env px4 false).2 else px4
  (ret, s1.modify_tsdev id (fun t => { t with opened := false }))

/-- The part of `px4_tsdev_open` that runs under `px4->lock`, from
`tsdev = &px4->tsdev[tsdev_id]` to `mutex_unlock(&px4->lock)`; `ref` is what `px4_ref`
returned. -/
def px4_tsdev_open_locked (env : HwEnv) (s0 : px4_device) (id : Fin 4) (ref : Int) :
    Int × px4_device :=
  if (s0.tsdev id).opened then px4_tsdev_open_fail_locked env s0 id ref false (- EIO) else
  let s1 := s0.modify_tsdev id (fun t => { t with opened := true })
  let p : Int × px4_device := if ref = 2 then px4_set_power env s1 true else (0, s1)
  if p.1 ≠ 0 then px4_tsdev_open_fail_locked env p.2 id ref false p.1 else
  let t := px4_tsdev_init env p.2 id
  if t.1 ≠ 0 then px4_tsdev_open_fail_locked env t.2 id ref true t.1 else
  if ref = 2 then
    let w1 := hw env (.tc90522_write_regs 0 tc_init_s0) t.2
    if w1.1.ret ≠ 0 then px4_tsdev_open_fail_locked env w1.2 id ref true w1.1.ret else
    let w2 := hw env (.tc90522_write_regs 2 tc_init_t0) w1.2
    if w2.1.ret ≠ 0 then px4_tsdev_open_fail_locked env w2.2 id ref true w2.1.ret else
    (0, w2.2)
  else (0, t.2)

/-- The part of `px4_tsdev_release` under `px4->lock` up to and including
`ref = px4_unref(px4)`; `avail` is the value read before the lock was taken. It returns
`ref` and the device. -/
def px4_tsdev_release_locked (env : HwEnv) (px4 : px4_device) (id : Fin 4) (avail : Int) :
    Int × px4_device :=
  let s1 := (px4_tsdev_stop_streaming env px4 id (avail ≠ 0)).2
  let s2 := s1.modify_tsdev id (fun t => { t with opened := false })
  let s3 := s2.modify_tsdev id (fun t => { t with lnb_power := false })
  let s4 := if avail ≠ 0 then (px4_set_lnb_power env s3 false).2 else s3
  px4_unref s4

/-- The statement `if (avail && ref == 1) px4_set_power(px4, false);` of
`px4_tsdev_release`. -/
def px4_tsdev_release_power (env : HwEnv) (px4 : px4_device) (avail ref : Int) : px4_device :=
  if avail ≠ 0 ∧ ref = 1 then (px4_set_power env px4 false).2 else px4

/-- Where a thread stands that calls `px4_tsdev_open` on an endpoint and, if the open
succeeds, later `px4_tsdev_release` on the file. A thread moves from one point to the
next in one step; a step holds at most one access to what other threads can access
at the same time (a lock, `px4->ref`, `px4->avail`), together with accesses to what
the lock it holds protects. -/
inductive file_pc where
  /-- Line 903: `px4_tsdev_open` is called, before `mutex_lock(&glock)`. -/
  | o_start
  /-- Line 905: it holds `glock`, before `px4 = devs[dev_idx]`. -/
  | o_glock
  /-- Line 912: `devs[dev_idx]` was not null, before `atomic_read(&px4->avail)`. -/
  | o_found
  /-- Line 918: `avail` was not zero, before `px4_ref`. -/
  | o_checked
  /-- Line 921: `px4_ref` returned `ref`, before `mutex_lock(&px4->lock)`. -/
  | o_reffed (ref : Int)
  /-- Line 922: it holds `glock` and `px4->lock`, before `mutex_unlock(&glock)`. -/
  | o_plock (ref : Int)
  /-- Line 924: it holds `px4->lock` only, before the body. -/
  | o_body (ref : Int)
  /-- Line 978: the body failed with `ret` and `px4->lock` is released, before
  `px4_unref`. -/
  | o_fail (ret : Int)
  /-- The open returned `ret`, not zero. -/
  | o_failed (ret : Int)
  /-- The open returned 0: the session is open, `px4_tsdev_release` is not yet called. -/
  | opened
  /-- Line 1024: `px4_tsdev_release` is called and read `avail`, before
  `mutex_lock(&px4->lock)`. -/
  | r_avail (avail : Int)
  /-- Line 1026: it holds `px4->lock`, before the body. -/
  | r_plock (avail : Int)
  /-- Line 1038: `px4_unref` returned `ref`; it holds `px4->lock`. -/
  | r_unreffed (avail : Int) (ref : Int)
  /-- Line 1042: `px4->lock` is released, before `wake_up(&px4->wait)`. -/
  | r_unlocked
  /-- Line 1044: `wake_up` is done, before `pr_debug` reads `px4->dev_idx`. -/
  | r_woke
  /-- The release returned. -/
  | closed
  deriving DecidableEq

/-- Where the thread that runs `px4_disconnect` stands. -/
inductive disc_pc where
  /-- Line 1350: `px4_disconnect` is not called yet, or stands before
  `atomic_set(&px4->avail, 0)`. -/
  | d_start
  /-- Line 1351: `avail` is zero, before `mutex_lock(&px4->lock)`. -/
  | d_flagged
  /-- Line 1353: it holds `px4->lock`, before `mutex_lock(&glock)`. -/
  | d_plock
  /-- Line 1355: it holds both locks, before `devs[px4->dev_idx] = NULL`. -/
  | d_both
  /-- Line 1363: the slot in `devs` is null and `glock` is released, before `cdev_del`
  and `px4_unref`. -/
  | d_unpublished
  /-- Line 1367: `px4_unref` returned `ref`, before `mutex_unlock(&px4->lock)`. -/
  | d_unreffed (ref : Int)
  /-- Line 1369: at the test of `while (ref)`, holding no lock. -/
  | d_loop (ref : Int)
  /-- Line 1371: `wait_event` saw `ref != atomic_read(&px4->ref)`, before
  `ref = atomic_read(&px4->ref)`. -/
  | d_wake
  /-- Line 1379: `px4_term`, `it930x_bus_term` and `kfree(px4)` are done. -/
  | d_torn_down
  deriving DecidableEq

/-- One device with the two locks, the threads that opened or are opening its
endpoints, and the thread of `px4_disconnect`. -/
structure px4_system where
  dev : px4_device
  glock : Bool
  plock : Bool
  files : List (Fin 4 × file_pc)
  disc : disc_pc

/-- What the scheduler and the callers may do next: a new thread calls `px4_tsdev_open`
on the endpoint `id`; the thread number `k` takes its next step (for a thread whose
open succeeded, the first step of the release when it stands at `opened`); the thread
of `px4_disconnect` takes its next step. -/
inductive sys_event where
  | open_call (id : Fin 4)
  | file_step (k : Nat)
  | disc_step

/-- The next step of a thread on the endpoint `id` that stands at `pc`, in the system
`s`: the device, the two locks and the point the thread stands at afterwards. A thread
that waits for a lock, or has returned, stays where it is. -/
def file_next (env : HwEnv) (s : px4_system) (id : Fin 4) :
    file_pc → px4_device × Bool × Bool × file_pc
  | .o_start =>
    if s.glock then (s.dev, s.glock, s.plock, .o_start)
    else (s.dev, true, s.plock, .o_glock)
  | .o_glock =>
    if s.dev.registered = false then (s.dev, false, s.plock, .o_failed (- EFAULT))
    else (s.dev, s.glock, s.plock, .o_found)
  | .o_found =>
    if s.dev.avail = 0 then (s.dev, false, s.plock, .o_failed (- EIO))
    else (s.dev, s.glock, s.plock, .o_checked)
  | .o_checked => ((px4_ref s.dev).2, s.glock, s.plock, .o_reffed (px4_ref s.dev).1)
  | .o_reffed ref =>
    if s.plock then (s.dev, s.glock, s.plock, .o_reffed ref)
    else (s.dev, s.glock, true, .o_plock ref)
  | .o_plock ref => (s.dev, false, s.plock, .o_body ref)
  | .o_body ref =>
    let b := px4_tsdev_open_locked env s.dev id ref
    (b.2, s.glock, false, if b.1 = 0 then .opened else .o_fail b.1)
  | .o_fail ret => ((px4_unref s.dev).2, s.glock, s.plock, .o_failed ret)
  | .o_failed ret => (s.dev, s.glock, s.plock, .o_failed ret)
  | .opened => (s.dev, s.glock, s.plock, .r_avail s.dev.avail)
  | .r_avail avail =>
    if s.plock then (s.dev, s.glock, s.plock, .r_avail avail)
    else (s.dev, s.glock, true, .r_plock avail)
  | .r_plock avail =>
    let u := px4_tsdev_release_locked env s.dev id avail
    (u.2, s.glock, s.plock, .r_unreffed avail u.1)
  | .r_unreffed avail ref =>
    (px4_tsdev_release_power env s.dev avail ref, s.glock, false, .r_unlocked)
  | .r_unlocked => (s.dev, s.glock, s.plock, .r_woke)
  | .r_woke => (s.dev, s.glock, s.plock, .closed)
  | .closed => (s.dev, s.glock, s.plock, .closed)

/-- The next step of the thread of `px4_disconnect`. `wait_event` lets it pass when its
condition `ref != atomic_read(&px4->ref)` holds. -/
def disc_next (s : px4_system) : px4_system :=
  match s.disc with
  | .d_start => { s with dev := { s.dev with avail := 0 }, disc := .d_flagged }
  | .d_flagged => if s.plock then s else { s with plock := true, disc := .d_plock }
  | .d_plock => if s.glock then s else { s with glock := true, disc := .d_both }
  | .d_both =>
    { s with dev := { s.dev with registered := false }, glock := false, disc := .d_unpublished }
  | .d_unpublished => { s with dev := (px4_unref s.dev).2, disc := .d_unreffed (px4_unref s.dev).1 }
  | .d_unreffed ref => { s with plock := false, disc := .d_loop ref }
  | .d_loop ref =>
    if ref = 0 then { s with disc := .d_torn_down }
    else if ref ≠ s.dev.ref then { s with disc := .d_wake }
    else s
  | .d_wake => { s with disc := .d_loop s.dev.ref }
  | .d_torn_down => s

/-- One step of the system. -/
def sys_step (env : HwEnv) (s : px4_system) : sys_event → px4_system
  | .open_call id => { s with files := s.files ++ [(id, .o_start)] }
  | .file_step k =>
    match s.files.get? k with
    | none => s
    | some f =>
      let n := file_next env s f.1 f.2
      { s with dev := n.1, glock := n.2.1, plock := n.2.2.1, files := s.files.set k (f.1, n.2.2.2) }
  | .disc_step => disc_next s

/-- The system after a sequence of steps, first step first. -/
def run_system (env : HwEnv) (s : px4_system) (evs : List sys_event) : px4_system :=
  evs.foldl (sys_step env) s

/-- The system right after `px4_probe`: the device published, no lock held, no thread. -/
def attached_system (xfer_packets : Nat) : px4_system :=
  { dev := px4_probe_ok xfer_packets, glock := false, plock := false, files := [],
    disc := .d_start }

/-- The thread counts in `px4->ref`: it has called `px4_ref` and not yet `px4_unref`. -/
def file_refs : file_pc → Nat
  | .o_reffed _ => 1
  | .o_plock _ => 1
  | .o_body _ => 1
  | .o_fail _ => 1
  | .opened => 1
  | .r_avail _ => 1
  | .r_plock _ => 1
  | _ => 0

/-- The thread holds `glock`. -/
def file_glock : file_pc → Nat
  | .o_glock => 1
  | .o_found => 1
  | .o_checked => 1
  | .o_reffed _ => 1
  | .o_plock _ => 1
  | _ => 0

/-- The thread holds `px4->lock`. -/
def file_plock : file_pc → Nat
  | .o_plock _ => 1
  | .o_body _ => 1
  | .r_plock _ => 1
  | .r_unreffed _ _ => 1
  | _ => 0

/-- The thread has read a slot of `devs` that was not null and has not yet left the
part of `px4_tsdev_open` under `px4->lock`. -/
def file_entering : file_pc → Bool
  | .o_found => true
  | .o_checked => true
  | .o_reffed _ => true
  | .o_plock _ => true
  | .o_body _ => true
  | _ => false

/-- The thread holds an open session: its open returned 0 and its release has not yet
called `px4_unref`. -/
def file_session : file_pc → Bool
  | .opened => true
  | .r_avail _ => true
  | .r_plock _ => true
  | _ => false

/-- The reference `px4_probe` took is not yet dropped by `px4_disconnect`. -/
def disc_refs : disc_pc → Nat
  | .d_start => 1
  | .d_flagged => 1
  | .d_plock => 1
  | .d_both => 1
  | .d_unpublished => 1
  | _ => 0

/-- The thread of `px4_disconnect` holds `glock`. -/
def disc_glock : disc_pc → Nat
  | .d_both => 1
  | _ => 0

/-- The thread of `px4_disconnect` holds `px4->lock`. -/
def disc_plock : disc_pc → Nat
  | .d_plock => 1
  | .d_both => 1
  | .d_unpublished => 1
  | .d_unreffed _ => 1
  | _ => 0

/-- The thread of `px4_disconnect` has set the slot in `devs` to null. -/
def disc_unpublished : disc_pc → Bool
  | .d_unpublished => true
  | .d_unreffed _ => true
  | .d_loop _ => true
  | .d_wake => true
  | .d_torn_down => true
  | _ => false

/-- The thread of `px4_disconnect` has observed the reference count zero: `px4_unref`
or `atomic_read(&px4->ref)` gave it 0, or it has left the wait loop. -/
def disc_drained : disc_pc → Bool
  | .d_unreffed ref => ref == 0
  | .d_loop ref => ref == 0
  | .d_torn_down => true
  | _ => false

/-- The sum of `g` over the threads. -/
def sum_files (g : file_pc → Nat) (files : List (Fin 4 × file_pc)) : Nat :=
  (files.map (fun f => g f.2)).sum

/-- The invariant of the system: `px4->ref` is the reference of `px4_probe`, while
`px4_disconnect` has not dropped it, plus one for each thread between its `px4_ref`
and its `px4_unref`; each lock is held by at most one thread; the slot in `devs` is
null exactly when `px4_disconnect` has cleared it, and then no thread is inside
`px4_tsdev_open` past the test of the slot; and once `px4_disconnect` has observed the
reference count zero, no thread counts in it. -/
def sys_inv (s : px4_system) : Prop :=
  s.dev.ref = ((disc_refs s.disc + sum_files file_refs s.files : Nat) : Int) ∧
  (if s.glock then 1 else 0) = disc_glock s.disc + sum_files file_glock s.files ∧
  (if s.plock then 1 else 0) = disc_plock s.disc + sum_files file_plock s.files ∧
  (s.dev.registered = false ↔ disc_unpublished s.disc = true) ∧
  (s.dev.registered = false → ∀ f ∈ s.files, file_entering f.2 = false) ∧
  (disc_drained s.disc = true → ∀ f ∈ s.files, file_refs f.2 = 0)


/-! ## demultiplexer: proofs -/

theorem flatten_length_of_valid (recs : List (List Nat)) (h : ∀ r ∈ recs, valid_record r) :
    recs.flatten.length = 188 * recs.length := by
  induction recs with
  | nil => simp
  | cons r rs ih =>
    have hr := (h r (List.mem_cons_self _ _)).1
    have := ih (fun x hx => h x (List.mem_cons_of_mem _ hx))
    simp [List.flatten, List.length_append, hr, this]
    omega

theorem is_sync_at_of_valid (recs : List (List Nat)) (h : ∀ r ∈ recs, valid_record r) :
    ∀ i, i < recs.length → is_sync (recs.flatten.getD (i * 188) 0) = true := by
  induction recs with
  | nil => intro i hi; simp at hi
  | cons r rs ih =>
    intro i hi
    have hr := h r (List.mem_cons_self _ _)
    cases i with
    | zero =>
      have : 0 < r.length := by rw [hr.1]; decide
      simp only [List.flatten, Nat.zero_mul]
      rw [List.getD_append _ _ _ _ this]
      exact hr.2
    | succ i =>
      simp only [List.flatten]
      rw [List.getD_append_right _ _ _ _ (by rw [hr.1]; omega)]
      have : (i + 1) * 188 - r.length = i * 188 := by rw [hr.1]; omega
      rw [this]
      exact ih (fun x hx => h x (List.mem_cons_of_mem _ hx)) i (by simpa using hi)

theorem sync_for_of_aligned (p : List Nat) (n : Nat) (hlen : p.length = 188 * n)
    (hs : ∀ i, i < n → is_sync (p.getD (i * 188) 0) = true) :
    px4_ts_sync_for p 4 0 = (min n 4, true) := by
  have h0 := hs 0
  have h1 := hs 1
  have h2 := hs 2
  have h3 := hs 3
  rcases Nat.lt_or_ge n 4 with hn | hn
  · interval_cases n <;> simp_all [px4_ts_sync_for, -List.getD_eq_getElem?_getD]
  · have e : min n 4 = 4 := by omega
    rw [e]
    have l0 : 0 < p.length := by omega
    have l1 : 188 < p.length := by omega
    have l2 : 376 < p.length := by omega
    have l3 : 564 < p.length := by omega
    have g0 : is_sync (p.getD 0 0) = true := hs 0 (by omega)
    have g1 : is_sync (p.getD 188 0) = true := hs 1 (by omega)
    have g2 : is_sync (p.getD 376 0) = true := hs 2 (by omega)
    have g3 : is_sync (p.getD 564 0) = true := hs 3 (by omega)
    simp [px4_ts_sync_for, -List.getD_eq_getElem?_getD, l0, l1, l2, l3, g0, g1, g2, g3]

theorem sync_of_valid_run (recs : List (List Nat)) (h : ∀ r ∈ recs, valid_record r)
    (hn : 1 ≤ recs.length) :
    px4_ts_sync recs.flatten =
      if 4 ≤ recs.length then (true, recs.flatten, false) else (false, recs.flatten, true) := by
  have hlen := flatten_length_of_valid recs h
  have hfor := sync_for_of_aligned recs.flatten recs.length hlen (is_sync_at_of_valid recs h)
  cases hp : recs.flatten with
  | nil => rw [hp, List.length_nil] at hlen; omega
  | cons x xs =>
    rw [hp] at hfor
    simp only [px4_ts_sync, hfor, TS_SYNC_COUNT]
    by_cases h4 : 4 ≤ recs.length
    · simp [h4]
    · have : ¬ (min recs.length 4 = 4) := by omega
      simp [h4, this]

theorem write_loop_succ (fuel : Nat) (px4 : px4_device) (p : List Nat) :
    px4_ts_write_loop (fuel + 1) px4 p =
      if p.length ≥ 188 ∧ is_sync (p.getD 0 0) then
        px4_ts_write_loop fuel (deliver px4 (p.take 188)) (p.drop 188)
      else (px4, p) := by
  by_cases hc : p.length ≥ 188 ∧ is_sync (p.getD 0 0)
  · have e : (p.take 188).getD 0 0 = p.getD 0 0 := by
      cases p with
      | nil => simp
      | cons x xs => simp
    simp only [px4_ts_write_loop, if_pos hc, deliver, route_id, e]
  · simp only [px4_ts_write_loop, if_neg hc]

theorem write_loop_run (recs : List (List Nat)) (h : ∀ r ∈ recs, valid_record r) :
    ∀ (fuel : Nat) (px4 : px4_device) (rest : List Nat), recs.length ≤ fuel →
      px4_ts_write_loop fuel px4 (recs.flatten ++ rest) =
        px4_ts_write_loop (fuel - recs.length) (recs.foldl deliver px4) rest := by
  induction recs with
  | nil => intro fuel px4 rest _; simp
  | cons r rs ih =>
    intro fuel px4 rest hf
    have hr := h r (List.mem_cons_self _ _)
    have hrs : ∀ x ∈ rs, valid_record x := fun x hx => h x (List.mem_cons_of_mem _ hx)
    obtain ⟨f, rfl⟩ : ∃ f, fuel = f + 1 := ⟨fuel - 1, by simp at hf; omega⟩
    have hpos : 0 < r.length := by rw [hr.1]; decide
    have e0 : (r ++ (rs.flatten ++ rest)).getD 0 0 = r.getD 0 0 :=
      List.getD_append _ _ _ _ hpos
    have etake : (r ++ (rs.flatten ++ rest)).take 188 = r := by
      rw [← hr.1]; simp
    have edrop : (r ++ (rs.flatten ++ rest)).drop 188 = rs.flatten ++ rest := by
      rw [← hr.1]; simp
    have hlen : (r ++ (rs.flatten ++ rest)).length ≥ 188 := by
      simp [hr.1]
    simp only [List.flatten, List.append_assoc, List.foldl_cons]
    rw [write_loop_succ, if_pos ⟨hlen, by rw [e0]; exact hr.2⟩, etake, edrop]
    have := ih hrs f (deliver px4 r) rest (by simp at hf; omega)
    simp only [List.length_cons, Nat.add_sub_add_right]
    exact this

theorem write_run (px4 : px4_device) (recs : List (List Nat)) (h : ∀ r ∈ recs, valid_record r) :
    px4_ts_write px4 recs.flatten = (recs.foldl deliver px4, []) := by
  have hlen := flatten_length_of_valid recs h
  have := write_loop_run recs h recs.flatten.length px4 [] (by rw [hlen]; omega)
  simp only [List.append_nil] at this
  rw [px4_ts_write, this]
  cases (recs.flatten.length - recs.length) <;> simp [px4_ts_write_loop]

theorem deliver_data (px4 : px4_device) (r : List Nat) (j : Fin 4) :
    ((deliver px4 r).tsdev j).rgbuf.data =
      (px4.tsdev j).rgbuf.data ++ (if route_id r = j.val + 1 then 0x47 :: r.tail else []) := by
  unfold deliver
  by_cases h : route_id r ≠ 0 ∧ route_id r < 5
  · rw [dif_pos h]
    by_cases hj : route_id r = j.val + 1
    · have : j = (⟨route_id r - 1, by omega⟩ : Fin 4) := by
        apply Fin.ext; simp; omega
      simp [px4_device.set_tsdev, ringbuffer_write, hj, ← this]
    · have : ¬ (j = (⟨route_id r - 1, by omega⟩ : Fin 4)) := by
        intro e; apply hj; rw [e]; simp; omega
      simp [px4_device.set_tsdev, hj, this]
  · rw [dif_neg h]
    have : ¬ (route_id r = j.val + 1) := by
      have := j.isLt
      omega
    simp [this]

theorem foldl_deliver_data (recs : List (List Nat)) :
    ∀ (px4 : px4_device) (j : Fin 4),
      ((recs.foldl deliver px4).tsdev j).rgbuf.data =
        (px4.tsdev j).rgbuf.data ++ routed j recs := by
  induction recs with
  | nil => intro px4 j; simp [routed]
  | cons r rs ih =>
    intro px4 j
    rw [List.foldl_cons, ih, deliver_data]
    by_cases hj : route_id r = j.val + 1 <;> simp [routed, List.filter_cons, hj]

theorem on_stream_loop_nil (fuel : Nat) (px4 : px4_device) :
    px4_on_stream_loop fuel px4 [] = px4 := by
  cases fuel <;> simp [px4_on_stream_loop]

theorem on_stream_valid_run (px4 : px4_device) (recs : List (List Nat))
    (h : ∀ r ∈ recs, valid_record r) :
    px4_on_stream px4 recs.flatten =
      (0, if 4 ≤ recs.length then recs.foldl deliver px4 else px4) := by
  have hlen := flatten_length_of_valid recs h
  unfold px4_on_stream
  congr 1
  rcases Nat.eq_zero_or_pos recs.length with h0 | hpos
  · have : recs = [] := List.length_eq_zero.mp h0
    subst this
    simp [px4_on_stream_loop]
  · obtain ⟨f, hf⟩ : ∃ f, recs.flatten.length = f + 1 := ⟨recs.flatten.length - 1, by omega⟩
    have hne : ¬ (recs.flatten.length = 0) := by omega
    rw [hf]
    simp only [px4_on_stream_loop, if_neg hne, sync_of_valid_run recs h hpos]
    by_cases h4 : 4 ≤ recs.length
    · simp [h4, write_run px4 recs h, on_stream_loop_nil]
    · simp [h4]

theorem routing_nibble_eq (b : Nat) : (b &&& 0x70) >>> 4 = (b >>> 4) &&& 7 := by
  apply Nat.eq_of_testBit_eq
  intro i
  simp only [Nat.testBit_shiftRight, Nat.testBit_land]
  congr 1
  rcases i with _ | _ | _ | i
  · decide
  · decide
  · decide
  · have h1 : Nat.testBit 0x70 (4 + (i + 3)) = false :=
      Nat.testBit_eq_false_of_lt (lt_of_lt_of_le (by decide : 0x70 < 2 ^ 7)
        (Nat.pow_le_pow_right (by decide) (by omega)))
    have h2 : Nat.testBit 7 (i + 3) = false :=
      Nat.testBit_eq_false_of_lt (lt_of_lt_of_le (by decide : 7 < 2 ^ 3)
        (Nat.pow_le_pow_right (by decide) (by omega)))
    rw [h1, h2]

theorem route_id_of_well_formed (r : List Nat) (h : well_formed_record r) :
    1 ≤ route_id r ∧ route_id r ≤ 4 := by
  unfold route_id
  rw [routing_nibble_eq]
  exact h.2

theorem routed_count_total (recs : List (List Nat)) (h : ∀ r ∈ recs, well_formed_record r) :
    (recs.filter (fun r => route_id r = 1)).length + (recs.filter (fun r => route_id r = 2)).length
      + (recs.filter (fun r => route_id r = 3)).length
      + (recs.filter (fun r => route_id r = 4)).length = recs.length := by
  induction recs with
  | nil => simp
  | cons r rs ih =>
    have hr := h r (List.mem_cons_self _ _)
    have := ih (fun x hx => h x (List.mem_cons_of_mem _ hx))
    obtain ⟨h1, h4⟩ := route_id_of_well_formed r hr
    have hcases : route_id r = 1 ∨ route_id r = 2 ∨ route_id r = 3 ∨ route_id r = 4 := by omega
    rcases hcases with e | e | e | e <;> simp [List.filter_cons, e] <;> omega

theorem sync_for_reject (p : List Nat)
    (h : ∃ i, i < 4 ∧ i * 188 < p.length ∧ is_sync (p.getD (i * 188) 0) = false) :
    (px4_ts_sync_for p 4 0).2 = false ∧ (px4_ts_sync_for p 4 0).1 ≠ 4 := by
  obtain ⟨i, hi, hlen, hs⟩ := h
  have l0 : 0 < p.length := by omega
  simp only [px4_ts_sync_for, Nat.zero_mul, gt_iff_lt, l0, if_true, Nat.zero_add, Nat.one_mul]
  interval_cases i
  · simp [-List.getD_eq_getElem?_getD, (by simpa using hs : is_sync (p.getD 0 0) = false)]
  · have l1 : 188 < p.length := by omega
    have g1 : is_sync (p.getD 188 0) = false := hs
    cases h0 : is_sync (p.getD 0 0) <;> simp [-List.getD_eq_getElem?_getD, l1, g1]
  · have l1 : 188 < p.length := by omega
    have l2 : 2 * 188 < p.length := by omega
    have g2 : is_sync (p.getD (2 * 188) 0) = false := hs
    cases h0 : is_sync (p.getD 0 0) <;> cases h1 : is_sync (p.getD 188 0) <;>
      simp [-List.getD_eq_getElem?_getD, l1, l2, g2]
  · have l1 : 188 < p.length := by omega
    have l2 : 2 * 188 < p.length := by omega
    have l3 : 3 * 188 < p.length := by omega
    have g3 : is_sync (p.getD (3 * 188) 0) = false := hs
    cases h0 : is_sync (p.getD 0 0) <;> cases h1 : is_sync (p.getD 188 0) <;>
      cases h2 : is_sync (p.getD (2 * 188) 0) <;>
      simp [-List.getD_eq_getElem?_getD, l1, l2, l3, g3]

theorem sync_skip (g run : List Nat)
    (hg : ∀ j, j < g.length → ∃ i, i < 4 ∧ j + i * 188 < (g ++ run).length ∧
      is_sync ((g ++ run).getD (j + i * 188) 0) = false) :
    px4_ts_sync (g ++ run) = px4_ts_sync run := by
  induction g with
  | nil => rfl
  | cons x g ih =>
    have h0 := hg 0 (by simp)
    simp only [Nat.zero_add] at h0
    have hr := sync_for_reject (x :: g ++ run) h0
    have ih' := ih (by
      intro j hj
      obtain ⟨i, hi, hl, hs⟩ := hg (j + 1) (by simpa using hj)
      refine ⟨i, hi, ?_, ?_⟩
      · simp only [List.cons_append, List.length_cons] at hl; omega
      · have e : j + 1 + i * 188 = (j + i * 188) + 1 := by omega
        rw [e] at hs
        simpa [List.getD_cons_succ] using hs)
    simp only [List.cons_append] at hr ⊢
    rw [px4_ts_sync]
    simp only [TS_SYNC_COUNT, if_neg hr.2, hr.1]
    exact ih'

theorem sync_for_accept (p : List Nat) (h : (px4_ts_sync_for p 4 0).1 = 4) :
    564 < p.length ∧ is_sync (p.getD 0 0) = true := by
  simp only [px4_ts_sync_for, Nat.zero_mul, Nat.zero_add, Nat.one_mul] at h
  split_ifs at h <;> simp_all

theorem sync_result (p : List Nat) :
    (px4_ts_sync p).2.1.length ≤ p.length ∧
      ((px4_ts_sync p).1 = true →
        188 ≤ (px4_ts_sync p).2.1.length ∧ is_sync ((px4_ts_sync p).2.1.getD 0 0) = true) := by
  induction p with
  | nil => simp [px4_ts_sync]
  | cons x xs ih =>
    rw [px4_ts_sync]
    by_cases h4 : (px4_ts_sync_for (x :: xs) TS_SYNC_COUNT 0).1 = TS_SYNC_COUNT
    · have := sync_for_accept (x :: xs) h4
      simp only [if_pos h4]
      exact ⟨le_refl _, fun _ => ⟨by omega, this.2⟩⟩
    · simp only [if_neg h4]
      by_cases hb : (px4_ts_sync_for (x :: xs) TS_SYNC_COUNT 0).2 = true
      · simp [hb]
      · simp only [hb]
        refine ⟨?_, ih.2⟩
        have := ih.1
        simp only [List.length_cons]
        exact Nat.le_succ_of_le this

theorem write_loop_length (fuel : Nat) :
    ∀ (px4 : px4_device) (p : List Nat), (px4_ts_write_loop fuel px4 p).2.length ≤ p.length := by
  induction fuel with
  | zero => intro px4 p; simp [px4_ts_write_loop]
  | succ f ih =>
    intro px4 p
    rw [write_loop_succ]
    split_ifs with hc
    · have := ih (deliver px4 (p.take 188)) (p.drop 188)
      simp only [List.length_drop] at this
      omega
    · exact le_refl _

theorem write_progress (px4 : px4_device) (p : List Nat) (hl : 188 ≤ p.length)
    (hs : is_sync (p.getD 0 0) = true) :
    (px4_ts_write px4 p).2.length < p.length := by
  unfold px4_ts_write
  obtain ⟨f, hf⟩ : ∃ f, p.length = f + 1 := ⟨p.length - 1, by omega⟩
  rw [hf, write_loop_succ, if_pos ⟨hl, hs⟩]
  have := write_loop_length f (deliver px4 (p.take 188)) (p.drop 188)
  simp only [List.length_drop] at this
  omega

theorem on_stream_loop_fuel (f1 : Nat) :
    ∀ (f2 : Nat) (px4 : px4_device) (p : List Nat), p.length ≤ f1 → p.length ≤ f2 →
      px4_on_stream_loop f1 px4 p = px4_on_stream_loop f2 px4 p := by
  induction f1 with
  | zero =>
    intro f2 px4 p h1 _
    have : p = [] := List.length_eq_zero.mp (by omega)
    subst this
    rw [on_stream_loop_nil, on_stream_loop_nil]
  | succ f1 ih =>
    intro f2 px4 p h1 h2
    cases f2 with
    | zero =>
      have : p = [] := List.length_eq_zero.mp (by omega)
      subst this
      rw [on_stream_loop_nil, on_stream_loop_nil]
    | succ f2 =>
      simp only [px4_on_stream_loop]
      by_cases h0 : p.length = 0
      · simp [h0]
      · simp only [if_neg h0]
        cases hr : (px4_ts_sync p).1 with
        | false => simp
        | true =>
          simp only [Bool.not_true, Bool.false_eq_true, if_false]
          have hs := sync_result p
          have hw := write_progress px4 (px4_ts_sync p).2.1 (hs.2 hr).1 (hs.2 hr).2
          exact ih f2 _ _ (by omega) (by omega)

theorem on_stream_skip (px4 : px4_device) (g run : List Nat)
    (hsync : px4_ts_sync (g ++ run) = px4_ts_sync run) :
    px4_on_stream px4 (g ++ run) = px4_on_stream px4 run := by
  unfold px4_on_stream
  congr 1
  cases hrun : run with
  | nil =>
    subst hrun
    rw [on_stream_loop_nil]
    cases hlen : (g ++ []).length with
    | zero => simp [px4_on_stream_loop]
    | succ f =>
      have h0 : ¬ ((g ++ []).length = 0) := by omega
      simp only [px4_on_stream_loop, if_neg h0, hsync, px4_ts_sync]
      simp
  | cons y ys =>
    rw [← hrun]
    have hpos : 0 < run.length := by rw [hrun]; simp
    obtain ⟨f1, hf1⟩ : ∃ f, (g ++ run).length = f + 1 :=
      ⟨(g ++ run).length - 1, by simp only [List.length_append]; omega⟩
    obtain ⟨f2, hf2⟩ : ∃ f, run.length = f + 1 := ⟨run.length - 1, by omega⟩
    have h1 : ¬ ((g ++ run).length = 0) := by omega
    have h2 : ¬ (run.length = 0) := by omega
    rw [hf1, hf2]
    simp only [px4_on_stream_loop, if_neg h1, if_neg h2, hsync]
    cases hr : (px4_ts_sync run).1 with
    | false => simp
    | true =>
      simp only [Bool.not_true, Bool.false_eq_true, if_false]
      have hs := sync_result run
      have hw := write_progress px4 (px4_ts_sync run).2.1 (hs.2 hr).1 (hs.2 hr).2
      have hl : (g ++ run).length = g.length + run.length := List.length_append _ _
      exact on_stream_loop_fuel f1 f2 _ _ (by omega) (by omega)

theorem routed_length (j : Fin 4) (recs : List (List Nat)) (h : ∀ r ∈ recs, valid_record r) :
    (routed j recs).length = 188 * routed_count j recs := by
  induction recs with
  | nil => simp [routed, routed_count]
  | cons r rs ih =>
    have hr := (h r (List.mem_cons_self _ _)).1
    have ih' := ih (fun x hx => h x (List.mem_cons_of_mem _ hx))
    unfold routed routed_count at ih' ⊢
    by_cases hj : route_id r = j.val + 1
    · simp [List.filter_cons, hj, hr] at ih' ⊢
      omega
    · simp only [List.filter_cons, hj, decide_False]
      exact ih'

/-- C1 (amended). For a raw buffer made of exactly `N` consecutive well-formed 188-byte
records, `px4_on_stream` returns 0 and, when `N ≥ 4`, appends to the ring buffer of
each endpoint exactly the records addressed to it, in input order, each with its
leading byte rewritten to `0x47`; the records appended to the four ring buffers
number `N` (188 bytes each). When `N < 4` the four-position sync test cannot
complete and the device, ring buffers included, is left unchanged. -/
theorem px4_on_stream_routes_aligned_run (px4 : px4_device) (recs : List (List Nat))
    (h : ∀ r ∈ recs, well_formed_record r) :
    (px4_on_stream px4 recs.flatten).1 = 0 ∧
    (4 ≤ recs.length →
      (∀ j : Fin 4, ((px4_on_stream px4 recs.flatten).2.tsdev j).rgbuf.data =
          (px4.tsdev j).rgbuf.data ++ routed j recs) ∧
      (∀ j : Fin 4, (routed j recs).length = 188 * routed_count j recs) ∧
      routed_count 0 recs + routed_count 1 recs + routed_count 2 recs + routed_count 3 recs
        = recs.length) ∧
    (recs.length < 4 → (px4_on_stream px4 recs.flatten).2 = px4) := by
  have hv : ∀ r ∈ recs, valid_record r := fun r hr => (h r hr).1
  have hrun := on_stream_valid_run px4 recs hv
  refine ⟨by rw [hrun], ?_, ?_⟩
  · intro h4
    refine ⟨?_, fun j => routed_length j recs hv, ?_⟩
    · intro j
      rw [hrun]
      simp only [if_pos h4]
      exact foldl_deliver_data recs px4 j
    · have := routed_count_total recs h
      simpa [routed_count] using this
  · intro h4
    rw [hrun]
    simp only [if_neg (Nat.not_le.mpr h4)]

/-- Witness for `px4_on_stream_routes_aligned_run`: four records, one per endpoint. -/
theorem px4_on_stream_routes_aligned_run_witness :
    (∀ r ∈ [ts_record 0x17, ts_record 0x27, ts_record 0x37, ts_record 0x47],
        well_formed_record r) ∧
    ((px4_on_stream (px4_init px4_kzalloc)
        [ts_record 0x17, ts_record 0x27, ts_record 0x37, ts_record 0x47].flatten).2.tsdev 2
      ).rgbuf.data =
      ((px4_init px4_kzalloc).tsdev 2).rgbuf.data ++
        routed 2 [ts_record 0x17, ts_record 0x27, ts_record 0x37, ts_record 0x47] :=
  ⟨by decide,
   ((px4_on_stream_routes_aligned_run (px4_init px4_kzalloc)
      [ts_record 0x17, ts_record 0x27, ts_record 0x37, ts_record 0x47]
      (by decide)).2.1 (by decide)).1 2⟩

/-- C1 (counterexample). A 376-byte buffer holding two well-formed records for the
endpoint `tsdev[2]` (leading byte `0x37`): the claim promises `2 * 188` bytes in that
endpoint's ring buffer, `px4_on_stream` leaves it empty. -/
theorem px4_on_stream_drops_two_records :
    (∀ r ∈ [ts_record 0x37, ts_record 0x37], well_formed_record r) ∧
    [ts_record 0x37, ts_record 0x37].flatten.length = 376 ∧
    (routed 2 [ts_record 0x37, ts_record 0x37]).length = 2 * 188 ∧
    ((px4_on_stream (px4_init px4_kzalloc)
        [ts_record 0x37, ts_record 0x37].flatten).2.tsdev 2).rgbuf.data = [] := by
  decide

/-- C4 (amended). Let `g` be `k` garbage bytes such that at every offset `j < k` of
`g ++ run` one of the positions `j`, `j + 188`, `j + 376`, `j + 564` that lie inside the
buffer holds a byte failing the sync test (so it is when no garbage byte passes
the test). Then, for a run of valid 188-byte records, `px4_ts_sync` stops exactly at
the start of the run (the `k` leading bytes are discarded), `px4_on_stream` leaves
the device as if it had been applied to the run alone, and when the run has at
least four records every record of it is routed. -/
theorem px4_on_stream_resync (px4 : px4_device) (g : List Nat) (recs : List (List Nat))
    (hv : ∀ r ∈ recs, valid_record r)
    (hg : ∀ j, j < g.length → ∃ i, i < 4 ∧ j + i * 188 < (g ++ recs.flatten).length ∧
      is_sync ((g ++ recs.flatten).getD (j + i * 188) 0) = false) :
    (px4_ts_sync (g ++ recs.flatten)).2.1 = recs.flatten ∧
    px4_on_stream px4 (g ++ recs.flatten) = px4_on_stream px4 recs.flatten ∧
    (4 ≤ recs.length →
      ∀ j : Fin 4, ((px4_on_stream px4 (g ++ recs.flatten)).2.tsdev j).rgbuf.data =
        (px4.tsdev j).rgbuf.data ++ routed j recs) := by
  have hs := sync_skip g recs.flatten hg
  have ho := on_stream_skip px4 g recs.flatten hs
  refine ⟨?_, ho, ?_⟩
  · rw [hs]
    rcases Nat.eq_zero_or_pos recs.length with h0 | hpos
    · have : recs = [] := List.length_eq_zero.mp h0
      subst this
      simp [px4_ts_sync]
    · rw [sync_of_valid_run recs hv hpos]
      split_ifs <;> rfl
  · intro h4 j
    rw [ho, on_stream_valid_run px4 recs hv]
    simp only [if_pos h4]
    exact foldl_deliver_data recs px4 j

/-- Witness for `px4_on_stream_resync`: two garbage bytes before four records. -/
theorem px4_on_stream_resync_witness :
    (∀ r ∈ [ts_record 0x17, ts_record 0x27, ts_record 0x37, ts_record 0x47],
        valid_record r) ∧
    (px4_ts_sync ([0x00, 0xff] ++
        [ts_record 0x17, ts_record 0x27, ts_record 0x37, ts_record 0x47].flatten)).2.1 =
      [ts_record 0x17, ts_record 0x27, ts_record 0x37, ts_record 0x47].flatten ∧
    px4_on_stream (px4_init px4_kzalloc) ([0x00, 0xff] ++
        [ts_record 0x17, ts_record 0x27, ts_record 0x37, ts_record 0x47].flatten) =
      px4_on_stream (px4_init px4_kzalloc)
        [ts_record 0x17, ts_record 0x27, ts_record 0x37, ts_record 0x47].flatten :=
  ⟨by decide,
   (px4_on_stream_resync (px4_init px4_kzalloc) [0x00, 0xff]
      [ts_record 0x17, ts_record 0x27, ts_record 0x37, ts_record 0x47] (by decide)
      (by decide)).1,
   (px4_on_stream_resync (px4_init px4_kzalloc) [0x00, 0xff]
      [ts_record 0x17, ts_record 0x27, ts_record 0x37, ts_record 0x47] (by decide)
      (by decide)).2.1⟩

/-- C4 (counterexample). One garbage byte `0x17` before four well-formed records whose
last byte is `0x17`: the scan locks at offset 0, so no byte is discarded and the
records are framed one byte early; the ring buffer of endpoint 0 differs from what
`px4_on_stream` leaves for the run alone. -/
theorem px4_on_stream_false_lock :
    (∀ r ∈ [ts_record_tail17, ts_record_tail17, ts_record_tail17, ts_record_tail17],
        well_formed_record r) ∧
    (px4_ts_sync ([0x17] ++
        [ts_record_tail17, ts_record_tail17, ts_record_tail17, ts_record_tail17].flatten)).2.1
      = [0x17] ++
        [ts_record_tail17, ts_record_tail17, ts_record_tail17, ts_record_tail17].flatten ∧
    ((px4_on_stream (px4_init px4_kzalloc) ([0x17] ++
        [ts_record_tail17, ts_record_tail17, ts_record_tail17, ts_record_tail17].flatten)
      ).2.tsdev 0).rgbuf.data ≠
    ((px4_on_stream (px4_init px4_kzalloc)
        [ts_record_tail17, ts_record_tail17, ts_record_tail17, ts_record_tail17].flatten
      ).2.tsdev 0).rgbuf.data := by
  decide

/-! ## tuning: proofs -/

theorem hw_eq (env : HwEnv) (c : HwCall) (s : px4_device) :
    hw env c s = (env s.trace c, s.add_calls [c]) := rfl

theorem add_calls_add_calls (s : px4_device) (a b : List HwCall) :
    (s.add_calls a).add_calls b = s.add_calls (a ++ b) := by
  simp [px4_device.add_calls, List.append_assoc]

theorem add_calls_nil (s : px4_device) : s.add_calls [] = s := by
  simp [px4_device.add_calls]

@[simp] theorem add_calls_trace (s : px4_device) (l : List HwCall) :
    (s.add_calls l).trace = s.trace ++ l := rfl

@[simp] theorem add_calls_tsdev (s : px4_device) (l : List HwCall) :
    (s.add_calls l).tsdev = s.tsdev := rfl

theorem calls_since_add_calls (s : px4_device) (l : List HwCall) :
    calls_since s (s.add_calls l) = l := by
  simp [calls_since, px4_device.add_calls]

theorem poll_locked_never (env : HwEnv) (q : HwCall) (d : Nat)
    (h : ∀ tr, (env tr q).ret = 0 ∧ (env tr q).flag = false) :
    ∀ (n : Nat) (r : Int × Bool) (s : px4_device),
      poll_locked env q d (n + 1) r s = ((0, false), s.add_calls (poll_calls q d (n + 1))) := by
  intro n
  induction n with
  | zero =>
    intro r s
    have hq := h s.trace
    simp only [poll_locked, hw_eq, hq.1, hq.2, poll_calls, add_calls_add_calls]
    simp
  | succ n ih =>
    intro r s
    have hq := h s.trace
    rw [poll_locked]
    simp only [hw_eq, hq.1, hq.2, add_calls_add_calls]
    rw [if_neg (by simp), ih]
    simp [add_calls_add_calls, poll_calls, List.replicate_succ]

theorem filter_poll_calls (P : HwCall → Bool) (q : HwCall) (d n : Nat) (hq : P q = true)
    (hd : P (.msleep d) = false) : ((poll_calls q d n).filter P).length = n := by
  induction n with
  | zero => simp [poll_calls]
  | succ n ih =>
    simp only [poll_calls, List.replicate_succ, List.flatten_cons] at ih ⊢
    simp [List.filter_cons, hq, hd, ih]

theorem mem_poll_calls (q : HwCall) (d n : Nat) (c : HwCall) (h : c ∈ poll_calls q d n) :
    c = q ∨ c = .msleep d := by
  induction n with
  | zero => simp [poll_calls] at h
  | succ n ih =>
    simp only [poll_calls, List.replicate_succ, List.flatten_cons, List.mem_append,
      List.mem_cons, List.mem_singleton, List.not_mem_nil, or_false] at h ih
    rcases h with (h | h) | h
    · exact Or.inl h
    · exact Or.inr h
    · exact ih h

theorem set_channel_s_pll_timeout (env : HwEnv) (px4 : px4_device) (i : Fin 4) (slot f : Int)
    (hw1 : ∀ tr c, pre_pll_write i c = true → (env tr c).ret = 0)
    (hq : ∀ tr c, pll_query i c = true → (env tr c).ret = 0 ∧ (env tr c).flag = false) :
    px4_tsdev_set_channel_s env px4 i slot f
      = (- EIO, px4.add_calls (pll_timeout_calls_s i f)) := by
  have h1 := fun tr => hw1 tr (.tc90522_set_agc_s i false) (by simp [pre_pll_write])
  have h2 := fun tr => hw1 tr (.tc90522_write_regs i [(0x8e, 0x06), (0xa3, 0xf7)])
    (by simp [pre_pll_write])
  have h3 := fun tr => hw1 tr (.rt710_set_params i f 28860 4) (by simp [pre_pll_write])
  have hp := poll_locked_never env (.rt710_get_pll_locked i) 10
    (fun tr => hq tr _ (by simp [pll_query])) 49
  unfold px4_tsdev_set_channel_s
  simp only [hw_eq, h1, h2, h3, hp, ne_eq, not_true_eq_false, if_false, if_true,
    add_calls_add_calls, pll_timeout_calls_s]
  rfl

theorem set_channel_t_pll_timeout (env : HwEnv) (px4 : px4_device) (i : Fin 4)
    (regs : List Nat)
    (hw1 : ∀ tr c, pre_pll_write i c = true → (env tr c).ret = 0)
    (hq : ∀ tr c, pll_query i c = true → (env tr c).ret = 0 ∧ (env tr c).flag = false) :
    px4_tsdev_set_channel_t env px4 i regs
      = (- EIO, px4.add_calls (pll_timeout_calls_t i regs)) := by
  have h1 := fun tr => hw1 tr (.tc90522_write_regs i [(0x47, 0x30)]) (by simp [pre_pll_write])
  have h2 := fun tr => hw1 tr (.tc90522_set_agc_t i false) (by simp [pre_pll_write])
  have h3 := fun tr => hw1 tr (.tc90522_write_regs i [(0x76, 0x0c)]) (by simp [pre_pll_write])
  have h4 := fun tr rg => hw1 tr (.r850_write_config_regs i rg) (by simp [pre_pll_write])
  have hp := poll_locked_never env (.r850_is_pll_locked i) 10
    (fun tr => hq tr _ (by simp [pll_query])) 49
  unfold px4_tsdev_set_channel_t
  simp only [hw_eq, h1, h2, h3, h4, hp, ne_eq, not_true_eq_false, if_false, if_true,
    add_calls_add_calls, pll_timeout_calls_t]
  rfl

theorem only_calls_refl (P : HwCall → Prop) (s : px4_device) : only_calls P s s :=
  ⟨[], (add_calls_nil s).symm, by simp⟩

theorem only_calls_hw (P : HwCall → Prop) (env : HwEnv) (c : HwCall) (s s' : px4_device)
    (hc : P c) (h : only_calls P s s') : only_calls P s (hw env c s').2 := by
  obtain ⟨l, rfl, hl⟩ := h
  refine ⟨l ++ [c], by rw [hw_eq, add_calls_add_calls], ?_⟩
  intro x hx
  rcases List.mem_append.mp hx with h | h
  · exact hl x h
  · rw [List.mem_singleton.mp h]; exact hc

theorem only_calls_poll_locked (P : HwCall → Prop) (env : HwEnv) (q : HwCall) (d : Nat)
    (hq : P q) (hd : P (.msleep d)) :
    ∀ (n : Nat) (r : Int × Bool) (s s' : px4_device), only_calls P s s' →
      only_calls P s (poll_locked env q d n r s').2 := by
  intro n
  induction n with
  | zero => intro r s s' h; exact h
  | succ n ih =>
    intro r s s' h
    rw [poll_locked]
    split_ifs
    · exact only_calls_hw P env q s s' hq h
    · exact ih _ s _ (only_calls_hw P env _ s _ hd (only_calls_hw P env q s s' hq h))

theorem only_calls_poll_tmcc_tsid (P : HwCall → Prop) (env : HwEnv) (i : Fin 4) (slot : Int)
    (hq : P (.tc90522_tmcc_get_tsid_s i slot)) (hd : P (.msleep 10)) :
    ∀ (n : Nat) (r : Int × Nat) (s s' : px4_device), only_calls P s s' →
      only_calls P s (poll_tmcc_tsid env i slot n r s').2 := by
  intro n
  induction n with
  | zero => intro r s s' h; exact h
  | succ n ih =>
    intro r s s' h
    rw [poll_tmcc_tsid]
    split_ifs
    · exact only_calls_hw P env _ s s' hq h
    · exact ih _ s _ (only_calls_hw P env _ s _ hd (only_calls_hw P env _ s s' hq h))

theorem only_calls_poll_tsid (P : HwCall → Prop) (env : HwEnv) (i : Fin 4) (tsid : Nat)
    (hq : P (.tc90522_get_tsid_s i)) (hd : P (.msleep 10)) :
    ∀ (n : Nat) (r : Int × Nat) (s s' : px4_device), only_calls P s s' →
      only_calls P s (poll_tsid env i tsid n r s').2 := by
  intro n
  induction n with
  | zero => intro r s s' h; exact h
  | succ n ih =>
    intro r s s' h
    rw [poll_tsid]
    split_ifs
    · exact only_calls_hw P env _ s s' hq h
    · exact ih _ s _ (only_calls_hw P env _ s _ hd (only_calls_hw P env _ s s' hq h))

theorem only_calls_ite (P : HwCall → Prop) (s : px4_device) (c : Prop) [Decidable c]
    (a b : Int × px4_device) (ha : only_calls P s a.2) (hb : only_calls P s b.2) :
    only_calls P s (if c then a else b).2 := by
  split_ifs
  · exact ha
  · exact hb

theorem only_calls_cons (P : HwCall → Prop) (s s' : px4_device) (pre : List HwCall)
    (h : only_calls P (s.add_calls pre) s') :
    ∃ l, s' = s.add_calls (pre ++ l) ∧ ∀ c ∈ l, P c := by
  obtain ⟨l, rfl, hl⟩ := h
  exact ⟨l, add_calls_add_calls _ _ _, hl⟩

theorem set_channel_s_calls (env : HwEnv) (px4 : px4_device) (i : Fin 4) (slot f : Int) :
    ∀ r, px4_tsdev_set_channel_s env px4 i slot f = r →
    only_calls (tuner_command_is i f) (px4.add_calls [.tc90522_set_agc_s i false]) r.2 := by
  intro r hr
  have hP : ∀ c : HwCall, is_tuner_command c = false → tuner_command_is i f c := by
    intro c hc h; rw [hc] at h; exact absurd h (by decide)
  unfold px4_tsdev_set_channel_s at hr
  lift_lets at hr
  extract_lets r1 r2 r3 l r4 t r5 c at hr
  have k1 : only_calls (tuner_command_is i f) (px4.add_calls [.tc90522_set_agc_s i false]) r1.2 :=
    only_calls_refl (tuner_command_is i f) _
  have k2 : only_calls (tuner_command_is i f) (px4.add_calls [.tc90522_set_agc_s i false]) r2.2 :=
    only_calls_hw (tuner_command_is i f) env (.tc90522_write_regs i [(0x8e, 0x06), (0xa3, 0xf7)])
    _ r1.2 (hP (.tc90522_write_regs i [(0x8e, 0x06), (0xa3, 0xf7)]) rfl) k1
  have k3 : only_calls (tuner_command_is i f) (px4.add_calls [.tc90522_set_agc_s i false]) r3.2 :=
    only_calls_hw (tuner_command_is i f) env (.rt710_set_params i f 28860 4) _ r2.2
      (fun _ => rfl) k2
  have kl : only_calls (tuner_command_is i f) (px4.add_calls [.tc90522_set_agc_s i false]) l.2 :=
    only_calls_poll_locked (tuner_command_is i f) env (.rt710_get_pll_locked i) 10
    (hP (.rt710_get_pll_locked i) rfl) (hP (.msleep 10) rfl) 50 (r3.1.ret, false) _ r3.2 k3
  have k4 : only_calls (tuner_command_is i f) (px4.add_calls [.tc90522_set_agc_s i false]) r4.2 :=
    only_calls_hw (tuner_command_is i f) env (.tc90522_set_agc_s i true) _ l.2
    (hP (.tc90522_set_agc_s i true) rfl) kl
  have kt : only_calls (tuner_command_is i f) (px4.add_calls [.tc90522_set_agc_s i false]) t.2 :=
    only_calls_poll_tmcc_tsid (tuner_command_is i f) env i slot
    (hP (.tc90522_tmcc_get_tsid_s i slot) rfl) (hP (.msleep 10) rfl) 50 (r4.1.ret, 0) _ r4.2 k4
  have k5 : only_calls (tuner_command_is i f) (px4.add_calls [.tc90522_set_agc_s i false]) r5.2 :=
    only_calls_hw (tuner_command_is i f) env (.tc90522_set_tsid_s i t.1.2) _ t.2
    (hP (.tc90522_set_tsid_s i t.1.2) rfl) kt
  have kc : only_calls (tuner_command_is i f) (px4.add_calls [.tc90522_set_agc_s i false]) c.2 :=
    only_calls_poll_tsid (tuner_command_is i f) env i t.1.2
    (hP (.tc90522_get_tsid_s i) rfl) (hP (.msleep 10) rfl) 50 (r5.1.ret, 0) _ r5.2 k5
  clear_value r1 r2 r3 l r4 t r5 c
  rw [← hr]
  repeat' first | apply only_calls_ite | assumption

theorem set_channel_s_calls_ok (env : HwEnv) (px4 : px4_device) (i : Fin 4) (slot f : Int)
    (h1 : (env px4.trace (.tc90522_set_agc_s i false)).ret = 0)
    (h2 : (env (px4.trace ++ [.tc90522_set_agc_s i false])
      (.tc90522_write_regs i [(0x8e, 0x06), (0xa3, 0xf7)])).ret = 0) :
    ∀ r, px4_tsdev_set_channel_s env px4 i slot f = r →
    only_calls (fun _ => True) (px4.add_calls [.tc90522_set_agc_s i false,
      .tc90522_write_regs i [(0x8e, 0x06), (0xa3, 0xf7)], .rt710_set_params i f 28860 4]) r.2 := by
  intro r hr
  unfold px4_tsdev_set_channel_s at hr
  lift_lets at hr
  extract_lets r1 r2 r3 l r4 t r5 c at hr
  have e1 : ¬ (r1.1.ret ≠ 0) := by simp only [r1, hw_eq, h1]; simp
  have e2 : ¬ (r2.1.ret ≠ 0) := by
    simp only [r2, r1, hw_eq, add_calls_trace, h2]; simp
  rw [if_neg e1, if_neg e2] at hr
  have k3 : only_calls (fun _ => True) (px4.add_calls [.tc90522_set_agc_s i false,
      .tc90522_write_regs i [(0x8e, 0x06), (0xa3, 0xf7)], .rt710_set_params i f 28860 4]) r3.2 := by
    have : r3.2 = px4.add_calls [.tc90522_set_agc_s i false,
        .tc90522_write_regs i [(0x8e, 0x06), (0xa3, 0xf7)], .rt710_set_params i f 28860 4] := by
      simp only [r3, r2, r1, hw_eq, add_calls_add_calls]; rfl
    rw [this]; exact only_calls_refl _ _
  have kl : only_calls (fun _ => True) (px4.add_calls [.tc90522_set_agc_s i false,
      .tc90522_write_regs i [(0x8e, 0x06), (0xa3, 0xf7)], .rt710_set_params i f 28860 4]) l.2 :=
    only_calls_poll_locked (fun _ => True) env (.rt710_get_pll_locked i) 10
    trivial trivial 50 (r3.1.ret, false) _ r3.2 k3
  have k4 : only_calls (fun _ => True) (px4.add_calls [.tc90522_set_agc_s i false,
      .tc90522_write_regs i [(0x8e, 0x06), (0xa3, 0xf7)], .rt710_set_params i f 28860 4]) r4.2 :=
    only_calls_hw (fun _ => True) env (.tc90522_set_agc_s i true) _ l.2 trivial kl
  have kt : only_calls (fun _ => True) (px4.add_calls [.tc90522_set_agc_s i false,
      .tc90522_write_regs i [(0x8e, 0x06), (0xa3, 0xf7)], .rt710_set_params i f 28860 4]) t.2 :=
    only_calls_poll_tmcc_tsid (fun _ => True) env i slot trivial trivial 50
    (r4.1.ret, 0) _ r4.2 k4
  have k5 : only_calls (fun _ => True) (px4.add_calls [.tc90522_set_agc_s i false,
      .tc90522_write_regs i [(0x8e, 0x06), (0xa3, 0xf7)], .rt710_set_params i f 28860 4]) r5.2 :=
    only_calls_hw (fun _ => True) env (.tc90522_set_tsid_s i t.1.2) _ t.2 trivial kt
  have kc : only_calls (fun _ => True) (px4.add_calls [.tc90522_set_agc_s i false,
      .tc90522_write_regs i [(0x8e, 0x06), (0xa3, 0xf7)], .rt710_set_params i f 28860 4]) c.2 :=
    only_calls_poll_tsid (fun _ => True) env i t.1.2 trivial trivial 50
    (r5.1.ret, 0) _ r5.2 k5
  clear_value r1 r2 r3 l r4 t r5 c
  rw [← hr]
  repeat' first | apply only_calls_ite | assumption

theorem set_channel_t_calls (env : HwEnv) (px4 : px4_device) (i : Fin 4) (regs : List Nat) :
    ∀ r, px4_tsdev_set_channel_t env px4 i regs = r →
    only_calls (fun _ => True) (px4.add_calls [.tc90522_write_regs i [(0x47, 0x30)]]) r.2 := by
  intro r hr
  unfold px4_tsdev_set_channel_t at hr
  lift_lets at hr
  extract_lets r1 r2 r3 r4 s4 regs' r5 l r6 r7 d at hr
  have k1 : only_calls (fun _ => True)
      (px4.add_calls [.tc90522_write_regs i [(0x47, 0x30)]]) r1.2 := only_calls_refl _ _
  have k2 : only_calls (fun _ => True)
      (px4.add_calls [.tc90522_write_regs i [(0x47, 0x30)]]) r2.2 :=
    only_calls_hw (fun _ => True) env (.tc90522_set_agc_t i false) _ r1.2 trivial k1
  have k3 : only_calls (fun _ => True)
      (px4.add_calls [.tc90522_write_regs i [(0x47, 0x30)]]) r3.2 :=
    only_calls_hw (fun _ => True) env (.tc90522_write_regs i [(0x76, 0x0c)]) _ r2.2
    trivial k2
  have k4 : only_calls (fun _ => True)
      (px4.add_calls [.tc90522_write_regs i [(0x47, 0x30)]]) r4.2 :=
    only_calls_hw (fun _ => True) env (.r850_write_config_regs i regs) _ r3.2
    trivial k3
  have ks : only_calls (fun _ => True)
      (px4.add_calls [.tc90522_write_regs i [(0x47, 0x30)]]) s4 :=
    only_calls_hw (fun _ => True) env (.msleep 40) _ r4.2 trivial k4
  have k5 : only_calls (fun _ => True)
      (px4.add_calls [.tc90522_write_regs i [(0x47, 0x30)]]) r5.2 :=
    only_calls_hw (fun _ => True) env (.r850_write_config_regs i regs') _ s4
    trivial ks
  have kl : only_calls (fun _ => True)
      (px4.add_calls [.tc90522_write_regs i [(0x47, 0x30)]]) l.2 :=
    only_calls_poll_locked (fun _ => True) env (.r850_is_pll_locked i) 10
    trivial trivial 50 (r5.1.ret, false) _ r5.2 k5
  have k6 : only_calls (fun _ => True)
      (px4.add_calls [.tc90522_write_regs i [(0x47, 0x30)]]) r6.2 :=
    only_calls_hw (fun _ => True) env (.tc90522_set_agc_t i true) _ l.2 trivial kl
  have k7 : only_calls (fun _ => True)
      (px4.add_calls [.tc90522_write_regs i [(0x47, 0x30)]]) r7.2 :=
    only_calls_hw (fun _ => True) env
    (.tc90522_write_regs i [(0x71, 0x21), (0x72, 0x25), (0x75, 0x08)]) _ r6.2 trivial k6
  have kd : only_calls (fun _ => True)
      (px4.add_calls [.tc90522_write_regs i [(0x47, 0x30)]]) d.2 :=
    only_calls_poll_locked (fun _ => True) env (.tc90522_is_signal_locked_t i) 40
    trivial trivial 50 (r7.1.ret, false) _ r7.2 k7
  clear_value r1 r2 r3 r4 s4 regs' r5 l r6 r7 d
  rw [← hr]
  repeat' first | apply only_calls_ite | assumption

theorem isdb_t_ne_s : ISDB_T ≠ ISDB_S := by decide

theorem add_calls_ne_self (s : px4_device) (c : HwCall) (l : List HwCall) :
    s.add_calls (c :: l) ≠ s := by
  intro h
  have := congrArg (fun x => x.trace.length) h
  simp [px4_device.add_calls] at this

theorem agc_not_enabled_in_poll (q : HwCall) (d n : Nat) (hq : agc_enable q = false) :
    ∀ c ∈ poll_calls q d n, agc_enable c = false := by
  intro c hc
  rcases mem_poll_calls q d n c hc with rfl | rfl
  · exact hq
  · rfl

/-- C5. For either signal standard: if the channel request is valid, every register or
tuner write that precedes the phase-lock poll succeeds, and every tuner phase-lock
query succeeds but reports "not locked", then `px4_tsdev_set_channel` returns `-EIO`
after exactly 50 phase-lock queries; the calls it made are the writes before the poll
followed by 50 rounds of query and 10 ms delay, so automatic gain control is not
re-enabled and no later acquisition step runs. -/
theorem px4_tsdev_set_channel_pll_timeout (env : HwEnv)
    (r850_channel_get_regs : Int → Int × List Nat) (px4 : px4_device) (i : Fin 4)
    (freq_no slot : Int)
    (hvalid : ((px4.tsdev i).isdb = ISDB_S ∧ 0 ≤ freq_no ∧ freq_no < 24 ∧
        (freq_no < 12 → slot < 8)) ∨
      ((px4.tsdev i).isdb = ISDB_T ∧ 63 ≤ freq_no ∧ freq_no ≤ 102 ∧
        (r850_channel_get_regs freq_no).1 = 0))
    (hwrite : ∀ tr c, pre_pll_write i c = true → (env tr c).ret = 0)
    (hquery : ∀ tr c, pll_query i c = true → (env tr c).ret = 0 ∧ (env tr c).flag = false) :
    (px4_tsdev_set_channel env r850_channel_get_regs px4 i freq_no slot).1 = - EIO ∧
    ((calls_since px4 (px4_tsdev_set_channel env r850_channel_get_regs px4 i freq_no slot).2
      ).filter (pll_query i)).length = 50 ∧
    (∀ c ∈ calls_since px4
        (px4_tsdev_set_channel env r850_channel_get_regs px4 i freq_no slot).2,
      agc_enable c = false) ∧
    calls_since px4 (px4_tsdev_set_channel env r850_channel_get_regs px4 i freq_no slot).2 =
      (if (px4.tsdev i).isdb = ISDB_S then pll_timeout_calls_s i (real_freq_s freq_no)
       else pll_timeout_calls_t i (r850_channel_get_regs freq_no).2) := by
  rcases hvalid with ⟨hs, h0, h24, hslot⟩ | ⟨ht, h63, h102, hchan⟩
  · have hr : px4_tsdev_set_channel env r850_channel_get_regs px4 i freq_no slot
        = (- EIO, px4.add_calls (pll_timeout_calls_s i (real_freq_s freq_no))) := by
      unfold px4_tsdev_set_channel real_freq_s
      rw [if_pos hs, if_neg (not_lt.mpr h0)]
      by_cases h12 : freq_no < 12
      · rw [if_pos h12, if_neg (not_le.mpr (hslot h12)), if_pos h12]
        exact set_channel_s_pll_timeout env px4 i slot _ hwrite hquery
      · rw [if_neg h12, if_pos h24, if_neg h12]
        exact set_channel_s_pll_timeout env px4 i slot _ hwrite hquery
    rw [hr, if_pos hs]
    refine ⟨rfl, ?_, ?_, calls_since_add_calls _ _⟩
    · rw [calls_since_add_calls, pll_timeout_calls_s, List.filter_append, List.length_append,
        filter_poll_calls _ _ _ _ (by simp [pll_query]) rfl]
      simp [pll_query]
    · rw [calls_since_add_calls, pll_timeout_calls_s]
      intro c hc
      rcases List.mem_append.mp hc with h | h
      · simp only [List.mem_cons, List.mem_singleton, List.not_mem_nil, or_false] at h
        rcases h with rfl | rfl | rfl <;> rfl
      · exact agc_not_enabled_in_poll (.rt710_get_pll_locked i) 10 50 rfl c h
  · have hns : ¬ ((px4.tsdev i).isdb = ISDB_S) := by rw [ht]; exact isdb_t_ne_s
    have hr : px4_tsdev_set_channel env r850_channel_get_regs px4 i freq_no slot
        = (- EIO, px4.add_calls (pll_timeout_calls_t i (r850_channel_get_regs freq_no).2)) := by
      unfold px4_tsdev_set_channel
      rw [if_neg hns, if_pos ht, if_neg (by omega), if_pos ⟨h63, h102⟩]
      simp only [hchan, ne_eq, not_true_eq_false, if_false]
      exact set_channel_t_pll_timeout env px4 i _ hwrite hquery
    rw [hr, if_neg hns]
    refine ⟨rfl, ?_, ?_, calls_since_add_calls _ _⟩
    · rw [calls_since_add_calls, pll_timeout_calls_t, List.filter_append, List.length_append,
        filter_poll_calls _ _ _ _ (by simp [pll_query]) rfl]
      simp [pll_query]
    · rw [calls_since_add_calls, pll_timeout_calls_t]
      intro c hc
      rcases List.mem_append.mp hc with h | h
      · simp only [List.mem_cons, List.mem_singleton, List.not_mem_nil, or_false] at h
        rcases h with rfl | rfl | rfl | rfl | rfl | rfl <;> rfl
      · exact agc_not_enabled_in_poll (.r850_is_pll_locked i) 10 50 rfl c h

theorem env_no_pll_writes (i : Fin 4) :
    ∀ tr c, pre_pll_write i c = true → (env_no_pll tr c).ret = 0 := by
  intro tr c _
  cases c <;> rfl

theorem env_no_pll_queries (i : Fin 4) :
    ∀ tr c, pll_query i c = true →
      (env_no_pll tr c).ret = 0 ∧ (env_no_pll tr c).flag = false := by
  intro tr c h
  cases c <;> first | exact ⟨rfl, rfl⟩ | exact absurd h (by simp [pll_query])

/-- Witness for `px4_tsdev_set_channel_pll_timeout`: the satellite endpoint 0 of a freshly
probed device, channel 0, slot 0, with tuners that never lock. -/
theorem px4_tsdev_set_channel_pll_timeout_witness :
    (((px4_probe_ok 816).tsdev 0).isdb = ISDB_S ∧ (0 : Int) ≤ 0 ∧ (0 : Int) < 24 ∧
      ((0 : Int) < 12 → (0 : Int) < 8)) ∧
    (px4_tsdev_set_channel env_no_pll test_channel_table (px4_probe_ok 816) 0 0 0).1 = - EIO ∧
    ((calls_since (px4_probe_ok 816)
      (px4_tsdev_set_channel env_no_pll test_channel_table (px4_probe_ok 816) 0 0 0).2
      ).filter (pll_query 0)).length = 50 :=
  ⟨by decide,
   (px4_tsdev_set_channel_pll_timeout env_no_pll test_channel_table (px4_probe_ok 816) 0 0 0
      (Or.inl (by decide)) (env_no_pll_writes 0) (env_no_pll_queries 0)).1,
   (px4_tsdev_set_channel_pll_timeout env_no_pll test_channel_table (px4_probe_ok 816) 0 0 0
      (Or.inl (by decide)) (env_no_pll_writes 0) (env_no_pll_queries 0)).2.1⟩

theorem set_channel_s_commands (env : HwEnv) (px4 : px4_device) (i : Fin 4) (slot f : Int) :
    commands_tuner_to env px4 i f (px4_tsdev_set_channel_s env px4 i slot f) := by
  obtain ⟨l, hl, hP⟩ := only_calls_cons _ _ _ _ (set_channel_s_calls env px4 i slot f _ rfl)
  refine ⟨⟨l, hl⟩, ?_, ?_⟩
  · rw [hl, calls_since_add_calls]
    intro c hc
    rcases List.mem_append.mp hc with h | h
    · rw [List.mem_singleton.mp h]
      intro hh
      exact absurd hh (by simp [is_tuner_command])
    · exact hP c h
  · intro h1 h2
    obtain ⟨l', hl', -⟩ :=
      only_calls_cons _ _ _ _ (set_channel_s_calls_ok env px4 i slot f h1 h2 _ rfl)
    rw [hl', calls_since_add_calls]
    rfl

/-- C8 (what the code does). For a satellite (ISDB-S) endpoint and any channel and slot
index (both C `int`), `px4_tsdev_set_channel` rejects the request with `-EINVAL` before
any register or tuner access exactly when the channel index is outside 0..23, or the
index is in 0..11 and the slot index is 8 or more. For a slot index that is not
negative this is the condition "outside 0..23, or in 0..11 with the slot not in 0..7".
A request with an index in 0..11 and a slot index of at most 7, negative ones
included, and every request with an index in 12..23, is accepted: hardware is
accessed, and the tuner is commanded (`rt710_set_params`, the third call, once the two
demodulator writes before it succeed) to `1049480 + 38360 * freq_no`, respectively
`1613000 + 40000 * (freq_no - 12)`, with the fixed parameters 28860 and 4, and to
nothing else. -/
theorem px4_tsdev_set_channel_s_validation (env : HwEnv)
    (r850_channel_get_regs : Int → Int × List Nat) (px4 : px4_device) (i : Fin 4)
    (freq_no slot : Int) (hs : (px4.tsdev i).isdb = ISDB_S) :
    (px4_tsdev_set_channel env r850_channel_get_regs px4 i freq_no slot = (- EINVAL, px4) ↔
      ((freq_no < 0 ∨ 23 < freq_no) ∨ ((0 ≤ freq_no ∧ freq_no ≤ 11) ∧ 8 ≤ slot))) ∧
    (0 ≤ slot →
      (px4_tsdev_set_channel env r850_channel_get_regs px4 i freq_no slot = (- EINVAL, px4) ↔
        ((freq_no < 0 ∨ 23 < freq_no) ∨
          ((0 ≤ freq_no ∧ freq_no ≤ 11) ∧ ¬ (0 ≤ slot ∧ slot ≤ 7))))) ∧
    ((0 ≤ freq_no ∧ freq_no ≤ 11) ∧ slot ≤ 7 →
      commands_tuner_to env px4 i (1049480 + 38360 * freq_no)
        (px4_tsdev_set_channel env r850_channel_get_regs px4 i freq_no slot)) ∧
    (12 ≤ freq_no ∧ freq_no ≤ 23 →
      commands_tuner_to env px4 i (1613000 + 40000 * (freq_no - 12))
        (px4_tsdev_set_channel env r850_channel_get_regs px4 i freq_no slot)) := by
  have hlow : (0 ≤ freq_no ∧ freq_no ≤ 11) ∧ slot ≤ 7 →
      px4_tsdev_set_channel env r850_channel_get_regs px4 i freq_no slot
        = px4_tsdev_set_channel_s env px4 i slot (1049480 + 38360 * freq_no) := by
    rintro ⟨⟨h0, h11⟩, h7⟩
    unfold px4_tsdev_set_channel
    rw [if_pos hs, if_neg (by omega), if_pos (by omega), if_neg (by omega)]
  have hhigh : 12 ≤ freq_no ∧ freq_no ≤ 23 →
      px4_tsdev_set_channel env r850_channel_get_regs px4 i freq_no slot
        = px4_tsdev_set_channel_s env px4 i slot (1613000 + 40000 * (freq_no - 12)) := by
    rintro ⟨h12, h23⟩
    unfold px4_tsdev_set_channel
    rw [if_pos hs, if_neg (by omega), if_neg (by omega), if_pos (by omega)]
  have hexact : px4_tsdev_set_channel env r850_channel_get_regs px4 i freq_no slot
        = (- EINVAL, px4) ↔
      ((freq_no < 0 ∨ 23 < freq_no) ∨ ((0 ≤ freq_no ∧ freq_no ≤ 11) ∧ 8 ≤ slot)) := by
    constructor
    · intro hrej
      by_contra hacc
      have hne : ∀ f, px4_tsdev_set_channel_s env px4 i slot f ≠ (- EINVAL, px4) := by
        intro f hf
        obtain ⟨⟨l, hl⟩, -⟩ := set_channel_s_commands env px4 i slot f
        rw [hf] at hl
        exact add_calls_ne_self px4 _ l hl.symm
      by_cases h12 : freq_no < 12
      · rw [hlow ⟨⟨by omega, by omega⟩, by omega⟩] at hrej
        exact hne _ hrej
      · rw [hhigh ⟨by omega, by omega⟩] at hrej
        exact hne _ hrej
    · intro hcond
      unfold px4_tsdev_set_channel
      rw [if_pos hs]
      rcases hcond with (h | h) | ⟨⟨h0, h11⟩, h8⟩
      · rw [if_pos h]
      · rw [if_neg (by omega), if_neg (by omega), if_neg (by omega)]
      · rw [if_neg (by omega), if_pos (by omega), if_pos (by omega)]
  refine ⟨hexact, ?_, ?_, ?_⟩
  · intro hslot
    rw [hexact]
    constructor
    · rintro (h | ⟨h, h8⟩)
      · exact Or.inl h
      · exact Or.inr ⟨h, by omega⟩
    · rintro (h | ⟨h, h8⟩)
      · exact Or.inl h
      · exact Or.inr ⟨h, by omega⟩
  · intro h
    rw [hlow h]
    exact set_channel_s_commands env px4 i slot _
  · intro h
    rw [hhigh h]
    exact set_channel_s_commands env px4 i slot _

/-- Witness for `px4_tsdev_set_channel_s_validation`: slot 8 on channel 3 of the satellite
endpoint 0 is rejected before any access. -/
theorem px4_tsdev_set_channel_s_validation_witness :
    ((px4_probe_ok 816).tsdev 0).isdb = ISDB_S ∧
    px4_tsdev_set_channel env_ok test_channel_table (px4_probe_ok 816) 0 3 8
      = (- EINVAL, px4_probe_ok 816) :=
  ⟨by decide,
   ((px4_tsdev_set_channel_s_validation env_ok test_channel_table (px4_probe_ok 816) 0 3 8
      (by decide)).1).2 (by decide)⟩

/-- C8 (the failing input). The slot index `-1` is not in 0..7 and the channel index 0 is
in 0..11, yet on the satellite endpoint 0 `px4_tsdev_set_channel` does not reject the
request: it programs the demodulator, commands the tuner and, every collaborator
succeeding, returns 0. -/
theorem px4_tsdev_set_channel_negative_slot :
    ((px4_probe_ok 816).tsdev 0).isdb = ISDB_S ∧ ¬ ((0 : Int) ≤ -1 ∧ (-1 : Int) ≤ 7) ∧
    (px4_tsdev_set_channel env_ok test_channel_table (px4_probe_ok 816) 0 0 (-1)).1 = 0 ∧
    (calls_since (px4_probe_ok 816)
      (px4_tsdev_set_channel env_ok test_channel_table (px4_probe_ok 816) 0 0 (-1)).2).take 3 =
      [.tc90522_set_agc_s 0 false, .tc90522_write_regs 0 [(0x8e, 0x06), (0xa3, 0xf7)],
       .rt710_set_params 0 1049480 28860 4] := by
  decide

/-- C9. For a terrestrial (ISDB-T) endpoint `px4_tsdev_set_channel` classifies the channel
index: an index in 3..12 or 22..62 (cable band) fails with `-ENOSYS`; an index in
63..102 is resolved through the channel table `r850_channel_get_regs` (a failing
lookup is returned as it is) and acquisition proceeds with the table entry, the
first call being the demodulator write of `0x30` to register `0x47`; every other
index fails with `-EINVAL`. Outside the UHF range, and on a failing lookup, the
device is returned unchanged: no register or tuner access was made. -/
theorem px4_tsdev_set_channel_t_classification (env : HwEnv)
    (r850_channel_get_regs : Int → Int × List Nat) (px4 : px4_device) (i : Fin 4)
    (freq_no slot : Int) (ht : (px4.tsdev i).isdb = ISDB_T) :
    ((3 ≤ freq_no ∧ freq_no ≤ 12) ∨ (22 ≤ freq_no ∧ freq_no ≤ 62) →
      px4_tsdev_set_channel env r850_channel_get_regs px4 i freq_no slot = (- ENOSYS, px4)) ∧
    (63 ≤ freq_no ∧ freq_no ≤ 102 →
      ((r850_channel_get_regs freq_no).1 ≠ 0 →
        px4_tsdev_set_channel env r850_channel_get_regs px4 i freq_no slot
          = ((r850_channel_get_regs freq_no).1, px4)) ∧
      ((r850_channel_get_regs freq_no).1 = 0 →
        px4_tsdev_set_channel env r850_channel_get_regs px4 i freq_no slot
          = px4_tsdev_set_channel_t env px4 i (r850_channel_get_regs freq_no).2 ∧
        ∃ l, (px4_tsdev_set_channel env r850_channel_get_regs px4 i freq_no slot).2
          = px4.add_calls (.tc90522_write_regs i [(0x47, 0x30)] :: l))) ∧
    (¬ ((3 ≤ freq_no ∧ freq_no ≤ 12) ∨ (22 ≤ freq_no ∧ freq_no ≤ 62)) ∧
      ¬ (63 ≤ freq_no ∧ freq_no ≤ 102) →
      px4_tsdev_set_channel env r850_channel_get_regs px4 i freq_no slot = (- EINVAL, px4)) := by
  have hns : ¬ ((px4.tsdev i).isdb = ISDB_S) := by rw [ht]; exact isdb_t_ne_s
  refine ⟨?_, ?_, ?_⟩
  · intro hc
    unfold px4_tsdev_set_channel
    rw [if_neg hns, if_pos ht, if_pos (by omega)]
  · intro hu
    have hnc : ¬ ((freq_no ≥ 3 ∧ freq_no ≤ 12) ∨ (freq_no ≥ 22 ∧ freq_no ≤ 62)) := by omega
    have hu' : freq_no ≥ 63 ∧ freq_no ≤ 102 := hu
    refine ⟨?_, ?_⟩
    · intro hfail
      unfold px4_tsdev_set_channel
      rw [if_neg hns, if_pos ht, if_neg hnc, if_pos hu']
      simp only [hfail, ne_eq, not_false_eq_true, if_true]
    · intro hok
      have e : px4_tsdev_set_channel env r850_channel_get_regs px4 i freq_no slot
          = px4_tsdev_set_channel_t env px4 i (r850_channel_get_regs freq_no).2 := by
        unfold px4_tsdev_set_channel
        rw [if_neg hns, if_pos ht, if_neg hnc, if_pos hu']
        simp only [hok, ne_eq, not_true_eq_false, if_false]
      refine ⟨e, ?_⟩
      rw [e]
      obtain ⟨l, hl, -⟩ := only_calls_cons _ _ _ _
        (set_channel_t_calls env px4 i (r850_channel_get_regs freq_no).2 _ rfl)
      exact ⟨l, hl⟩
  · rintro ⟨hnc, hnu⟩
    unfold px4_tsdev_set_channel
    rw [if_neg hns, if_pos ht, if_neg (by omega), if_neg (by omega)]

/-- Witness for `px4_tsdev_set_channel_t_classification`: channel index 65 on the
terrestrial endpoint 2 is resolved through the channel table and acquisition starts. -/
theorem px4_tsdev_set_channel_t_classification_witness :
    ((px4_probe_ok 816).tsdev 2).isdb = ISDB_T ∧
    ((63 : Int) ≤ 65 ∧ (65 : Int) ≤ 102) ∧ (test_channel_table 65).1 = 0 ∧
    px4_tsdev_set_channel env_ok test_channel_table (px4_probe_ok 816) 2 65 0
      = px4_tsdev_set_channel_t env_ok (px4_probe_ok 816) 2 (test_channel_table 65).2 :=
  ⟨by decide, by decide, by decide,
   (((px4_tsdev_set_channel_t_classification env_ok test_channel_table (px4_probe_ok 816) 2 65 0
      (by decide)).2.1 (by decide)).2 (by decide)).1⟩

/-! ## streaming sessions: proofs -/

@[simp] theorem hw_tsdev (env : HwEnv) (c : HwCall) (s : px4_device) :
    (hw env c s).2.tsdev = s.tsdev := rfl
@[simp] theorem hw_ref (env : HwEnv) (c : HwCall) (s : px4_device) :
    (hw env c s).2.ref = s.ref := rfl
@[simp] theorem hw_avail (env : HwEnv) (c : HwCall) (s : px4_device) :
    (hw env c s).2.avail = s.avail := rfl
@[simp] theorem hw_registered (env : HwEnv) (c : HwCall) (s : px4_device) :
    (hw env c s).2.registered = s.registered := rfl
@[simp] theorem hw_streaming_count (env : HwEnv) (c : HwCall) (s : px4_device) :
    (hw env c s).2.streaming_count = s.streaming_count := rfl
@[simp] theorem hw_xfer_size (env : HwEnv) (c : HwCall) (s : px4_device) :
    (hw env c s).2.streaming_xfer_size = s.streaming_xfer_size := rfl
@[simp] theorem hw_urb_num (env : HwEnv) (c : HwCall) (s : px4_device) :
    (hw env c s).2.streaming_urb_num = s.streaming_urb_num := rfl
@[simp] theorem hw_no_dma (env : HwEnv) (c : HwCall) (s : px4_device) :
    (hw env c s).2.streaming_no_dma = s.streaming_no_dma := rfl
@[simp] theorem hw_trace (env : HwEnv) (c : HwCall) (s : px4_device) :
    (hw env c s).2.trace = s.trace ++ [c] := rfl
@[simp] theorem hw_resp (env : HwEnv) (c : HwCall) (s : px4_device) :
    (hw env c s).1 = env s.trace c := rfl

@[simp] theorem modify_tsdev_same (s : px4_device) (i : Fin 4) (f : px4_tsdev → px4_tsdev) :
    (s.modify_tsdev i f).tsdev i = f (s.tsdev i) := by simp [px4_device.modify_tsdev]
theorem modify_tsdev_other (s : px4_device) (i j : Fin 4) (f : px4_tsdev → px4_tsdev)
    (h : j ≠ i) : (s.modify_tsdev i f).tsdev j = s.tsdev j := by
  simp [px4_device.modify_tsdev, h]
@[simp] theorem modify_tsdev_ref (s : px4_device) (i : Fin 4) (f : px4_tsdev → px4_tsdev) :
    (s.modify_tsdev i f).ref = s.ref := rfl
@[simp] theorem modify_tsdev_avail (s : px4_device) (i : Fin 4) (f : px4_tsdev → px4_tsdev) :
    (s.modify_tsdev i f).avail = s.avail := rfl
@[simp] theorem modify_tsdev_registered (s : px4_device) (i : Fin 4)
    (f : px4_tsdev → px4_tsdev) : (s.modify_tsdev i f).registered = s.registered := rfl
@[simp] theorem modify_tsdev_streaming_count (s : px4_device) (i : Fin 4)
    (f : px4_tsdev → px4_tsdev) : (s.modify_tsdev i f).streaming_count = s.streaming_count := rfl
@[simp] theorem modify_tsdev_xfer_size (s : px4_device) (i : Fin 4)
    (f : px4_tsdev → px4_tsdev) :
    (s.modify_tsdev i f).streaming_xfer_size = s.streaming_xfer_size := rfl
@[simp] theorem modify_tsdev_urb_num (s : px4_device) (i : Fin 4)
    (f : px4_tsdev → px4_tsdev) :
    (s.modify_tsdev i f).streaming_urb_num = s.streaming_urb_num := rfl
@[simp] theorem modify_tsdev_no_dma (s : px4_device) (i : Fin 4)
    (f : px4_tsdev → px4_tsdev) :
    (s.modify_tsdev i f).streaming_no_dma = s.streaming_no_dma := rfl
@[simp] theorem modify_tsdev_trace (s : px4_device) (i : Fin 4) (f : px4_tsdev → px4_tsdev) :
    (s.modify_tsdev i f).trace = s.trace := rfl

@[simp] theorem set_streaming_count_tsdev (s : px4_device) (n : Nat) :
    (s.set_streaming_count n).tsdev = s.tsdev := rfl
@[simp] theorem set_streaming_count_ref (s : px4_device) (n : Nat) :
    (s.set_streaming_count n).ref = s.ref := rfl
@[simp] theorem set_streaming_count_avail (s : px4_device) (n : Nat) :
    (s.set_streaming_count n).avail = s.avail := rfl
@[simp] theorem set_streaming_count_registered (s : px4_device) (n : Nat) :
    (s.set_streaming_count n).registered = s.registered := rfl
@[simp] theorem set_streaming_count_count (s : px4_device) (n : Nat) :
    (s.set_streaming_count n).streaming_count = n := rfl
@[simp] theorem set_streaming_count_xfer_size (s : px4_device) (n : Nat) :
    (s.set_streaming_count n).streaming_xfer_size = s.streaming_xfer_size := rfl
@[simp] theorem set_streaming_count_trace (s : px4_device) (n : Nat) :
    (s.set_streaming_count n).trace = s.trace := rfl

@[simp] theorem set_pump_tsdev (s : px4_device) (n : Nat) (b : Bool) :
    (s.set_pump n b).tsdev = s.tsdev := rfl
@[simp] theorem set_pump_ref (s : px4_device) (n : Nat) (b : Bool) :
    (s.set_pump n b).ref = s.ref := rfl
@[simp] theorem set_pump_avail (s : px4_device) (n : Nat) (b : Bool) :
    (s.set_pump n b).avail = s.avail := rfl
@[simp] theorem set_pump_registered (s : px4_device) (n : Nat) (b : Bool) :
    (s.set_pump n b).registered = s.registered := rfl
@[simp] theorem set_pump_streaming_count (s : px4_device) (n : Nat) (b : Bool) :
    (s.set_pump n b).streaming_count = s.streaming_count := rfl
@[simp] theorem set_pump_xfer_size (s : px4_device) (n : Nat) (b : Bool) :
    (s.set_pump n b).streaming_xfer_size = s.streaming_xfer_size := rfl
@[simp] theorem set_pump_trace (s : px4_device) (n : Nat) (b : Bool) :
    (s.set_pump n b).trace = s.trace := rfl

theorem streaming_endpoints_eq (px4 : px4_device) :
    streaming_endpoints px4 =
      (if (px4.tsdev 0).streaming ≠ 0 then 1 else 0) + (if (px4.tsdev 1).streaming ≠ 0 then 1 else 0)
      + (if (px4.tsdev 2).streaming ≠ 0 then 1 else 0)
      + (if (px4.tsdev 3).streaming ≠ 0 then 1 else 0) := by
  unfold streaming_endpoints
  rw [Finset.card_filter, Fin.sum_univ_four]

theorem unchanged_by_hw (env : HwEnv) (c : HwCall) (s : px4_device) :
    unchanged_by_hw_calls (hw env c s).2 s := by
  simp [unchanged_by_hw_calls]

theorem start_streaming_outcome (env : HwEnv) (max_urbs : Nat) (no_dma : Bool)
    (px4 : px4_device) (i : Fin 4) (h0 : (px4.tsdev i).streaming = 0) :
    ∀ r, px4_tsdev_start_streaming env max_urbs no_dma px4 i = r →
    (∀ j, j ≠ i → r.2.tsdev j = px4.tsdev j) ∧
    r.2.ref = px4.ref ∧ r.2.avail = px4.avail ∧ r.2.registered = px4.registered ∧
    r.2.streaming_xfer_size = px4.streaming_xfer_size ∧
    ((r.1 ≠ 0 ∧ (r.2.tsdev i).streaming = 0 ∧ r.2.streaming_count = px4.streaming_count ∧
      ((r.2.tsdev i).rgbuf = (px4.tsdev i).rgbuf ∨ (r.2.tsdev i).rgbuf = ringbuffer_init) ∧
      (r.2.tsdev i).id = (px4.tsdev i).id ∧ (r.2.tsdev i).isdb = (px4.tsdev i).isdb ∧
      (r.2.tsdev i).init = (px4.tsdev i).init ∧ (r.2.tsdev i).opened = (px4.tsdev i).opened ∧
      (r.2.tsdev i).lnb_power = (px4.tsdev i).lnb_power) ∨
     (r.1 = 0 ∧ (r.2.tsdev i).streaming = 1 ∧
      r.2.streaming_count = u32_inc px4.streaming_count ∧
      (r.2.tsdev i).rgbuf.allocated = true)) := by
  intro r hr
  have hne : ¬ ((px4.tsdev i).streaming ≠ 0) := by simp [h0]
  unfold px4_tsdev_start_streaming at hr
  rw [if_neg hne] at hr
  lift_lets at hr
  extract_lets s1 s2 buf_size e1 e2 p a s3 b at hr
  have f2 : unchanged_by_hw_calls s2 s1 := by
    simp only [s2]; split_ifs <;> simp [unchanged_by_hw_calls]
  clear_value s2
  have fp : unchanged_by_hw_calls p.2 s2 := by
    simp only [p]; split_ifs <;> simp [unchanged_by_hw_calls, e1, e2]
  clear_value p e1 e2
  have fa : unchanged_by_hw_calls a.2 p.2 := unchanged_by_hw env _ _
  clear_value a
  have fb : unchanged_by_hw_calls b.2 s3 := unchanged_by_hw env _ _
  clear_value b
  simp only [unchanged_by_hw_calls] at f2 fp fa fb
  obtain ⟨f21, f22, f23, f24, f25, f26⟩ := f2
  obtain ⟨fp1, fp2, fp3, fp4, fp5, fp6⟩ := fp
  obtain ⟨fa1, fa2, fa3, fa4, fa5, fa6⟩ := fa
  obtain ⟨fb1, fb2, fb3, fb4, fb5, fb6⟩ := fb
  have e3 : ∀ j, j ≠ i → s3.tsdev j = a.2.tsdev j := fun j hj => modify_tsdev_other _ _ _ _ hj
  have e1 : ∀ j, j ≠ i → s1.tsdev j = px4.tsdev j := fun j hj => modify_tsdev_other _ _ _ _ hj
  split_ifs at hr with c1 c2 c3 c4 <;> subst hr <;>
    simp_all [px4_tsdev_start_streaming_fail, modify_tsdev_other, s1, s3,
      ringbuffer_free, ringbuffer_alloc_ok, ringbuffer_init]

theorem stop_streaming_outcome (env : HwEnv) (px4 : px4_device) (i : Fin 4) (avail : Bool)
    (h1 : (px4.tsdev i).streaming ≠ 0) :
    ∀ r, px4_tsdev_stop_streaming env px4 i avail = r →
    (∀ j, j ≠ i → r.2.tsdev j = px4.tsdev j) ∧
    (r.2.tsdev i).streaming = 0 ∧ (r.2.tsdev i).rgbuf = ringbuffer_init ∧
    r.2.streaming_count = u32_dec px4.streaming_count := by
  intro r hr
  have hne : ¬ ((px4.tsdev i).streaming = 0) := h1
  unfold px4_tsdev_stop_streaming at hr
  rw [if_neg hne] at hr
  simp only [] at hr
  split_ifs at hr <;> subst hr <;>
    simp_all [ringbuffer_free, ringbuffer_init, modify_tsdev_other]

theorem streaming_endpoints_update (a b : px4_device) (i : Fin 4)
    (h : ∀ j, j ≠ i → a.tsdev j = b.tsdev j) :
    streaming_endpoints a + (if (b.tsdev i).streaming ≠ 0 then 1 else 0) =
      streaming_endpoints b + (if (a.tsdev i).streaming ≠ 0 then 1 else 0) := by
  rw [streaming_endpoints_eq, streaming_endpoints_eq]
  fin_cases i
  · rw [h 1 (by decide), h 2 (by decide), h 3 (by decide)]; simp only [Fin.zero_eta]; omega
  · rw [h 0 (by decide), h 2 (by decide), h 3 (by decide)]; simp only [Fin.mk_one]; omega
  · rw [h 0 (by decide), h 1 (by decide), h 3 (by decide)]
    simp only [Fin.reduceFinMk]; omega
  · rw [h 0 (by decide), h 1 (by decide), h 2 (by decide)]
    simp only [Fin.reduceFinMk]; omega

theorem streaming_endpoints_le (px4 : px4_device) : streaming_endpoints px4 ≤ 4 := by
  rw [streaming_endpoints_eq]
  split_ifs <;> omega

theorem streaming_endpoints_pos (px4 : px4_device) (i : Fin 4)
    (h : (px4.tsdev i).streaming ≠ 0) : 1 ≤ streaming_endpoints px4 := by
  have := streaming_endpoints_update px4 (px4.modify_tsdev i (fun t => { t with streaming := 0 }))
    i (fun j hj => (modify_tsdev_other _ _ _ _ hj).symm)
  simp only [modify_tsdev_same, ne_eq, not_true_eq_false, if_false, h, not_false_eq_true,
    if_true] at this
  omega

theorem stream_inv_start (env : HwEnv) (max_urbs : Nat) (no_dma : Bool) (px4 : px4_device)
    (i : Fin 4) (h : stream_inv px4) :
    stream_inv (px4_tsdev_start_streaming env max_urbs no_dma px4 i).2 := by
  by_cases h0 : (px4.tsdev i).streaming = 0
  · obtain ⟨ho, -, -, -, -, hc⟩ :=
      start_streaming_outcome env max_urbs no_dma px4 i h0 _ rfl
    have hu := streaming_endpoints_update
      (px4_tsdev_start_streaming env max_urbs no_dma px4 i).2 px4 i ho
    have hle := streaming_endpoints_le (px4_tsdev_start_streaming env max_urbs no_dma px4 i).2
    obtain ⟨hcount, hbuf⟩ := h
    rcases hc with ⟨-, hs, hcnt, hrb, -⟩ | ⟨-, hs, hcnt, hrb⟩
    · refine ⟨?_, ?_⟩
      · rw [hcnt, hcount]; simp only [h0, hs, ne_eq, not_true_eq_false, if_false] at hu; omega
      · intro j hj
        by_cases hji : j = i
        · subst hji
          rcases hrb with e | e
          · rw [e]; exact hbuf j h0
          · rw [e]; rfl
        · rw [ho j hji] at hj ⊢; exact hbuf j hj
    · refine ⟨?_, ?_⟩
      · rw [hcnt, hcount]
        simp only [h0, hs, ne_eq, not_true_eq_false, if_false, one_ne_zero, not_false_eq_true,
          if_true] at hu
        unfold u32_inc
        omega
      · intro j hj
        by_cases hji : j = i
        · subst hji; rw [hs] at hj; exact absurd hj (by decide)
        · rw [ho j hji] at hj ⊢; exact hbuf j hj
  · have : px4_tsdev_start_streaming env max_urbs no_dma px4 i = (0, px4) := by
      unfold px4_tsdev_start_streaming; rw [if_pos h0]
    rw [this]; exact h

theorem stream_inv_stop (env : HwEnv) (px4 : px4_device) (i : Fin 4) (avail : Bool)
    (h : stream_inv px4) : stream_inv (px4_tsdev_stop_streaming env px4 i avail).2 := by
  by_cases h0 : (px4.tsdev i).streaming = 0
  · have : px4_tsdev_stop_streaming env px4 i avail = (0, px4) := by
      unfold px4_tsdev_stop_streaming; rw [if_pos h0]
    rw [this]; exact h
  · obtain ⟨ho, hs, hrb, hcnt⟩ := stop_streaming_outcome env px4 i avail h0 _ rfl
    have hu := streaming_endpoints_update (px4_tsdev_stop_streaming env px4 i avail).2 px4 i ho
    have hle := streaming_endpoints_le px4
    obtain ⟨hcount, hbuf⟩ := h
    refine ⟨?_, ?_⟩
    · rw [hcnt, hcount]
      simp only [hs, ne_eq, h0, not_false_eq_true, if_true, not_true_eq_false, if_false] at hu
      unfold u32_dec
      omega
    · intro j hj
      by_cases hji : j = i
      · subst hji; rw [hrb]; rfl
      · rw [ho j hji] at hj ⊢; exact hbuf j hj

theorem stream_inv_init (px4 : px4_device) : stream_inv (px4_init px4) := by
  refine ⟨?_, fun i _ => rfl⟩
  rw [streaming_endpoints_eq]
  simp [px4_init]

theorem stream_inv_run (env : HwEnv) (ops : List StreamOp) :
    ∀ px4 : px4_device, stream_inv px4 → stream_inv (run_stream_ops env px4 ops) := by
  induction ops with
  | nil => intro px4 h; exact h
  | cons op ops ih =>
    intro px4 h
    unfold run_stream_ops
    rw [List.foldl_cons]
    apply ih
    cases op with
    | start id max_urbs no_dma => exact stream_inv_start env max_urbs no_dma px4 id h
    | stop id avail => exact stream_inv_stop env px4 id avail h

/-- C7. Starting from `px4_init`, after every sequence of `px4_tsdev_start_streaming` and
`px4_tsdev_stop_streaming` calls on the four endpoints, each succeeding or failing,
`streaming_count` equals the number of endpoints whose `streaming` flag is set (so it
is at most 4), and an endpoint that is not streaming holds no allocated ring buffer.
Hence a stop that decrements finds `streaming_count ≥ 1`: the unsigned decrement
does not wrap. -/
theorem streaming_count_invariant (env : HwEnv) (px4 : px4_device) (ops : List StreamOp) :
    (run_stream_ops env (px4_init px4) ops).streaming_count
      = streaming_endpoints (run_stream_ops env (px4_init px4) ops) ∧
    (run_stream_ops env (px4_init px4) ops).streaming_count ≤ 4 ∧
    (∀ i : Fin 4, ((run_stream_ops env (px4_init px4) ops).tsdev i).streaming = 0 →
      ((run_stream_ops env (px4_init px4) ops).tsdev i).rgbuf.allocated = false) ∧
    (∀ (i : Fin 4) (avail : Bool),
      ((run_stream_ops env (px4_init px4) ops).tsdev i).streaming ≠ 0 →
      1 ≤ (run_stream_ops env (px4_init px4) ops).streaming_count ∧
      (px4_tsdev_stop_streaming env (run_stream_ops env (px4_init px4) ops) i
          avail).2.streaming_count + 1
        = (run_stream_ops env (px4_init px4) ops).streaming_count) := by
  have hinv := stream_inv_run env ops (px4_init px4) (stream_inv_init px4)
  have hle := streaming_endpoints_le (run_stream_ops env (px4_init px4) ops)
  refine ⟨hinv.1, by rw [hinv.1]; exact hle, hinv.2, ?_⟩
  intro i avail hs
  have hpos := streaming_endpoints_pos _ i hs
  obtain ⟨-, -, -, hcnt⟩ := stop_streaming_outcome env _ i avail hs _ rfl
  refine ⟨by rw [hinv.1]; exact hpos, ?_⟩
  rw [hcnt, hinv.1]
  unfold u32_dec
  omega

/-- C10. `px4_tsdev_stop_streaming` on an endpoint whose `streaming` flag is clear returns
0 and leaves the device as it was (flags, `streaming_count`, ring buffer; the trace
is the same, so no collaborator was called), and `px4_tsdev_start_streaming` on an
endpoint whose `streaming` flag is set returns 0 and leaves the device as it was
(`streaming_count`, ring buffer, pump settings, trace). -/
theorem streaming_calls_idempotent (env : HwEnv) (max_urbs : Nat) (no_dma : Bool)
    (px4 : px4_device) (i : Fin 4) (avail : Bool) :
    ((px4.tsdev i).streaming = 0 → px4_tsdev_stop_streaming env px4 i avail = (0, px4)) ∧
    ((px4.tsdev i).streaming ≠ 0 →
      px4_tsdev_start_streaming env max_urbs no_dma px4 i = (0, px4)) := by
  constructor
  · intro h
    unfold px4_tsdev_stop_streaming
    rw [if_pos h]
  · intro h
    unfold px4_tsdev_start_streaming
    rw [if_pos h]

/-- Witness for `streaming_calls_idempotent`: a stop on a freshly probed device, and a
second start on an endpoint that a first start made streaming. -/
theorem streaming_calls_idempotent_witness :
    (((px4_probe_ok 816).tsdev 2).streaming = 0 ∧
      px4_tsdev_stop_streaming env_ok (px4_probe_ok 816) 2 true = (0, px4_probe_ok 816)) ∧
    (((px4_tsdev_start_streaming env_ok 6 false (px4_probe_ok 816) 2).2.tsdev 2).streaming ≠ 0 ∧
      px4_tsdev_start_streaming env_ok 6 false
          (px4_tsdev_start_streaming env_ok 6 false (px4_probe_ok 816) 2).2 2
        = (0, (px4_tsdev_start_streaming env_ok 6 false (px4_probe_ok 816) 2).2)) :=
  ⟨⟨by decide,
    (streaming_calls_idempotent env_ok 6 false (px4_probe_ok 816) 2 true).1 (by decide)⟩,
   ⟨by decide,
    (streaming_calls_idempotent env_ok 6 false
      (px4_tsdev_start_streaming env_ok 6 false (px4_probe_ok 816) 2).2 2 true).2 (by decide)⟩⟩

/-! ## device lifecycle: the failed open of a busy endpoint -/

/-- C2 (failing input). On a freshly probed device the first open of endpoint 0 succeeds
and sets its `open` flag; a second open of endpoint 0 fails with `-EIO` but, leaving
through the label `fail:`, clears the flag that the first session holds; a third
open of endpoint 0 then succeeds while the first session is still open. -/
theorem px4_tsdev_open_busy_clears_open_flag :
    (px4_tsdev_open env_ok (px4_probe_ok 816) 0).1 = 0 ∧
    ((px4_tsdev_open env_ok (px4_probe_ok 816) 0).2.tsdev 0).opened = true ∧
    (px4_tsdev_open env_ok (px4_tsdev_open env_ok (px4_probe_ok 816) 0).2 0).1 = - EIO ∧
    ((px4_tsdev_open env_ok
      (px4_tsdev_open env_ok (px4_probe_ok 816) 0).2 0).2.tsdev 0).opened = false ∧
    (px4_tsdev_open env_ok (px4_tsdev_open env_ok
      (px4_tsdev_open env_ok (px4_probe_ok 816) 0).2 0).2 0).1 = 0 := by
  decide

/-- C3 (failing input). After an open of endpoint 0 and a second, failed open of endpoint 0
the device is attached and its reference count is 2, but no endpoint has its `open`
flag set: the count is not 1 plus the number of open endpoints. -/
theorem px4_tsdev_open_busy_breaks_reference_invariant :
    (px4_tsdev_open env_ok (px4_tsdev_open env_ok (px4_probe_ok 816) 0).2 0).2.ref = 2 ∧
    (px4_tsdev_open env_ok (px4_tsdev_open env_ok (px4_probe_ok 816) 0).2 0).2.avail = 1 ∧
    open_endpoints (px4_tsdev_open env_ok (px4_tsdev_open env_ok (px4_probe_ok 816) 0).2 0).2
      = 0 := by
  decide
/-! ## resynchronization scan: proofs -/

theorem sync_at_passing_offset (q : List Nat) (hq : 0 < q.length)
    (h : ∀ i, i < 4 → i * 188 < q.length → is_sync (q.getD (i * 188) 0) = true) :
    px4_ts_sync q = (decide (564 < q.length), q, decide (q.length ≤ 564)) := by
  have g0 : is_sync (q.getD 0 0) = true := h 0 (by decide) (by omega)
  have g1 : 188 < q.length → is_sync (q.getD 188 0) = true := fun hl => h 1 (by decide) (by omega)
  have g2 : 376 < q.length → is_sync (q.getD 376 0) = true := fun hl => h 2 (by decide) (by omega)
  have g3 : 564 < q.length → is_sync (q.getD 564 0) = true := fun hl => h 3 (by decide) (by omega)
  cases hq' : q with
  | nil => rw [hq'] at hq; simp at hq
  | cons x xs =>
    rw [← hq']
    have e : px4_ts_sync q = (let r := px4_ts_sync_for q TS_SYNC_COUNT 0
        if r.1 = TS_SYNC_COUNT then (true, q, false)
        else if r.2 then (false, q, true) else px4_ts_sync xs) := by
      rw [hq', px4_ts_sync]
    rw [e]
    by_cases l1 : 188 < q.length
    · by_cases l2 : 376 < q.length
      · by_cases l3 : 564 < q.length
        · simp [px4_ts_sync_for, TS_SYNC_COUNT, -List.getD_eq_getElem?_getD, hq, l1, l2, l3,
            g0, g1 l1, g2 l2, g3 l3]
        · simp [px4_ts_sync_for, TS_SYNC_COUNT, -List.getD_eq_getElem?_getD, hq, l1, l2, l3,
            g0, g1 l1, g2 l2]
          all_goals omega
      · have l3 : ¬ 564 < q.length := by omega
        simp [px4_ts_sync_for, TS_SYNC_COUNT, -List.getD_eq_getElem?_getD, hq, l1, l2, l3,
          g0, g1 l1]
        all_goals omega
    · have l3 : ¬ 564 < q.length := by omega
      simp [px4_ts_sync_for, TS_SYNC_COUNT, -List.getD_eq_getElem?_getD, hq, l1, l3, g0]
      all_goals omega

theorem not_sync_passes (p : List Nat) (j : Nat) (h : ¬ sync_passes p j) :
    ∃ i, i < 4 ∧ j + i * 188 < p.length ∧ is_sync (p.getD (j + i * 188) 0) = false := by
  unfold sync_passes at h
  push_neg at h
  obtain ⟨i, hi, hl, hs⟩ := h
  exact ⟨i, hi, hl, by simpa using hs⟩

theorem getD_drop_add (p : List Nat) (j k : Nat) :
    (p.drop j).getD k 0 = p.getD (j + k) 0 := by
  simp [List.getD_eq_getElem?_getD, List.getElem?_drop]

/-- C13. For every buffer `p`, `px4_ts_sync` stops at the smallest offset `j < len` that
passes its test (every one of the positions `j`, `j + 188`, `j + 376`, `j + 564` inside
the buffer holds a sync byte): it returns the cursor advanced by `j` (the remaining
length is `len - j > 0`), with result true and `sync_remain` false when all four
positions lie inside the buffer (`len - j > 564`), and result false and `sync_remain`
true when fewer than four fit. When no offset passes, it returns false with nothing
remaining and `sync_remain` false. -/
theorem px4_ts_sync_scan (p : List Nat) :
    (∀ j, j < p.length → sync_passes p j → (∀ j', j' < j → ¬ sync_passes p j') →
      px4_ts_sync p = (decide (564 < p.length - j), p.drop j, decide (p.length - j ≤ 564)) ∧
      (p.drop j).length = p.length - j) ∧
    ((∀ j, j < p.length → ¬ sync_passes p j) → px4_ts_sync p = (false, [], false)) := by
  constructor
  · intro j hj hpass hmin
    refine ⟨?_, List.length_drop j p⟩
    have hlen : (p.take j).length = j := by rw [List.length_take]; omega
    have hskip := sync_skip (p.take j) (p.drop j) (by
      intro j' hj'
      rw [List.take_append_drop]
      exact not_sync_passes p j' (hmin j' (by omega)))
    rw [List.take_append_drop] at hskip
    rw [hskip]
    have hq : 0 < (p.drop j).length := by rw [List.length_drop]; omega
    have := sync_at_passing_offset (p.drop j) hq (by
      intro i hi hl
      rw [getD_drop_add]
      apply hpass i hi
      rw [List.length_drop] at hl
      omega)
    rw [this, List.length_drop]
  · intro hnone
    have := sync_skip p [] (by
      intro j hj
      rw [List.append_nil]
      exact not_sync_passes p j (hnone j hj))
    rw [List.append_nil] at this
    rw [this]
    rfl

/-- Witness for `px4_ts_sync_scan`: one byte that is no sync byte before four records; the
scan stops at offset 1, synchronized. -/
theorem px4_ts_sync_scan_witness :
    (1 < ([0x00] ++ [ts_record 0x17, ts_record 0x27, ts_record 0x37,
        ts_record 0x47].flatten).length ∧
      sync_passes ([0x00] ++ [ts_record 0x17, ts_record 0x27, ts_record 0x37,
        ts_record 0x47].flatten) 1 ∧
      ∀ j', j' < 1 → ¬ sync_passes ([0x00] ++ [ts_record 0x17, ts_record 0x27,
        ts_record 0x37, ts_record 0x47].flatten) j') ∧
    px4_ts_sync ([0x00] ++ [ts_record 0x17, ts_record 0x27, ts_record 0x37,
        ts_record 0x47].flatten) =
      (decide (564 < ([0x00] ++ [ts_record 0x17, ts_record 0x27, ts_record 0x37,
          ts_record 0x47].flatten).length - 1),
       ([0x00] ++ [ts_record 0x17, ts_record 0x27, ts_record 0x37,
          ts_record 0x47].flatten).drop 1,
       decide (([0x00] ++ [ts_record 0x17, ts_record 0x27, ts_record 0x37,
          ts_record 0x47].flatten).length - 1 ≤ 564)) :=
  ⟨by decide,
   ((px4_ts_sync_scan ([0x00] ++ [ts_record 0x17, ts_record 0x27, ts_record 0x37,
      ts_record 0x47].flatten)).1 1 (by decide) (by decide) (by decide)).1⟩
/-! ## aligned extraction: proofs -/

theorem with_appended_nil (px4 : px4_device) : with_appended px4 (fun _ => []) = px4 := by
  simp [with_appended, ringbuffer_write]

theorem with_appended_append (px4 : px4_device) (f g : Fin 4 → List Nat) :
    with_appended (with_appended px4 f) g = with_appended px4 (fun j => f j ++ g j) := by
  simp [with_appended, ringbuffer_write, List.append_assoc]

theorem deliver_eq_with_appended (px4 : px4_device) (r : List Nat) :
    deliver px4 r =
      with_appended px4 (fun j => if route_id r = j.val + 1 then 0x47 :: r.tail else []) := by
  unfold deliver
  by_cases h : route_id r ≠ 0 ∧ route_id r < 5
  · rw [dif_pos h]
    simp only [px4_device.set_tsdev, with_appended]
    congr 1
    funext j
    by_cases hj : route_id r = j.val + 1
    · have : j = (⟨route_id r - 1, by omega⟩ : Fin 4) := by
        apply Fin.ext; simp; omega
      simp [hj, ← this]
    · have : ¬ (j = (⟨route_id r - 1, by omega⟩ : Fin 4)) := by
        intro e; apply hj; rw [e]; simp; omega
      simp [hj, this, ringbuffer_write]
  · rw [dif_neg h]
    have : (fun j : Fin 4 => if route_id r = j.val + 1 then 0x47 :: r.tail else [])
        = fun _ => [] := by
      funext j
      have : ¬ route_id r = j.val + 1 := by
        intro e; apply h; have := j.isLt; omega
      simp [this]
    rw [this, with_appended_nil]

theorem foldl_deliver_eq_with_appended (recs : List (List Nat)) :
    ∀ px4 : px4_device, recs.foldl deliver px4 = with_appended px4 (fun j => routed j recs) := by
  induction recs with
  | nil => intro px4; simp [routed, with_appended_nil]
  | cons r rs ih =>
    intro px4
    rw [List.foldl_cons, ih, deliver_eq_with_appended, with_appended_append]
    congr 1
    funext j
    by_cases hj : route_id r = j.val + 1 <;> simp [routed, List.filter_cons, hj]

theorem write_loop_decompose (fuel : Nat) :
    ∀ (px4 : px4_device) (p : List Nat), p.length ≤ fuel →
      ∃ (recs : List (List Nat)) (rest : List Nat), p = recs.flatten ++ rest ∧ (∀ r ∈ recs, valid_record r) ∧
        (rest.length < 188 ∨ is_sync (rest.getD 0 0) = false) ∧
        px4_ts_write_loop fuel px4 p = (recs.foldl deliver px4, rest) := by
  induction fuel with
  | zero =>
    intro px4 p hp
    refine ⟨[], p, by simp, by simp, Or.inl (by omega), by simp [px4_ts_write_loop]⟩
  | succ f ih =>
    intro px4 p hp
    rw [write_loop_succ]
    by_cases hc : p.length ≥ 188 ∧ is_sync (p.getD 0 0)
    · rw [if_pos hc]
      obtain ⟨recs, rest, h1, h2, h3, h4⟩ := ih (deliver px4 (p.take 188)) (p.drop 188)
        (by rw [List.length_drop]; omega)
      refine ⟨p.take 188 :: recs, rest, ?_, ?_, h3, ?_⟩
      · rw [List.flatten_cons, List.append_assoc, ← h1, List.take_append_drop]
      · intro r hr
        rcases List.mem_cons.1 hr with e | hr
        · subst e
          refine ⟨by rw [List.length_take]; omega, ?_⟩
          have e : (p.take 188).getD 0 0 = p.getD 0 0 := by
            cases p with
            | nil => simp
            | cons x xs => simp
          rw [e]; exact hc.2
        · exact h2 r hr
      · rw [h4, List.foldl_cons]
    · rw [if_neg hc]
      refine ⟨[], p, by simp, by simp, ?_, by simp⟩
      by_cases hl : p.length < 188
      · exact Or.inl hl
      · right
        have : ¬ is_sync (p.getD 0 0) = true := fun h => hc ⟨by omega, h⟩
        simpa using this

theorem valid_prefix_maximal (recs : List (List Nat)) :
    ∀ (rest : List Nat) (recs' : List (List Nat)) (rest' : List Nat),
      recs.flatten ++ rest = recs'.flatten ++ rest' →
      (∀ r ∈ recs, valid_record r) → (∀ r ∈ recs', valid_record r) →
      (rest.length < 188 ∨ is_sync (rest.getD 0 0) = false) →
      recs'.length ≤ recs.length := by
  induction recs with
  | nil =>
    intro rest recs' rest' he _ hv' hstop
    cases recs' with
    | nil => simp
    | cons r' rs' =>
      exfalso
      have hr' := hv' r' (List.mem_cons_self _ _)
      have hpos : 0 < r'.length := by rw [hr'.1]; decide
      simp only [List.flatten_nil, List.nil_append, List.flatten_cons, List.append_assoc] at he
      rcases hstop with hl | hs
      · rw [he] at hl
        simp only [List.length_append, hr'.1] at hl
        omega
      · rw [he, List.getD_append _ _ _ _ hpos, hr'.2] at hs
        exact Bool.noConfusion hs
  | cons r rs ih =>
    intro rest recs' rest' he hv hv' hstop
    cases recs' with
    | nil => simp
    | cons r' rs' =>
      have hr := hv r (List.mem_cons_self _ _)
      have hr' := hv' r' (List.mem_cons_self _ _)
      simp only [List.flatten_cons, List.append_assoc] at he
      have := List.append_inj he (by rw [hr.1, hr'.1])
      have := ih rest rs' rest' this.2 (fun x hx => hv x (List.mem_cons_of_mem _ hx))
        (fun x hx => hv' x (List.mem_cons_of_mem _ hx)) hstop
      simp only [List.length_cons]
      omega

/-- C14. For every device and buffer `p`, `px4_ts_write` consumes exactly the maximal
prefix of whole records: `p` splits into records `recs`, each of 188 bytes with a sync
leading byte, and a rest that is shorter than a record or does not start with a sync
byte; no other split of `p` has more such records; the cursor returned is `p` advanced
by 188 bytes per record; and the device returned is the one given with, for every
endpoint `j`, the records of routing identifier `j + 1` appended to its ring buffer in
order, each as `0x47` followed by its 187 remaining bytes, and nothing else changed
(records of identifier 0 or above 4 reach no ring buffer). -/
theorem px4_ts_write_extracts (px4 : px4_device) (p : List Nat) :
    ∃ (recs : List (List Nat)) (rest : List Nat), p = recs.flatten ++ rest ∧ (∀ r ∈ recs, valid_record r) ∧
      (rest.length < 188 ∨ is_sync (rest.getD 0 0) = false) ∧
      (∀ (recs' : List (List Nat)) (rest' : List Nat), p = recs'.flatten ++ rest' → (∀ r ∈ recs', valid_record r) →
        recs'.length ≤ recs.length) ∧
      rest = p.drop (188 * recs.length) ∧
      px4_ts_write px4 p = (with_appended px4 (fun j => routed j recs), rest) := by
  obtain ⟨recs, rest, h1, h2, h3, h4⟩ := write_loop_decompose p.length px4 p (le_refl _)
  refine ⟨recs, rest, h1, h2, h3, ?_, ?_, ?_⟩
  · intro recs' rest' he hv'
    exact valid_prefix_maximal recs rest recs' rest' (by rw [← h1, ← he]) h2 hv' h3
  · have hl := flatten_length_of_valid recs h2
    conv_rhs => rw [h1]
    rw [← hl, List.drop_left]
  · rw [px4_ts_write, h4, foldl_deliver_eq_with_appended]
/-! ## signal-lock poll: proofs -/

theorem poll_calls_succ (q : HwCall) (d n : Nat) :
    poll_calls q d (n + 1) = [q, .msleep d] ++ poll_calls q d n := by
  simp [poll_calls, List.replicate_succ]

theorem poll_locked_round (env : HwEnv) (q : HwCall) (d : Nat)
    (hok : ∀ tr, (env tr q).ret = 0) (k : Nat) :
    ∀ (n : Nat) (r : Int × Bool) (s : px4_device), k < n →
      locks_in_round env s.trace q d k →
      poll_locked env q d n r s = ((0, true), s.add_calls (poll_calls q d k ++ [q])) := by
  induction k with
  | zero =>
    intro n r s hn h
    obtain ⟨m, rfl⟩ : ∃ m, n = m + 1 := ⟨n - 1, by omega⟩
    have h1 : (env s.trace q).flag = true := by
      have := h.2
      simpa [poll_calls] using this
    simp only [poll_locked, hw_eq, hok, h1, poll_calls]
    simp
  | succ k ih =>
    intro n r s hn h
    obtain ⟨m, rfl⟩ : ∃ m, n = m + 1 := ⟨n - 1, by omega⟩
    have h0 : (env s.trace q).flag = false := by
      have := h.1 0 (by omega)
      simpa [poll_calls] using this
    have hnext : locks_in_round env (s.add_calls [q, .msleep d]).trace q d k := by
      refine ⟨fun j hj => ?_, ?_⟩
      · have := h.1 (j + 1) (by omega)
        rw [poll_calls_succ, ← List.append_assoc] at this
        exact this
      · have := h.2
        rw [poll_calls_succ, ← List.append_assoc] at this
        exact this
    rw [poll_locked]
    simp only [hw_eq, hok, h0, add_calls_add_calls]
    rw [if_neg (by simp)]
    have := ih m (0, false) (s.add_calls [q, .msleep d]) (by omega) hnext
    simp only [List.singleton_append] at this ⊢
    rw [this, add_calls_add_calls, poll_calls_succ]
    simp

theorem set_channel_t_signal_timeout (env : HwEnv) (px4 : px4_device) (i : Fin 4)
    (regs : List Nat) (k : Nat) (hk : k < 50)
    (hok : ∀ tr c, (env tr c).ret = 0)
    (hpll : locks_in_round env (px4.trace ++ pre_pll_calls_t i regs)
      (.r850_is_pll_locked i) 10 k)
    (hsig : ∀ tr, (env tr (.tc90522_is_signal_locked_t i)).flag = false) :
    px4_tsdev_set_channel_t env px4 i regs
      = (0, px4.add_calls (signal_timeout_calls_t i regs k)) := by
  have hp : ∀ r, poll_locked env (.r850_is_pll_locked i) 10 50 r
      (px4.add_calls (pre_pll_calls_t i regs)) = ((0, true),
        (px4.add_calls (pre_pll_calls_t i regs)).add_calls
          (poll_calls (.r850_is_pll_locked i) 10 k ++ [.r850_is_pll_locked i])) :=
    fun r => poll_locked_round env _ 10 (fun tr => hok tr _) k 50 r _ hk hpll
  have hd := poll_locked_never env (.tc90522_is_signal_locked_t i) 40
    (fun tr => ⟨hok tr _, hsig tr⟩) 49
  have hr : ∀ r, px4_tsdev_set_channel_t env px4 i regs = r →
      r = (0, px4.add_calls (signal_timeout_calls_t i regs k)) := by
    intro r hr
    unfold px4_tsdev_set_channel_t at hr
    lift_lets at hr
    extract_lets r1 r2 r3 r4 s4 regs' r5 l r6 r7 d at hr
    have k5 : r5.1.ret = 0 ∧ r5.2 = px4.add_calls (pre_pll_calls_t i regs) := by
      refine ⟨hok _ _, ?_⟩
      simp only [r5, s4, r4, r3, r2, r1, regs', hw_eq, add_calls_add_calls, pre_pll_calls_t]
      rfl
    have g1 : r1.1.ret = 0 := hok _ _
    have g2 : r2.1.ret = 0 := hok _ _
    have g3 : r3.1.ret = 0 := hok _ _
    have g4 : r4.1.ret = 0 := hok _ _
    clear_value r5 s4 r4 r3 r2 r1 regs'
    obtain ⟨k51, k52⟩ := k5
    have kl : l = ((0, true), px4.add_calls (pre_pll_calls_t i regs ++
        poll_calls (.r850_is_pll_locked i) 10 k ++ [.r850_is_pll_locked i])) := by
      simp only [l, k52, hp, add_calls_add_calls, List.append_assoc]
    clear_value l
    have k6 : r6.1.ret = 0 ∧ r6.2 = px4.add_calls (pre_pll_calls_t i regs ++
        poll_calls (.r850_is_pll_locked i) 10 k ++
        [.r850_is_pll_locked i, .tc90522_set_agc_t i true]) := by
      refine ⟨hok _ _, ?_⟩
      simp only [r6, kl, hw_eq, add_calls_add_calls, List.append_assoc]
      rfl
    clear_value r6
    obtain ⟨k61, k62⟩ := k6
    have k7 : r7.1.ret = 0 ∧ r7.2 = px4.add_calls (pre_pll_calls_t i regs ++
        poll_calls (.r850_is_pll_locked i) 10 k ++
        [.r850_is_pll_locked i, .tc90522_set_agc_t i true,
         .tc90522_write_regs i [(0x71, 0x21), (0x72, 0x25), (0x75, 0x08)]]) := by
      refine ⟨hok _ _, ?_⟩
      simp only [r7, k62, hw_eq, add_calls_add_calls, List.append_assoc]
      rfl
    clear_value r7
    obtain ⟨k71, k72⟩ := k7
    have kd : d = ((0, false), px4.add_calls (signal_timeout_calls_t i regs k)) := by
      simp only [d, k72, hd, add_calls_add_calls, signal_timeout_calls_t]
    clear_value d
    rw [← hr, if_neg (by simp [g1]), if_neg (by simp [g2]), if_neg (by simp [g3]),
      if_neg (by simp [g4]), if_neg (by simp [k51]), if_neg (by simp [kl]),
      if_neg (by simp [kl]), if_neg (by simp [k61]), if_neg (by simp [k71]), kd]
  exact hr _ rfl

/-- C15. On a terrestrial endpoint and a UHF channel index (63..102) that the channel
table resolves: if every collaborator call succeeds and the tuner reports phase lock
in some round `k < 50` of its poll (not before), but the demodulator's signal-lock
query reports "not locked" each time, then `px4_tsdev_set_channel` returns 0 after
exactly 50 signal-lock queries and `k + 1` phase-lock queries; the calls it made are
the writes, the `k` unsuccessful rounds of the phase-lock poll and the query that
reported the lock, the two writes that follow, then 50 rounds of signal-lock query and
40 ms delay. -/
theorem px4_tsdev_set_channel_signal_timeout (env : HwEnv)
    (r850_channel_get_regs : Int → Int × List Nat) (px4 : px4_device) (i : Fin 4)
    (freq_no slot : Int) (k : Nat)
    (hisdb : (px4.tsdev i).isdb = ISDB_T)
    (hfreq : 63 ≤ freq_no ∧ freq_no ≤ 102)
    (hchan : (r850_channel_get_regs freq_no).1 = 0)
    (hok : ∀ tr c, (env tr c).ret = 0)
    (hk : k < 50)
    (hpll : locks_in_round env
      (px4.trace ++ pre_pll_calls_t i (r850_channel_get_regs freq_no).2)
      (.r850_is_pll_locked i) 10 k)
    (hsig : ∀ tr, (env tr (.tc90522_is_signal_locked_t i)).flag = false) :
    (px4_tsdev_set_channel env r850_channel_get_regs px4 i freq_no slot).1 = 0 ∧
    ((calls_since px4 (px4_tsdev_set_channel env r850_channel_get_regs px4 i freq_no slot).2
      ).filter (signal_query i)).length = 50 ∧
    ((calls_since px4 (px4_tsdev_set_channel env r850_channel_get_regs px4 i freq_no slot).2
      ).filter (pll_query i)).length = k + 1 ∧
    calls_since px4 (px4_tsdev_set_channel env r850_channel_get_regs px4 i freq_no slot).2 =
      signal_timeout_calls_t i (r850_channel_get_regs freq_no).2 k := by
  have hns : ¬ ((px4.tsdev i).isdb = ISDB_S) := by rw [hisdb]; exact isdb_t_ne_s
  have hr : px4_tsdev_set_channel env r850_channel_get_regs px4 i freq_no slot
      = (0, px4.add_calls (signal_timeout_calls_t i (r850_channel_get_regs freq_no).2 k)) := by
    unfold px4_tsdev_set_channel
    rw [if_neg hns, if_pos hisdb, if_neg (by omega), if_pos (by omega)]
    simp only [hchan, ne_eq, not_true_eq_false, if_false]
    exact set_channel_t_signal_timeout env px4 i _ k hk hok hpll hsig
  rw [hr]
  refine ⟨rfl, ?_, ?_, calls_since_add_calls _ _⟩
  · rw [calls_since_add_calls, signal_timeout_calls_t, List.filter_append, List.length_append,
      filter_poll_calls _ _ _ _ (by simp [signal_query]) (by simp [signal_query]),
      List.filter_append, List.filter_append, List.length_append, List.length_append,
      (List.filter_eq_nil_iff (l := poll_calls (HwCall.r850_is_pll_locked i) 10 k)).2
        (fun c hc => by
          rcases mem_poll_calls _ _ _ _ hc with rfl | rfl <;> simp [signal_query])]
    simp [signal_query, pre_pll_calls_t]
  · rw [calls_since_add_calls, signal_timeout_calls_t, List.filter_append, List.length_append,
      List.filter_append, List.filter_append, List.length_append, List.length_append,
      filter_poll_calls _ _ _ _ (by simp [pll_query]) rfl,
      (List.filter_eq_nil_iff
        (l := poll_calls (HwCall.tc90522_is_signal_locked_t i) 40 50)).2
        (fun c hc => by
          rcases mem_poll_calls _ _ _ _ hc with rfl | rfl <;> simp [pll_query])]
    simp [pll_query, pre_pll_calls_t]

theorem env_pll_third_ok : ∀ tr c, (env_pll_third tr c).ret = 0 := by
  intro tr c
  cases c <;> rfl

/-- Witness for `px4_tsdev_set_channel_signal_timeout`: the terrestrial endpoint 2 of a
freshly probed device, channel 63, with a tuner that reports phase lock at its third
query (round 2) and a demodulator that never locks. -/
theorem px4_tsdev_set_channel_signal_timeout_witness :
    (((px4_probe_ok 816).tsdev 2).isdb = ISDB_T ∧ ((63 : Int) ≤ 63 ∧ (63 : Int) ≤ 102) ∧
      (test_channel_table 63).1 = 0 ∧ 2 < 50 ∧
      locks_in_round env_pll_third
        ((px4_probe_ok 816).trace ++ pre_pll_calls_t 2 (test_channel_table 63).2)
        (.r850_is_pll_locked 2) 10 2) ∧
    (px4_tsdev_set_channel env_pll_third test_channel_table (px4_probe_ok 816) 2 63 0).1 = 0 ∧
    ((calls_since (px4_probe_ok 816)
      (px4_tsdev_set_channel env_pll_third test_channel_table (px4_probe_ok 816) 2 63 0).2
      ).filter (signal_query 2)).length = 50 ∧
    ((calls_since (px4_probe_ok 816)
      (px4_tsdev_set_channel env_pll_third test_channel_table (px4_probe_ok 816) 2 63 0).2
      ).filter (pll_query 2)).length = 2 + 1 :=
  ⟨⟨by decide, by decide, by decide, by decide, by decide⟩,
   (px4_tsdev_set_channel_signal_timeout env_pll_third test_channel_table (px4_probe_ok 816)
      2 63 0 2 (by decide) (by decide) (by decide) env_pll_third_ok (by decide) (by decide)
      (fun _ => rfl)).1,
   (px4_tsdev_set_channel_signal_timeout env_pll_third test_channel_table (px4_probe_ok 816)
      2 63 0 2 (by decide) (by decide) (by decide) env_pll_third_ok (by decide) (by decide)
      (fun _ => rfl)).2.1,
   (px4_tsdev_set_channel_signal_timeout env_pll_third test_channel_table (px4_probe_ok 816)
      2 63 0 2 (by decide) (by decide) (by decide) env_pll_third_ok (by decide) (by decide)
      (fun _ => rfl)).2.2.1⟩
/-! ## ring buffer size: proofs -/

@[simp] theorem set_pump_urb_num (s : px4_device) (n : Nat) (b : Bool) :
    (s.set_pump n b).streaming_urb_num = n := rfl
@[simp] theorem set_streaming_count_urb_num (s : px4_device) (n : Nat) :
    (s.set_streaming_count n).streaming_urb_num = s.streaming_urb_num := rfl

theorem start_streaming_alloc (env : HwEnv) (max_urbs : Nat) (no_dma : Bool)
    (px4 : px4_device) (i : Fin 4) (h0 : (px4.tsdev i).streaming = 0) :
    ∀ r, px4_tsdev_start_streaming env max_urbs no_dma px4 i = r → r.1 = 0 →
    (r.2.tsdev i).rgbuf = ringbuffer_alloc_ok (start_buf_size px4 max_urbs) ∧
    ∃ l, r.2.trace = px4.trace ++ l ∧
      l.filter alloc_call = [.ringbuffer_alloc i (start_buf_size px4 max_urbs)] := by
  intro r hr hret
  have hne : ¬ ((px4.tsdev i).streaming ≠ 0) := by simp [h0]
  unfold px4_tsdev_start_streaming at hr
  rw [if_neg hne] at hr
  lift_lets at hr
  extract_lets s1 s2 buf_size e1 e2 p a s3 b at hr
  have g1 : s1.trace = px4.trace ∧ s1.streaming_count = px4.streaming_count ∧
      s1.streaming_xfer_size = px4.streaming_xfer_size ∧
      s1.streaming_urb_num = px4.streaming_urb_num := ⟨rfl, rfl, rfl, rfl⟩
  clear_value s1
  obtain ⟨g11, g12, g13, g14⟩ := g1
  have g2 : (∃ l, s2.trace = px4.trace ++ l ∧ l.filter alloc_call = []) ∧
      s2.streaming_count = px4.streaming_count ∧
      s2.streaming_xfer_size = px4.streaming_xfer_size ∧
      s2.streaming_urb_num =
        (if px4.streaming_count = 0 then max_urbs else px4.streaming_urb_num) := by
    simp only [s2]
    rw [g12]
    by_cases hc : px4.streaming_count = 0
    · rw [if_pos hc, if_pos hc]
      exact ⟨⟨[.it930x_purge_psb], by simp [g11], rfl⟩, by simp [g12], by simp [g13], by simp⟩
    · rw [if_neg hc, if_neg hc]
      exact ⟨⟨[], by simp [g11], rfl⟩, g12, g13, g14⟩
  clear_value s2
  obtain ⟨⟨l2, g21, g2f⟩, g22, g23, g24⟩ := g2
  have gb : buf_size = start_buf_size px4 max_urbs := by
    simp only [buf_size, start_buf_size, g23, g24]
  clear_value buf_size
  have gp : (∃ l, p.2.trace = s2.trace ++ l ∧ l.filter alloc_call = []) ∧
      p.2.streaming_count = s2.streaming_count := by
    simp only [p]
    split_ifs
    · exact ⟨⟨[.tc90522_enable_ts_pins_s i true, .tc90522_enable_ts_pins_s i false],
        by simp [e1], rfl⟩, by simp [e1]⟩
    · exact ⟨⟨[.tc90522_enable_ts_pins_s i true], by simp [e1], rfl⟩, by simp [e1]⟩
    · exact ⟨⟨[.tc90522_enable_ts_pins_t i true, .tc90522_enable_ts_pins_t i false],
        by simp [e2], rfl⟩, by simp [e2]⟩
    · exact ⟨⟨[.tc90522_enable_ts_pins_t i true], by simp [e2], rfl⟩, by simp [e2]⟩
    · exact ⟨⟨[], by simp, rfl⟩, rfl⟩
  clear_value p e1 e2
  obtain ⟨⟨lp, gp1, gpf⟩, gp2⟩ := gp
  have ga : a.2.trace = p.2.trace ++ [.ringbuffer_alloc i buf_size] ∧
      a.2.streaming_count = p.2.streaming_count := ⟨rfl, rfl⟩
  clear_value a
  obtain ⟨ga1, ga2⟩ := ga
  have g3 : s3.trace = a.2.trace ∧ (s3.tsdev i).rgbuf = ringbuffer_alloc_ok buf_size ∧
      s3.streaming_count = a.2.streaming_count := ⟨rfl, by simp [s3], rfl⟩
  clear_value s3
  obtain ⟨g31, g32, g33⟩ := g3
  have gbb : b.2.trace = s3.trace ++ [.it930x_bus_start_streaming] ∧ b.2.tsdev = s3.tsdev :=
    ⟨rfl, rfl⟩
  clear_value b
  obtain ⟨gb1, gb2⟩ := gbb
  have key : (l2 ++ lp ++ [HwCall.ringbuffer_alloc i buf_size]).filter alloc_call =
      [.ringbuffer_alloc i buf_size] := by
    simp [List.filter_append, g2f, gpf, alloc_call]
  have key2 : (l2 ++ lp ++ [HwCall.ringbuffer_alloc i buf_size] ++
      [HwCall.it930x_bus_start_streaming]).filter alloc_call = [.ringbuffer_alloc i buf_size] := by
    simp [List.filter_append, g2f, gpf, alloc_call]
  split_ifs at hr with c1 c2 c3 c4
  · subst hr; exact absurd hret c1
  · subst hr; exact absurd hret c2
  · subst hr; exact absurd hret c4
  · subst hr
    refine ⟨by simp [gb2, g32, gb], _, ?_, by rw [← gb]; exact key2⟩
    simp [gb1, g31, ga1, gp1, g21]
  · subst hr
    refine ⟨by simp [g32, gb], _, ?_, by rw [← gb]; exact key⟩
    simp [g31, ga1, gp1, g21]

/-- C11 (as the code has it). A call of `px4_tsdev_start_streaming` on an endpoint that is
not streaming, when it returns 0, has called `ringbuffer_alloc` for that endpoint once,
with the size `streaming_xfer_size + streaming_urb_num` (32-bit sum), where
`streaming_urb_num` is the module parameter `max_urbs` when no endpoint was streaming
and the stored number of URBs otherwise; the ring buffer of the endpoint is the one
allocated with that capacity. Right after attach with `xfer_packets = n` the size is
`n * 188 + max_urbs`: the transfer size plus the number of URBs, not the transfer
size. -/
theorem px4_tsdev_start_streaming_capacity (env : HwEnv) (max_urbs : Nat) (no_dma : Bool)
    (px4 : px4_device) (i : Fin 4) (h0 : (px4.tsdev i).streaming = 0)
    (hok : (px4_tsdev_start_streaming env max_urbs no_dma px4 i).1 = 0) :
    ((px4_tsdev_start_streaming env max_urbs no_dma px4 i).2.tsdev i).rgbuf =
      ringbuffer_alloc_ok (start_buf_size px4 max_urbs) ∧
    (calls_since px4 (px4_tsdev_start_streaming env max_urbs no_dma px4 i).2).filter alloc_call =
      [.ringbuffer_alloc i (start_buf_size px4 max_urbs)] ∧
    ∀ n, start_buf_size (px4_probe_ok n) max_urbs = u32_add (u32_mul n 188) max_urbs := by
  obtain ⟨h1, l, h2, h3⟩ := start_streaming_alloc env max_urbs no_dma px4 i h0 _ rfl hok
  refine ⟨h1, ?_, fun n => rfl⟩
  rw [calls_since, h2, List.drop_left]
  exact h3

/-- Witness for `px4_tsdev_start_streaming_capacity`: the first start on endpoint 0 of a
freshly probed device, every call succeeding. -/
theorem px4_tsdev_start_streaming_capacity_witness :
    (((px4_probe_ok 816).tsdev 0).streaming = 0 ∧
      (px4_tsdev_start_streaming env_ok 6 false (px4_probe_ok 816) 0).1 = 0) ∧
    ((px4_tsdev_start_streaming env_ok 6 false (px4_probe_ok 816) 0).2.tsdev 0).rgbuf =
      ringbuffer_alloc_ok (start_buf_size (px4_probe_ok 816) 6) :=
  ⟨by decide,
   (px4_tsdev_start_streaming_capacity env_ok 6 false (px4_probe_ok 816) 0 (by decide)
      (by decide)).1⟩

/-- C11, counterexample. With the default module parameters (`xfer_packets = 816`,
`max_urbs = 6`) the first start on endpoint 0 of a freshly probed device succeeds and
calls `ringbuffer_alloc` with 153414 bytes, while the transfer size
`streaming_xfer_size = 816 * 188` is 153408 bytes. -/
theorem px4_tsdev_start_streaming_capacity_not_xfer_size :
    ((px4_probe_ok 816).tsdev 0).streaming = 0 ∧
    (px4_tsdev_start_streaming env_ok 6 false (px4_probe_ok 816) 0).1 = 0 ∧
    (px4_probe_ok 816).streaming_xfer_size = 816 * 188 ∧
    calls_since (px4_probe_ok 816)
        (px4_tsdev_start_streaming env_ok 6 false (px4_probe_ok 816) 0).2 =
      [.it930x_purge_psb, .tc90522_enable_ts_pins_s 0 true, .ringbuffer_alloc 0 153414,
       .it930x_bus_start_streaming] ∧
    ((px4_tsdev_start_streaming env_ok 6 false (px4_probe_ok 816) 0).2.tsdev 0).rgbuf.size =
      153414 ∧
    ((px4_tsdev_start_streaming env_ok 6 false (px4_probe_ok 816) 0).2.tsdev 0).rgbuf.size ≠
      (px4_probe_ok 816).streaming_xfer_size := by
  decide

/-! ## failed start: proofs -/

@[simp] theorem set_pump_no_dma (s : px4_device) (n : Nat) (b : Bool) :
    (s.set_pump n b).streaming_no_dma = b := rfl
@[simp] theorem set_streaming_count_no_dma (s : px4_device) (n : Nat) :
    (s.set_streaming_count n).streaming_no_dma = s.streaming_no_dma := rfl

theorem start_streaming_steps (env : HwEnv) (max_urbs : Nat) (no_dma : Bool)
    (px4 : px4_device) (i : Fin 4) (h0 : (px4.tsdev i).streaming = 0)
    (hisdb : (px4.tsdev i).isdb = ISDB_S ∨ (px4.tsdev i).isdb = ISDB_T) :
    ∀ r, px4_tsdev_start_streaming env max_urbs no_dma px4 i = r →
    r.1 = (if (start_pins_resp env px4 i).ret ≠ 0 then (start_pins_resp env px4 i).ret
      else if (start_alloc_resp env max_urbs px4 i).ret ≠ 0 then
        (start_alloc_resp env max_urbs px4 i).ret
      else if px4.streaming_count = 0 then (start_pump_resp env max_urbs px4 i).ret
      else 0) ∧
    r.2.trace = start_trace_pins px4 ++
      (if (start_pins_resp env px4 i).ret ≠ 0 then
         [start_pins_call px4 i true, start_pins_call px4 i false]
       else if (start_alloc_resp env max_urbs px4 i).ret ≠ 0 then
         [start_pins_call px4 i true, .ringbuffer_alloc i (start_buf_size px4 max_urbs)]
       else if px4.streaming_count = 0 then
         [start_pins_call px4 i true, .ringbuffer_alloc i (start_buf_size px4 max_urbs),
          .it930x_bus_start_streaming]
       else [start_pins_call px4 i true, .ringbuffer_alloc i (start_buf_size px4 max_urbs)]) ∧
    r.2.streaming_urb_num =
      (if px4.streaming_count = 0 then max_urbs else px4.streaming_urb_num) ∧
    r.2.streaming_no_dma =
      (if px4.streaming_count = 0 then no_dma else px4.streaming_no_dma) := by
  intro r hr
  have hne : ¬ ((px4.tsdev i).streaming ≠ 0) := by simp [h0]
  unfold px4_tsdev_start_streaming at hr
  rw [if_neg hne] at hr
  lift_lets at hr
  extract_lets s1 s2 buf_size e1 e2 p a s3 b at hr
  have g1 : s1.trace = px4.trace ∧ s1.streaming_count = px4.streaming_count ∧
      s1.streaming_xfer_size = px4.streaming_xfer_size ∧
      s1.streaming_urb_num = px4.streaming_urb_num ∧
      s1.streaming_no_dma = px4.streaming_no_dma ∧
      (s1.tsdev i).isdb = (px4.tsdev i).isdb := ⟨rfl, rfl, rfl, rfl, rfl, by simp [s1]⟩
  clear_value s1
  obtain ⟨g11, g12, g13, g14, g15, g16⟩ := g1
  have g2 : s2.trace = start_trace_pins px4 ∧
      s2.streaming_count = px4.streaming_count ∧
      s2.streaming_xfer_size = px4.streaming_xfer_size ∧
      s2.streaming_urb_num =
        (if px4.streaming_count = 0 then max_urbs else px4.streaming_urb_num) ∧
      s2.streaming_no_dma =
        (if px4.streaming_count = 0 then no_dma else px4.streaming_no_dma) ∧
      (s2.tsdev i).isdb = (px4.tsdev i).isdb := by
    simp only [s2, start_trace_pins]
    rw [g12]
    by_cases hc : px4.streaming_count = 0
    · simp only [if_pos hc]
      exact ⟨by simp [g11], by simp [g12], by simp [g13], by simp, by simp, by simp [g16]⟩
    · simp only [if_neg hc]
      exact ⟨by simp [g11], g12, g13, g14, g15, g16⟩
  clear_value s2
  obtain ⟨g21, g22, g23, g24, g25, g26⟩ := g2
  have gb : buf_size = start_buf_size px4 max_urbs := by
    simp only [buf_size, start_buf_size, g23, g24]
  clear_value buf_size
  have gp : p.1 = (start_pins_resp env px4 i).ret ∧
      p.2.trace = start_trace_pins px4 ++
        (if (start_pins_resp env px4 i).ret ≠ 0 then
          [start_pins_call px4 i true, start_pins_call px4 i false]
         else [start_pins_call px4 i true]) ∧
      p.2.streaming_count = px4.streaming_count ∧
      p.2.streaming_urb_num = s2.streaming_urb_num ∧
      p.2.streaming_no_dma = s2.streaming_no_dma := by
    simp only [p, g26]
    rcases hisdb with hS | hT
    · have ec : ∀ e, start_pins_call px4 i e = .tc90522_enable_ts_pins_s i e := by
        intro e; simp [start_pins_call, hS]
      have er : e1.1 = start_pins_resp env px4 i := by
        simp only [e1, hw_resp, start_pins_resp, g21, ec]
      rw [if_pos hS, er]
      by_cases hc : (start_pins_resp env px4 i).ret ≠ 0
      · simp only [if_pos hc]
        exact ⟨trivial, by simp [e1, g21, ec], by simp [e1, g22], by simp [e1], by simp [e1]⟩
      · simp only [if_neg hc]
        exact ⟨trivial, by simp [e1, g21, ec], by simp [e1, g22], by simp [e1], by simp [e1]⟩
    · have hnS : ¬ ((px4.tsdev i).isdb = ISDB_S) := by rw [hT]; exact isdb_t_ne_s
      have ec : ∀ e, start_pins_call px4 i e = .tc90522_enable_ts_pins_t i e := by
        intro e; simp [start_pins_call, hnS]
      have er : e2.1 = start_pins_resp env px4 i := by
        simp only [e2, hw_resp, start_pins_resp, g21, ec]
      rw [if_neg hnS, if_pos hT, er]
      by_cases hc : (start_pins_resp env px4 i).ret ≠ 0
      · simp only [if_pos hc]
        exact ⟨trivial, by simp [e2, g21, ec], by simp [e2, g22], by simp [e2], by simp [e2]⟩
      · simp only [if_neg hc]
        exact ⟨trivial, by simp [e2, g21, ec], by simp [e2, g22], by simp [e2], by simp [e2]⟩
  clear_value p e1 e2
  obtain ⟨gp1, gp2, gp3, gp4, gp5⟩ := gp
  have ga : a.1 = env p.2.trace (.ringbuffer_alloc i buf_size) ∧
      a.2.trace = p.2.trace ++ [.ringbuffer_alloc i buf_size] ∧
      a.2.streaming_count = p.2.streaming_count ∧
      a.2.streaming_urb_num = p.2.streaming_urb_num ∧
      a.2.streaming_no_dma = p.2.streaming_no_dma := ⟨rfl, rfl, rfl, rfl, rfl⟩
  clear_value a
  obtain ⟨ga1, ga2, ga3, ga4, ga5⟩ := ga
  have g3 : s3.trace = a.2.trace ∧ s3.streaming_count = a.2.streaming_count ∧
      s3.streaming_urb_num = a.2.streaming_urb_num ∧
      s3.streaming_no_dma = a.2.streaming_no_dma := ⟨rfl, rfl, rfl, rfl⟩
  clear_value s3
  obtain ⟨g31, g32, g33, g34⟩ := g3
  have gbb : b.1 = env s3.trace .it930x_bus_start_streaming ∧
      b.2.trace = s3.trace ++ [.it930x_bus_start_streaming] ∧
      b.2.streaming_urb_num = s3.streaming_urb_num ∧
      b.2.streaming_no_dma = s3.streaming_no_dma := ⟨rfl, rfl, rfl, rfl⟩
  clear_value b
  obtain ⟨gb1, gb2, gb3, gb4⟩ := gbb
  have hu : ∀ (x : px4_device) (ap : Bool) (ret : Int),
      (px4_tsdev_start_streaming_fail x i ap ret).1 = ret ∧
      (px4_tsdev_start_streaming_fail x i ap ret).2.trace = x.trace ∧
      (px4_tsdev_start_streaming_fail x i ap ret).2.streaming_urb_num = x.streaming_urb_num ∧
      (px4_tsdev_start_streaming_fail x i ap ret).2.streaming_no_dma = x.streaming_no_dma := by
    intro x ap ret
    cases ap <;> exact ⟨rfl, rfl, rfl, rfl⟩
  rw [g32, ga3, gp3] at hr
  rw [gp1] at hr
  by_cases c1 : (start_pins_resp env px4 i).ret ≠ 0
  · rw [if_pos c1] at hr
    subst hr
    rw [if_pos c1, if_pos c1]
    rw [if_pos c1] at gp2
    exact ⟨(hu _ _ _).1, by rw [(hu _ _ _).2.1, gp2], by rw [(hu _ _ _).2.2.1, gp4, g24],
      by rw [(hu _ _ _).2.2.2, gp5, g25]⟩
  · rw [if_neg c1] at hr gp2
    rw [if_neg c1, if_neg c1]
    have ea : a.1 = start_alloc_resp env max_urbs px4 i := by
      rw [ga1, gp2, gb]; rfl
    rw [ea] at hr
    by_cases c2 : (start_alloc_resp env max_urbs px4 i).ret ≠ 0
    · rw [if_pos c2] at hr
      subst hr
      rw [if_pos c2, if_pos c2]
      exact ⟨(hu _ _ _).1, by rw [(hu _ _ _).2.1, ga2, gp2, gb, List.append_assoc]; rfl,
        by rw [(hu _ _ _).2.2.1, ga4, gp4, g24], by rw [(hu _ _ _).2.2.2, ga5, gp5, g25]⟩
    · rw [if_neg c2] at hr
      rw [if_neg c2, if_neg c2]
      by_cases c3 : px4.streaming_count = 0
      · rw [if_pos c3] at hr
        rw [if_pos c3, if_pos c3]
        have eb : b.1 = start_pump_resp env max_urbs px4 i := by
          rw [gb1, g31, ga2, gp2, gb, List.append_assoc]; rfl
        rw [eb] at hr
        have etr : b.2.trace = start_trace_pins px4 ++
            [start_pins_call px4 i true, .ringbuffer_alloc i (start_buf_size px4 max_urbs),
             .it930x_bus_start_streaming] := by
          rw [gb2, g31, ga2, gp2, gb, List.append_assoc, List.append_assoc]; rfl
        by_cases c4 : (start_pump_resp env max_urbs px4 i).ret ≠ 0
        · rw [if_pos c4] at hr
          subst hr
          exact ⟨(hu _ _ _).1, by rw [(hu _ _ _).2.1, etr],
            by rw [(hu _ _ _).2.2.1, gb3, g33, ga4, gp4, g24, if_pos c3],
            by rw [(hu _ _ _).2.2.2, gb4, g34, ga5, gp5, g25, if_pos c3]⟩
        · rw [if_neg c4] at hr
          subst hr
          exact ⟨rfl, by simp only [set_streaming_count_trace]; exact etr,
            by simp only [set_streaming_count_urb_num]; rw [gb3, g33, ga4, gp4, g24, if_pos c3],
            by simp only [set_streaming_count_no_dma]; rw [gb4, g34, ga5, gp5, g25, if_pos c3]⟩
      · rw [if_neg c3] at hr
        rw [if_neg c3, if_neg c3]
        subst hr
        refine ⟨?_, ?_, ?_, ?_⟩
        · show (start_alloc_resp env max_urbs px4 i).ret = 0
          simpa using c2
        · simp only [set_streaming_count_trace]
          rw [g31, ga2, gp2, gb, List.append_assoc]; rfl
        · simp only [set_streaming_count_urb_num]; rw [g33, ga4, gp4, g24, if_neg c3]
        · simp only [set_streaming_count_no_dma]; rw [g34, ga5, gp5, g25, if_neg c3]

/-- C6 (as the code has it). A call of `px4_tsdev_start_streaming` on an endpoint that is
not streaming, holds no allocated ring buffer and is satellite or terrestrial runs up
to three steps: enabling the TS output pins, `ringbuffer_alloc`, and, when no endpoint
is streaming, `it930x_bus_start_streaming`. Whichever step fails first, the call
returns the error of that step and runs no later step (after a failed pin enable it
disables the pins); it returns 0 exactly when no step fails. When it returns an error,
the endpoint's `streaming` flag is clear, the endpoint holds no allocated ring buffer,
`streaming_count` is as before, and so are every other endpoint, the other fields of
this endpoint, the reference count, `avail`, the slot in `devs` and the transfer
size. The pump settings are not restored: when no endpoint was streaming,
`streaming_urb_num` and `streaming_no_dma` hold the module parameters. -/
theorem px4_tsdev_start_streaming_failure (env : HwEnv) (max_urbs : Nat) (no_dma : Bool)
    (px4 : px4_device) (i : Fin 4)
    (h0 : (px4.tsdev i).streaming = 0)
    (hfree : (px4.tsdev i).rgbuf.allocated = false)
    (hisdb : (px4.tsdev i).isdb = ISDB_S ∨ (px4.tsdev i).isdb = ISDB_T) :
    ((start_pins_resp env px4 i).ret ≠ 0 →
      (px4_tsdev_start_streaming env max_urbs no_dma px4 i).1 = (start_pins_resp env px4 i).ret ∧
      (px4_tsdev_start_streaming env max_urbs no_dma px4 i).2.trace = start_trace_pins px4 ++
        [start_pins_call px4 i true, start_pins_call px4 i false]) ∧
    ((start_pins_resp env px4 i).ret = 0 → (start_alloc_resp env max_urbs px4 i).ret ≠ 0 →
      (px4_tsdev_start_streaming env max_urbs no_dma px4 i).1 =
        (start_alloc_resp env max_urbs px4 i).ret ∧
      (px4_tsdev_start_streaming env max_urbs no_dma px4 i).2.trace = start_trace_pins px4 ++
        [start_pins_call px4 i true, .ringbuffer_alloc i (start_buf_size px4 max_urbs)]) ∧
    ((start_pins_resp env px4 i).ret = 0 → (start_alloc_resp env max_urbs px4 i).ret = 0 →
      px4.streaming_count = 0 → (start_pump_resp env max_urbs px4 i).ret ≠ 0 →
      (px4_tsdev_start_streaming env max_urbs no_dma px4 i).1 =
        (start_pump_resp env max_urbs px4 i).ret ∧
      (px4_tsdev_start_streaming env max_urbs no_dma px4 i).2.trace = start_trace_pins px4 ++
        [start_pins_call px4 i true, .ringbuffer_alloc i (start_buf_size px4 max_urbs),
         .it930x_bus_start_streaming]) ∧
    ((px4_tsdev_start_streaming env max_urbs no_dma px4 i).1 = 0 ↔
      (start_pins_resp env px4 i).ret = 0 ∧ (start_alloc_resp env max_urbs px4 i).ret = 0 ∧
      (px4.streaming_count = 0 → (start_pump_resp env max_urbs px4 i).ret = 0)) ∧
    ((px4_tsdev_start_streaming env max_urbs no_dma px4 i).1 ≠ 0 →
      ((px4_tsdev_start_streaming env max_urbs no_dma px4 i).2.tsdev i).streaming = 0 ∧
      ((px4_tsdev_start_streaming env max_urbs no_dma px4 i).2.tsdev i).rgbuf.allocated
        = false ∧
      (px4_tsdev_start_streaming env max_urbs no_dma px4 i).2.streaming_count
        = px4.streaming_count ∧
      (∀ j, j ≠ i →
        (px4_tsdev_start_streaming env max_urbs no_dma px4 i).2.tsdev j = px4.tsdev j) ∧
      ((px4_tsdev_start_streaming env max_urbs no_dma px4 i).2.tsdev i).id
        = (px4.tsdev i).id ∧
      ((px4_tsdev_start_streaming env max_urbs no_dma px4 i).2.tsdev i).isdb
        = (px4.tsdev i).isdb ∧
      ((px4_tsdev_start_streaming env max_urbs no_dma px4 i).2.tsdev i).init
        = (px4.tsdev i).init ∧
      ((px4_tsdev_start_streaming env max_urbs no_dma px4 i).2.tsdev i).opened
        = (px4.tsdev i).opened ∧
      ((px4_tsdev_start_streaming env max_urbs no_dma px4 i).2.tsdev i).lnb_power
        = (px4.tsdev i).lnb_power ∧
      (px4_tsdev_start_streaming env max_urbs no_dma px4 i).2.ref = px4.ref ∧
      (px4_tsdev_start_streaming env max_urbs no_dma px4 i).2.avail = px4.avail ∧
      (px4_tsdev_start_streaming env max_urbs no_dma px4 i).2.registered = px4.registered ∧
      (px4_tsdev_start_streaming env max_urbs no_dma px4 i).2.streaming_xfer_size
        = px4.streaming_xfer_size ∧
      (px4_tsdev_start_streaming env max_urbs no_dma px4 i).2.streaming_urb_num
        = (if px4.streaming_count = 0 then max_urbs else px4.streaming_urb_num) ∧
      (px4_tsdev_start_streaming env max_urbs no_dma px4 i).2.streaming_no_dma
        = (if px4.streaming_count = 0 then no_dma else px4.streaming_no_dma)) := by
  obtain ⟨s1, s2, s3, s4⟩ :=
    start_streaming_steps env max_urbs no_dma px4 i h0 hisdb _ rfl
  obtain ⟨ho, href, havail, hreg, hxfer, hc⟩ :=
    start_streaming_outcome env max_urbs no_dma px4 i h0 _ rfl
  refine ⟨?_, ?_, ?_, ?_, ?_⟩
  · intro c1
    rw [s1, s2]
    simp only [if_pos c1, and_self]
  · intro c1 c2
    have n1 : ¬ ((start_pins_resp env px4 i).ret ≠ 0) := by simp [c1]
    rw [s1, s2]
    simp only [if_neg n1, if_pos c2, and_self]
  · intro c1 c2 c3 c4
    have n1 : ¬ ((start_pins_resp env px4 i).ret ≠ 0) := by simp [c1]
    have n2 : ¬ ((start_alloc_resp env max_urbs px4 i).ret ≠ 0) := by simp [c2]
    rw [s1, s2]
    simp only [if_neg n1, if_neg n2, if_pos c3, and_self]
  · rw [s1]
    by_cases c1 : (start_pins_resp env px4 i).ret ≠ 0
    · rw [if_pos c1]
      exact ⟨fun h => absurd h c1, fun h => absurd h.1 c1⟩
    · rw [if_neg c1]
      have c1' : (start_pins_resp env px4 i).ret = 0 := by simpa using c1
      by_cases c2 : (start_alloc_resp env max_urbs px4 i).ret ≠ 0
      · rw [if_pos c2]
        exact ⟨fun h => absurd h c2, fun h => absurd h.2.1 c2⟩
      · rw [if_neg c2]
        have c2' : (start_alloc_resp env max_urbs px4 i).ret = 0 := by simpa using c2
        by_cases c3 : px4.streaming_count = 0
        · rw [if_pos c3]
          exact ⟨fun h => ⟨c1', c2', fun _ => h⟩, fun h => h.2.2 c3⟩
        · rw [if_neg c3]
          exact ⟨fun _ => ⟨c1', c2', fun h => absurd h c3⟩, fun _ => rfl⟩
  · intro hfail
    rcases hc with ⟨-, hs, hcnt, hrb, hid, hisd, hinit, hopen, hlnb⟩ | ⟨hz, -⟩
    · refine ⟨hs, ?_, hcnt, ho, hid, hisd, hinit, hopen, hlnb, href, havail, hreg, hxfer,
        s3, s4⟩
      rcases hrb with e | e
      · rw [e]; exact hfree
      · rw [e]; rfl
    · exact absurd hz hfail

theorem env_alloc_fails_steps :
    (start_pins_resp env_alloc_fails (px4_probe_ok 816) 2).ret = 0 ∧
    (start_alloc_resp env_alloc_fails 6 (px4_probe_ok 816) 2).ret ≠ 0 :=
  ⟨rfl, by decide⟩

/-- Witness for `px4_tsdev_start_streaming_failure`: `ringbuffer_alloc` fails on the
first start of a freshly probed device; the call returns its error, `-ENOMEM`. -/
theorem px4_tsdev_start_streaming_failure_witness :
    (((px4_probe_ok 816).tsdev 2).streaming = 0 ∧
      ((px4_probe_ok 816).tsdev 2).rgbuf.allocated = false ∧
      (((px4_probe_ok 816).tsdev 2).isdb = ISDB_S ∨
        ((px4_probe_ok 816).tsdev 2).isdb = ISDB_T) ∧
      (start_pins_resp env_alloc_fails (px4_probe_ok 816) 2).ret = 0 ∧
      (start_alloc_resp env_alloc_fails 6 (px4_probe_ok 816) 2).ret ≠ 0) ∧
    (px4_tsdev_start_streaming env_alloc_fails 6 false (px4_probe_ok 816) 2).1 =
      (start_alloc_resp env_alloc_fails 6 (px4_probe_ok 816) 2).ret :=
  ⟨⟨by decide, by decide, by decide, env_alloc_fails_steps.1, env_alloc_fails_steps.2⟩,
   ((px4_tsdev_start_streaming_failure env_alloc_fails 6 false (px4_probe_ok 816) 2
      (by decide) (by decide) (by decide)).2.1 env_alloc_fails_steps.1
      env_alloc_fails_steps.2).1⟩

/-- C6, counterexample. On a freshly probed device whose pump fails to start, the first
start on the terrestrial endpoint 2 returns the error with the flag clear, no ring
buffer and `streaming_count` 0, but the device is not as before the call: the number
of URBs went from 0 to 6, the bridge buffer was purged, and the TS output pins of the
endpoint, enabled by the call, were not disabled again. -/
theorem px4_tsdev_start_streaming_failure_leaves_traces :
    ((px4_probe_ok 816).tsdev 2).streaming = 0 ∧
    (px4_tsdev_start_streaming env_pump_fails 6 false (px4_probe_ok 816) 2).1 = - EIO ∧
    ((px4_tsdev_start_streaming env_pump_fails 6 false (px4_probe_ok 816) 2).2.tsdev 2).streaming
      = 0 ∧
    ((px4_tsdev_start_streaming env_pump_fails 6 false
      (px4_probe_ok 816) 2).2.tsdev 2).rgbuf.allocated = false ∧
    (px4_tsdev_start_streaming env_pump_fails 6 false (px4_probe_ok 816) 2).2.streaming_count
      = (px4_probe_ok 816).streaming_count ∧
    (px4_probe_ok 816).streaming_urb_num = 0 ∧
    (px4_tsdev_start_streaming env_pump_fails 6 false (px4_probe_ok 816) 2).2.streaming_urb_num
      = 6 ∧
    calls_since (px4_probe_ok 816)
        (px4_tsdev_start_streaming env_pump_fails 6 false (px4_probe_ok 816) 2).2 =
      [.it930x_purge_psb, .tc90522_enable_ts_pins_t 2 true, .ringbuffer_alloc 2 153414,
       .it930x_bus_start_streaming] := by
  decide
/-! ## LNB supply: proofs -/

theorem last_gpio11_append (tr l : List HwCall) (h : ∀ c ∈ l, is_gpio11 c = false) :
    last_gpio11 (tr ++ l) = last_gpio11 tr := by
  unfold last_gpio11
  rw [List.foldl_append]
  generalize List.foldl gpio11_step none tr = acc
  induction l with
  | nil => rfl
  | cons c l ih =>
    rw [List.foldl_cons]
    have hc := h c (List.mem_cons_self _ _)
    have : gpio11_step acc c = acc := by
      cases c <;> simp_all [gpio11_step, is_gpio11]
    rw [this]
    exact ih (fun x hx => h x (List.mem_cons_of_mem _ hx))

theorem last_gpio11_write (tr : List HwCall) (h : Bool) :
    last_gpio11 (tr ++ [.it930x_set_gpio 11 h]) = some h := by
  unfold last_gpio11
  rw [List.foldl_append]
  simp [gpio11_step]

theorem lnb_frame_refl (s : px4_device) : lnb_frame s s :=
  ⟨rfl, rfl, rfl, fun _ => ⟨rfl, rfl⟩, [], by simp, by simp⟩

theorem lnb_frame_trans (a b c : px4_device) (h1 : lnb_frame a b) (h2 : lnb_frame b c) :
    lnb_frame a c := by
  obtain ⟨a1, a2, a3, a4, l1, a5, a6⟩ := h1
  obtain ⟨b1, b2, b3, b4, l2, b5, b6⟩ := h2
  refine ⟨by rw [b1, a1], by rw [b2, a2], by rw [b3, a3],
    fun j => ⟨by rw [(b4 j).1, (a4 j).1], by rw [(b4 j).2, (a4 j).2]⟩, l1 ++ l2,
    by rw [b5, a5, List.append_assoc], ?_⟩
  intro c hc
  rcases List.mem_append.mp hc with h | h
  · exact a6 c h
  · exact b6 c h

theorem lnb_frame_hw (env : HwEnv) (c : HwCall) (s t : px4_device) (hc : is_gpio11 c = false)
    (h : lnb_frame s t) : lnb_frame s (hw env c t).2 :=
  lnb_frame_trans s t _ h
    ⟨rfl, rfl, rfl, fun _ => ⟨rfl, rfl⟩, [c], rfl, by simpa using hc⟩

theorem lnb_frame_modify (s t : px4_device) (i : Fin 4) (f : px4_tsdev → px4_tsdev)
    (hf : ∀ x, (f x).lnb_power = x.lnb_power ∧ (f x).isdb = x.isdb)
    (h : lnb_frame s t) : lnb_frame s (t.modify_tsdev i f) := by
  refine lnb_frame_trans s t _ h ⟨rfl, rfl, rfl, fun j => ?_, [], by simp, by simp⟩
  by_cases hj : j = i
  · subst hj; rw [modify_tsdev_same]; exact hf _
  · rw [modify_tsdev_other _ _ _ _ hj]; exact ⟨rfl, rfl⟩

theorem lnb_frame_set_streaming_count (s t : px4_device) (n : Nat) (h : lnb_frame s t) :
    lnb_frame s (t.set_streaming_count n) :=
  lnb_frame_trans s t _ h ⟨rfl, rfl, rfl, fun _ => ⟨rfl, rfl⟩, [], by simp, by simp⟩

theorem lnb_frame_ite (s : px4_device) (c : Prop) [Decidable c] (a b : Int × px4_device)
    (ha : lnb_frame s a.2) (hb : lnb_frame s b.2) : lnb_frame s (if c then a else b).2 := by
  split_ifs <;> assumption

theorem lnb_frame_ite_dev (s : px4_device) (c : Prop) [Decidable c] (a b : px4_device)
    (ha : lnb_frame s a) (hb : lnb_frame s b) : lnb_frame s (if c then a else b) := by
  split_ifs <;> assumption

theorem stop_streaming_lnb_frame (env : HwEnv) (px4 : px4_device) (i : Fin 4) (avail : Bool) :
    ∀ r, px4_tsdev_stop_streaming env px4 i avail = r → lnb_frame px4 r.2 := by
  intro r hr
  unfold px4_tsdev_stop_streaming at hr
  lift_lets at hr
  extract_lets s1 s2 s3 s4 e1 e2 at hr
  have k1 : lnb_frame px4 s1 := lnb_frame_modify _ _ _ _ (fun _ => ⟨rfl, rfl⟩) (lnb_frame_refl _)
  clear_value s1
  have k2 : lnb_frame px4 s2 := lnb_frame_set_streaming_count _ _ _ k1
  clear_value s2
  have k3 : lnb_frame px4 s3 :=
    lnb_frame_ite_dev _ _ _ _ (lnb_frame_hw env _ _ _ rfl k2) k2
  clear_value s3
  have k4 : lnb_frame px4 s4 := lnb_frame_modify _ _ _ _ (fun _ => ⟨rfl, rfl⟩) k3
  clear_value s4
  have k5 : lnb_frame px4 e1.2 := lnb_frame_hw env _ _ _ rfl k4
  have k6 : lnb_frame px4 e2.2 := lnb_frame_hw env _ _ _ rfl k4
  clear_value e1 e2
  have k0 := lnb_frame_refl px4
  rw [← hr]
  repeat' first | apply lnb_frame_ite | assumption

theorem set_power_off_lnb_frame (env : HwEnv) (px4 : px4_device) :
    lnb_frame px4 (px4_set_power env px4 false).2 := by
  unfold px4_set_power
  simp only [Bool.false_eq_true, if_false]
  exact lnb_frame_hw env _ _ _ rfl (lnb_frame_hw env _ _ _ rfl (lnb_frame_refl _))

theorem lnb_frame_unref (s : px4_device) : let t := (px4_unref s).2
    t.avail = s.avail ∧ t.tsdev = s.tsdev ∧ t.trace = s.trace ∧ t.registered = s.registered :=
  ⟨rfl, rfl, rfl, rfl⟩

/-- What `px4_set_lnb_power` does: it writes the level `turn_on` to GPIO 11 when the
flags of the endpoints, taken together, agree with `turn_on`, and does nothing
otherwise. -/
theorem set_lnb_power_spec (env : HwEnv) (s : px4_device) (turn_on : Bool) :
    (px4_set_lnb_power env s turn_on).2.tsdev = s.tsdev ∧
    (px4_set_lnb_power env s turn_on).2.avail = s.avail ∧
    (px4_set_lnb_power env s turn_on).2.trace =
      (if lnb_requested s = turn_on then s.trace ++ [.it930x_set_gpio 11 turn_on]
       else s.trace) := by
  unfold px4_set_lnb_power lnb_requested
  generalize ((s.tsdev 0).lnb_power || (s.tsdev 1).lnb_power ||
    (s.tsdev 2).lnb_power || (s.tsdev 3).lnb_power) = b
  cases b <;> cases turn_on <;> simp

theorem lnb_requested_eq (a b : px4_device)
    (h : ∀ j, (a.tsdev j).lnb_power = (b.tsdev j).lnb_power) :
    lnb_requested a = lnb_requested b := by
  unfold lnb_requested
  rw [h 0, h 1, h 2, h 3]

theorem lnb_requested_iff (s : px4_device) :
    lnb_requested s = true ↔ ∃ j, (s.tsdev j).lnb_power = true := by
  unfold lnb_requested
  constructor
  · intro h
    simp only [Bool.or_eq_true] at h
    rcases h with ((h | h) | h) | h
    exacts [⟨0, h⟩, ⟨1, h⟩, ⟨2, h⟩, ⟨3, h⟩]
  · rintro ⟨j, hj⟩
    fin_cases j <;> simp_all

/-- Clearing the flag of one endpoint, then `px4_set_lnb_power(px4, false)`, keeps the
invariant between the flags and GPIO 11. -/
theorem lnb_clear_then_set (env : HwEnv) (s : px4_device) (i : Fin 4)
    (h : last_gpio11 s.trace = some (lnb_requested s)) :
    let s' := s.modify_tsdev i (fun t => { t with lnb_power := false })
    last_gpio11 (px4_set_lnb_power env s' false).2.trace =
      some (lnb_requested (px4_set_lnb_power env s' false).2) := by
  intro s'
  obtain ⟨h1, _, h3⟩ := set_lnb_power_spec env s' false
  have hreq : lnb_requested (px4_set_lnb_power env s' false).2 = lnb_requested s' :=
    lnb_requested_eq _ _ (fun j => by rw [h1])
  rw [hreq, h3]
  by_cases hb : lnb_requested s' = false
  · rw [if_pos hb, last_gpio11_write, hb]
  · rw [if_neg hb]
    have hb' : lnb_requested s' = true := by simpa using hb
    have hs : lnb_requested s = true := by
      rw [lnb_requested_iff] at hb' ⊢
      obtain ⟨j, hj⟩ := hb'
      by_cases hji : j = i
      · subst hji; simp [s'] at hj
      · exact ⟨j, by simpa [s', modify_tsdev_other _ _ _ _ hji] using hj⟩
    show last_gpio11 s.trace = _
    rw [h, hs, hb']

/-- Setting the flag of one endpoint, then `px4_set_lnb_power(px4, true)`, keeps the
invariant between the flags and GPIO 11. -/
theorem lnb_set_then_set (env : HwEnv) (s : px4_device) (i : Fin 4) :
    let s' := s.modify_tsdev i (fun t => { t with lnb_power := true })
    last_gpio11 (px4_set_lnb_power env s' true).2.trace =
      some (lnb_requested (px4_set_lnb_power env s' true).2) := by
  intro s'
  obtain ⟨h1, _, h3⟩ := set_lnb_power_spec env s' true
  have hreq : lnb_requested (px4_set_lnb_power env s' true).2 = lnb_requested s' :=
    lnb_requested_eq _ _ (fun j => by rw [h1])
  have hb : lnb_requested s' = true := by
    rw [lnb_requested_iff]
    exact ⟨i, by simp [s']⟩
  rw [hreq, h3, if_pos hb, last_gpio11_write, hb]

theorem lnb_inv_of_frame (s t : px4_device) (h : lnb_frame s t) (hs : lnb_inv s) :
    lnb_inv t := by
  obtain ⟨_, a2, _, a4, l, a5, a6⟩ := h
  refine ⟨by rw [a2]; exact hs.1, ?_⟩
  rw [a5, last_gpio11_append _ _ a6, hs.2, lnb_requested_eq t s (fun j => (a4 j).1)]

theorem lnb_inv_enable (env : HwEnv) (tbl : Int → Int × List Nat) (max_urbs : Nat)
    (no_dma : Bool) (px4 : px4_device) (i : Fin 4) (arg : Nat) (h : lnb_inv px4) :
    lnb_inv (px4_tsdev_unlocked_ioctl env tbl max_urbs no_dma px4 i
      (.PTX_ENABLE_LNB_POWER arg)).2 := by
  unfold px4_tsdev_unlocked_ioctl
  rw [if_neg h.1]
  simp only [modify_tsdev_same]
  split_ifs
  · exact h
  · exact ⟨by rw [(set_lnb_power_spec env _ false).2.1]; exact h.1,
      lnb_clear_then_set env px4 i h.2⟩
  · exact ⟨by rw [(set_lnb_power_spec env _ true).2.1]; exact h.1,
      lnb_set_then_set env px4 i⟩
  · exact h

theorem lnb_inv_disable (env : HwEnv) (tbl : Int → Int × List Nat) (max_urbs : Nat)
    (no_dma : Bool) (px4 : px4_device) (i : Fin 4) (h : lnb_inv px4) :
    lnb_inv (px4_tsdev_unlocked_ioctl env tbl max_urbs no_dma px4 i
      .PTX_DISABLE_LNB_POWER).2 := by
  unfold px4_tsdev_unlocked_ioctl
  rw [if_neg h.1]
  simp only []
  split_ifs
  · exact h
  · exact h
  · exact ⟨by rw [(set_lnb_power_spec env _ false).2.1]; exact h.1,
      lnb_clear_then_set env px4 i h.2⟩

theorem lnb_inv_release (env : HwEnv) (px4 : px4_device) (i : Fin 4) (h : lnb_inv px4) :
    lnb_inv (px4_tsdev_release env px4 i).2 := by
  have hr : ∀ r, px4_tsdev_release env px4 i = r → lnb_inv r.2 := by
    intro r hr
    unfold px4_tsdev_release at hr
    lift_lets at hr
    extract_lets avail s1 s2 s3 s4 u s5 at hr
    have ha : avail ≠ 0 := h.1
    have k1 : lnb_frame px4 s1 := stop_streaming_lnb_frame env px4 i _ _ rfl
    clear_value s1
    have k2 : lnb_inv s2 :=
      lnb_inv_of_frame _ _ (lnb_frame_modify _ _ _ _ (fun _ => ⟨rfl, rfl⟩) k1) h
    clear_value s2
    have k4 : lnb_inv s4 := by
      simp only [s4, if_pos ha, s3]
      exact ⟨by rw [(set_lnb_power_spec env _ false).2.1]; exact k2.1,
        lnb_clear_then_set env s2 i k2.2⟩
    clear_value s4 s3
    have ku : lnb_inv u.2 := ⟨k4.1, k4.2⟩
    clear_value u
    have k5 : lnb_inv s5 := by
      simp only [s5]
      split_ifs
      · exact lnb_inv_of_frame _ _ (set_power_off_lnb_frame env u.2) ku
      · exact ku
    clear_value s5
    rw [← hr]
    exact k5
  exact hr _ rfl

theorem lnb_inv_run (env : HwEnv) (tbl : Int → Int × List Nat) (max_urbs : Nat)
    (no_dma : Bool) (ops : List LnbOp) :
    ∀ px4, lnb_inv px4 → lnb_inv (run_lnb_ops env tbl max_urbs no_dma px4 ops) := by
  induction ops with
  | nil => intro px4 h; exact h
  | cons op ops ih =>
    intro px4 h
    unfold run_lnb_ops
    rw [List.foldl_cons]
    apply ih
    cases op with
    | enable i arg => exact lnb_inv_enable env tbl max_urbs no_dma px4 i arg h
    | disable i => exact lnb_inv_disable env tbl max_urbs no_dma px4 i h
    | release i => exact lnb_inv_release env px4 i h

/-- C16. From the state `px4_probe` leaves (GPIO 11 written low, every `lnb_power` flag
clear, the device available), after every sequence of `PTX_ENABLE_LNB_POWER` and
`PTX_DISABLE_LNB_POWER` requests and of `px4_tsdev_release` calls, on any endpoints, with
any arguments and whatever the hardware answers: the device is still available, GPIO
11 has been written, and the level written last is high if and only if some endpoint
has its `lnb_power` flag set. -/
theorem lnb_power_invariant (env : HwEnv) (r850_channel_get_regs : Int → Int × List Nat)
    (max_urbs : Nat) (no_dma : Bool) (xfer_packets : Nat) (ops : List LnbOp) :
    (run_lnb_ops env r850_channel_get_regs max_urbs no_dma
      (px4_probe_ok xfer_packets) ops).avail ≠ 0 ∧
    (∃ level, last_gpio11 (run_lnb_ops env r850_channel_get_regs max_urbs no_dma
      (px4_probe_ok xfer_packets) ops).trace = some level) ∧
    (last_gpio11 (run_lnb_ops env r850_channel_get_regs max_urbs no_dma
        (px4_probe_ok xfer_packets) ops).trace = some true ↔
      ∃ j, ((run_lnb_ops env r850_channel_get_regs max_urbs no_dma
        (px4_probe_ok xfer_packets) ops).tsdev j).lnb_power = true) := by
  have h0 : lnb_inv (px4_probe_ok xfer_packets) :=
    ⟨by simp [px4_probe_ok, px4_init, px4_kzalloc], rfl⟩
  have h := lnb_inv_run env r850_channel_get_regs max_urbs no_dma ops _ h0
  refine ⟨h.1, ⟨_, h.2⟩, ?_⟩
  rw [h.2, ← lnb_requested_iff]
  simp
/-! ## concurrent threads: what the parts under the lock leave alone -/

theorem set_power_loop_lnb_frame (env : HwEnv) (l : List (Fin 4)) :
    ∀ (ret : Int) (px4 s : px4_device), lnb_frame s px4 →
      lnb_frame s (px4_set_power_loop env l ret px4).2 := by
  induction l with
  | nil => intro ret px4 s h; exact h
  | cons i rest ih =>
    intro ret px4 s h
    have hr : ∀ r, px4_set_power_loop env (i :: rest) ret px4 = r → lnb_frame s r.2 := by
      intro r hr
      unfold px4_set_power_loop at hr
      lift_lets at hr
      extract_lets s1 q1 q2 r1 s2 at hr
      have k1 : lnb_frame s s1 := lnb_frame_modify _ _ _ _ (fun _ => ⟨rfl, rfl⟩) h
      clear_value s1
      have kq1 : lnb_frame s q1.2 := lnb_frame_hw env _ _ _ rfl k1
      have kq2 : lnb_frame s q2.2 := lnb_frame_hw env _ _ _ rfl k1
      clear_value q1 q2
      have kr : lnb_frame s r1.2 := by
        simp only [r1]
        repeat' first | apply lnb_frame_ite | assumption
      clear_value r1
      have k2 : lnb_frame s s2 := lnb_frame_hw env _ _ _ rfl kr
      clear_value s2
      have k3 : lnb_frame s (hw env (.it930x_set_gpio 2 false) s2).2 :=
        lnb_frame_hw env _ _ _ rfl k2
      have k4 := ih r1.1 r1.2 s kr
      rw [← hr]
      split_ifs
      · exact k3
      · exact k4
    exact hr _ rfl

theorem set_power_lnb_frame (env : HwEnv) (px4 : px4_device) (turn_on : Bool) :
    ∀ s, lnb_frame s px4 → lnb_frame s (px4_set_power env px4 turn_on).2 := by
  intro s h
  have hr : ∀ r, px4_set_power env px4 turn_on = r → lnb_frame s r.2 := by
    intro r hr
    unfold px4_set_power at hr
    lift_lets at hr
    extract_lets r1 r2 s2 r3 s3 s1 at hr
    have k1 : lnb_frame s r1.2 := lnb_frame_hw env _ _ _ rfl h
    clear_value r1
    have k2 : lnb_frame s r2.2 := lnb_frame_hw env _ _ _ rfl k1
    clear_value r2
    have k3 : lnb_frame s s2 := lnb_frame_hw env _ _ _ rfl k2
    clear_value s2
    have k4 : lnb_frame s r3.2 := lnb_frame_hw env _ _ _ rfl k3
    clear_value r3
    have k5 : lnb_frame s s3 := lnb_frame_hw env _ _ _ rfl k4
    clear_value s3
    have k6 : lnb_frame s (px4_set_power_loop env [0, 1, 2, 3] r3.1.ret s3).2 :=
      set_power_loop_lnb_frame env _ _ _ _ k5
    generalize px4_set_power_loop env [0, 1, 2, 3] r3.1.ret s3 = L at hr k6
    have k7 : lnb_frame s s1 := lnb_frame_hw env _ _ _ rfl h
    clear_value s1
    have k8 : lnb_frame s (hw env (.it930x_set_gpio 2 false) s1).2 :=
      lnb_frame_hw env _ _ _ rfl k7
    rw [← hr]
    repeat' first | apply lnb_frame_ite | assumption
  exact hr _ rfl

theorem tsdev_init_lnb_frame (env : HwEnv) (px4 : px4_device) (i : Fin 4) :
    ∀ s, lnb_frame s px4 → lnb_frame s (px4_tsdev_init env px4 i).2 := by
  intro s h
  have hr : ∀ r, px4_tsdev_init env px4 i = r → lnb_frame s r.2 := by
    intro r hr
    unfold px4_tsdev_init at hr
    lift_lets at hr
    extract_lets a1 a2 a3 a4 b1 b2 b3 b4 r0 at hr
    have ka1 : lnb_frame s a1.2 := lnb_frame_hw env _ _ _ rfl h
    clear_value a1
    have ka2 : lnb_frame s a2.2 := lnb_frame_hw env _ _ _ rfl ka1
    clear_value a2
    have ka3 : lnb_frame s a3.2 := lnb_frame_hw env _ _ _ rfl ka2
    clear_value a3
    have ka4 : lnb_frame s a4.2 := lnb_frame_hw env _ _ _ rfl ka3
    clear_value a4
    have kb1 : lnb_frame s b1.2 := lnb_frame_hw env _ _ _ rfl h
    clear_value b1
    have kb2 : lnb_frame s b2.2 := lnb_frame_hw env _ _ _ rfl kb1
    clear_value b2
    have kb3 : lnb_frame s b3.2 := lnb_frame_hw env _ _ _ rfl kb2
    clear_value b3
    have kb4 : lnb_frame s b4.2 := lnb_frame_hw env _ _ _ rfl kb3
    clear_value b4
    have k0 : lnb_frame s r0.2 := by
      simp only [r0]
      repeat' first | apply lnb_frame_ite | assumption
    clear_value r0
    have k1 : lnb_frame s (r0.2.modify_tsdev i (fun t => { t with init := true })) :=
      lnb_frame_modify _ _ _ _ (fun _ => ⟨rfl, rfl⟩) k0
    rw [← hr]
    repeat' first | apply lnb_frame_ite | assumption
  exact hr _ rfl

theorem open_fail_locked_lnb_frame (env : HwEnv) (px4 : px4_device) (i : Fin 4) (ref : Int)
    (ap : Bool) (ret : Int) :
    ∀ s, lnb_frame s px4 → lnb_frame s (px4_tsdev_open_fail_locked env px4 i ref ap ret).2 := by
  intro s h
  unfold px4_tsdev_open_fail_locked
  simp only []
  refine lnb_frame_modify _ _ _ _ (fun _ => ⟨rfl, rfl⟩) ?_
  refine lnb_frame_ite_dev _ _ _ _ ?_ h
  exact set_power_lnb_frame env _ _ _ h

theorem open_locked_lnb_frame (env : HwEnv) (px4 : px4_device) (i : Fin 4) (ref : Int) :
    lnb_frame px4 (px4_tsdev_open_locked env px4 i ref).2 := by
  have hr : ∀ r, px4_tsdev_open_locked env px4 i ref = r → lnb_frame px4 r.2 := by
    intro r hr
    unfold px4_tsdev_open_locked at hr
    lift_lets at hr
    extract_lets s1 p t w1 w2 at hr
    have k0 := open_fail_locked_lnb_frame env px4 i ref false (- EIO) _ (lnb_frame_refl px4)
    have k1 : lnb_frame px4 s1 :=
      lnb_frame_modify _ _ _ _ (fun _ => ⟨rfl, rfl⟩) (lnb_frame_refl _)
    clear_value s1
    have kp : lnb_frame px4 p.2 := by
      simp only [p]
      apply lnb_frame_ite
      · exact set_power_lnb_frame env _ _ _ k1
      · exact k1
    clear_value p
    have kpf := open_fail_locked_lnb_frame env p.2 i ref false p.1 _ kp
    have kt : lnb_frame px4 t.2 := tsdev_init_lnb_frame env _ _ _ kp
    clear_value t
    have ktf := open_fail_locked_lnb_frame env t.2 i ref true t.1 _ kt
    have kw1 : lnb_frame px4 w1.2 := lnb_frame_hw env _ _ _ rfl kt
    clear_value w1
    have kw1f := open_fail_locked_lnb_frame env w1.2 i ref true w1.1.ret _ kw1
    have kw2 : lnb_frame px4 w2.2 := lnb_frame_hw env _ _ _ rfl kw1
    clear_value w2
    have kw2f := open_fail_locked_lnb_frame env w2.2 i ref true w2.1.ret _ kw2
    rw [← hr]
    repeat' first | apply lnb_frame_ite | assumption
  exact hr _ rfl

theorem release_locked_ref (env : HwEnv) (px4 : px4_device) (i : Fin 4) (avail : Int) :
    (px4_tsdev_release_locked env px4 i avail).1 = px4.ref - 1 ∧
    (px4_tsdev_release_locked env px4 i avail).2.ref = px4.ref - 1 ∧
    (px4_tsdev_release_locked env px4 i avail).2.registered = px4.registered := by
  have hr : ∀ r, px4_tsdev_release_locked env px4 i avail = r →
      r.1 = px4.ref - 1 ∧ r.2.ref = px4.ref - 1 ∧ r.2.registered = px4.registered := by
    intro r hr
    unfold px4_tsdev_release_locked at hr
    lift_lets at hr
    extract_lets s1 s2 s3 s4 at hr
    have k1 : s1.ref = px4.ref ∧ s1.registered = px4.registered := by
      have := stop_streaming_lnb_frame env px4 i (decide (avail ≠ 0)) _ rfl
      exact ⟨this.1, this.2.2.1⟩
    clear_value s1
    have k2 : s2.ref = px4.ref ∧ s2.registered = px4.registered := k1
    clear_value s2
    have k3 : s3.ref = px4.ref ∧ s3.registered = px4.registered := k2
    clear_value s3
    have k4 : s4.ref = px4.ref ∧ s4.registered = px4.registered := by
      simp only [s4]
      split_ifs
      · unfold px4_set_lnb_power
        simp only []
        split_ifs
        · exact k3
        · exact k3
      · exact k3
    clear_value s4
    rw [← hr]
    exact ⟨by simp [px4_unref, k4.1], by simp [px4_unref, k4.1], by simp [px4_unref, k4.2]⟩
  exact hr _ rfl

theorem release_power_ref (env : HwEnv) (px4 : px4_device) (avail ref : Int) :
    (px4_tsdev_release_power env px4 avail ref).ref = px4.ref ∧
    (px4_tsdev_release_power env px4 avail ref).registered = px4.registered := by
  unfold px4_tsdev_release_power
  split_ifs
  · have := set_power_lnb_frame env px4 false _ (lnb_frame_refl px4)
    exact ⟨this.1, this.2.2.1⟩
  · exact ⟨rfl, rfl⟩

/-- The sequential `px4_tsdev_release` is the steps of the threaded model in a row. -/
theorem release_eq_steps (env : HwEnv) (px4 : px4_device) (i : Fin 4) :
    px4_tsdev_release env px4 i =
      (0, px4_tsdev_release_power env (px4_tsdev_release_locked env px4 i px4.avail).2
        px4.avail (px4_tsdev_release_locked env px4 i px4.avail).1) := rfl

theorem open_fail_eq (env : HwEnv) (px4 : px4_device) (i : Fin 4) (ref : Int) (ap : Bool)
    (ret : Int) :
    px4_tsdev_open_fail env px4 i ref ap ret =
      ((px4_tsdev_open_fail_locked env px4 i ref ap ret).1,
       (px4_unref (px4_tsdev_open_fail_locked env px4 i ref ap ret).2).2) := rfl

theorem open_fail_locked_ret (env : HwEnv) (px4 : px4_device) (i : Fin 4) (ref : Int)
    (ap : Bool) (ret : Int) : (px4_tsdev_open_fail_locked env px4 i ref ap ret).1 = ret := rfl

theorem open_fail_compose (env : HwEnv) (px4 : px4_device) (i : Fin 4) (ref : Int) (ap : Bool)
    (ret : Int) (h : ret ≠ 0) :
    px4_tsdev_open_fail env px4 i ref ap ret =
      (if (px4_tsdev_open_fail_locked env px4 i ref ap ret).1 = 0 then
         px4_tsdev_open_fail_locked env px4 i ref ap ret
       else ((px4_tsdev_open_fail_locked env px4 i ref ap ret).1,
         (px4_unref (px4_tsdev_open_fail_locked env px4 i ref ap ret).2).2)) := by
  rw [if_neg (by rw [open_fail_locked_ret]; exact h)]
  rfl

/-- The sequential `px4_tsdev_open` is the steps of the threaded model in a row: the two
tests, `px4_ref`, the part under `px4->lock`, and `px4_unref` when that part failed. -/
theorem open_eq_steps (env : HwEnv) (px4 : px4_device) (i : Fin 4) :
    px4_tsdev_open env px4 i =
      (if px4.registered = false then (- EFAULT, px4)
       else if px4.avail = 0 then (- EIO, px4)
       else if (px4_tsdev_open_locked env (px4_ref px4).2 i (px4_ref px4).1).1 = 0 then
         px4_tsdev_open_locked env (px4_ref px4).2 i (px4_ref px4).1
       else ((px4_tsdev_open_locked env (px4_ref px4).2 i (px4_ref px4).1).1,
         (px4_unref (px4_tsdev_open_locked env (px4_ref px4).2 i (px4_ref px4).1).2).2)) := by
  by_cases hreg : px4.registered = false
  · rw [if_pos hreg, px4_tsdev_open, if_pos hreg]
  by_cases hav : px4.avail = 0
  · rw [if_neg hreg, if_pos hav, px4_tsdev_open, if_neg hreg, if_pos hav]
  rw [if_neg hreg, if_neg hav]
  have key : ∀ a, px4_tsdev_open env px4 i = a →
      ∀ b, px4_tsdev_open_locked env (px4_ref px4).2 i (px4_ref px4).1 = b →
      a = if b.1 = 0 then b else (b.1, (px4_unref b.2).2) := by
    intro a ha b hb
    unfold px4_tsdev_open at ha
    rw [if_neg hreg, if_neg hav] at ha
    unfold px4_tsdev_open_locked at hb
    lift_lets at ha hb
    extract_lets r ref s0 s1 p t w1 w2 at ha
    extract_lets s1' p' t' w1' w2' at hb
    have e0 : (px4_ref px4).2 = s0 := rfl
    have e0' : (px4_ref px4).1 = ref := rfl
    rw [e0, e0'] at hb
    have e1 : s1 = s1' := rfl
    have e2 : p = p' := rfl
    have e3 : t = t' := rfl
    have e4 : w1 = w1' := rfl
    have e5 : w2 = w2' := rfl
    clear_value s1' p' t' w1' w2' w2 w1 t p s1 s0 ref r
    subst e1 e2 e3 e4 e5
    have e : (- EIO : Int) ≠ 0 := by decide
    rw [← ha, ← hb]
    by_cases c0 : (s0.tsdev i).opened = true
    · rw [if_pos c0, if_pos c0]; exact open_fail_compose env _ _ _ _ _ e
    rw [if_neg c0, if_neg c0]
    by_cases c1 : p.1 ≠ 0
    · rw [if_pos c1, if_pos c1]; exact open_fail_compose env _ _ _ _ _ c1
    rw [if_neg c1, if_neg c1]
    by_cases c2 : t.1 ≠ 0
    · rw [if_pos c2, if_pos c2]; exact open_fail_compose env _ _ _ _ _ c2
    rw [if_neg c2, if_neg c2]
    by_cases c3 : ref = 2
    · rw [if_pos c3, if_pos c3]
      by_cases c4 : w1.1.ret ≠ 0
      · rw [if_pos c4, if_pos c4]; exact open_fail_compose env _ _ _ _ _ c4
      rw [if_neg c4, if_neg c4]
      by_cases c5 : w2.1.ret ≠ 0
      · rw [if_pos c5, if_pos c5]; exact open_fail_compose env _ _ _ _ _ c5
      rw [if_neg c5, if_neg c5, if_pos rfl]
    · rw [if_neg c3, if_neg c3, if_pos rfl]
  exact key _ rfl _ rfl
/-! ## concurrent threads: the invariant -/

theorem sum_files_append (g : file_pc → Nat) (l : List (Fin 4 × file_pc)) (x : Fin 4 × file_pc) :
    sum_files g (l ++ [x]) = sum_files g l + g x.2 := by
  simp [sum_files]

theorem sum_files_set (g : file_pc → Nat) (l : List (Fin 4 × file_pc)) :
    ∀ (k : Nat) (f x : Fin 4 × file_pc), l.get? k = some f →
      sum_files g (l.set k x) + g f.2 = sum_files g l + g x.2 := by
  induction l with
  | nil => intro k f x h; simp at h
  | cons a l ih =>
    intro k f x h
    cases k with
    | zero =>
      simp only [List.get?_cons_zero, Option.some.injEq] at h
      subst h
      simp [sum_files]
      omega
    | succ k =>
      simp only [List.get?_cons_succ] at h
      have := ih k f x h
      simp only [sum_files, List.set_cons_succ, List.map_cons, List.sum_cons] at this ⊢
      omega

theorem sum_files_ge (g : file_pc → Nat) (l : List (Fin 4 × file_pc)) (f : Fin 4 × file_pc)
    (h : f ∈ l) : g f.2 ≤ sum_files g l := by
  induction l with
  | nil => simp at h
  | cons a l ih =>
    simp only [sum_files, List.map_cons, List.sum_cons]
    rcases List.mem_cons.mp h with rfl | h
    · omega
    · have := ih h
      simp only [sum_files] at this
      omega

theorem mem_of_get? (l : List (Fin 4 × file_pc)) (k : Nat) (f : Fin 4 × file_pc)
    (h : l.get? k = some f) : f ∈ l := by
  rw [List.get?_eq_some] at h
  obtain ⟨hk, rfl⟩ := h
  exact List.get_mem _ _ _

theorem disc_unpublished_of_drained (d : disc_pc) (h : disc_drained d = true) :
    disc_unpublished d = true := by
  cases d <;> simp_all [disc_drained, disc_unpublished]

theorem file_next_ok (env : HwEnv) (s : px4_system) (id : Fin 4) (pc : file_pc)
    (hG : file_glock pc ≤ (if s.glock then 1 else 0))
    (hP : file_plock pc ≤ (if s.plock then 1 else 0)) :
    ((file_next env s id pc).1.ref + (file_refs pc : Int) =
      s.dev.ref + (file_refs (file_next env s id pc).2.2.2 : Int)) ∧
    ((if (file_next env s id pc).2.1 then 1 else 0) + file_glock pc =
      (if s.glock then 1 else 0) + file_glock (file_next env s id pc).2.2.2) ∧
    ((if (file_next env s id pc).2.2.1 then 1 else 0) + file_plock pc =
      (if s.plock then 1 else 0) + file_plock (file_next env s id pc).2.2.2) ∧
    (file_next env s id pc).1.registered = s.dev.registered ∧
    (file_entering (file_next env s id pc).2.2.2 = true →
      file_entering pc = true ∨ s.dev.registered = true) ∧
    (file_refs (file_next env s id pc).2.2.2 ≤ file_refs pc ∨ file_entering pc = true) := by
  cases pc with
  | o_start =>
    cases hg : s.glock <;> simp [file_next, hg, file_refs, file_glock, file_plock, file_entering]
  | o_glock =>
    have hg : s.glock = true := by
      cases h : s.glock
      · simp [h, file_glock] at hG
      · rfl
    cases hr : s.dev.registered <;>
      simp [file_next, hg, hr, file_refs, file_glock, file_plock, file_entering]
  | o_found =>
    have hg : s.glock = true := by
      cases h : s.glock
      · simp [h, file_glock] at hG
      · rfl
    by_cases ha : s.dev.avail = 0 <;>
      simp [file_next, hg, ha, file_refs, file_glock, file_plock, file_entering]
  | o_checked =>
    simp [file_next, px4_ref, file_refs, file_glock, file_plock, file_entering]
  | o_reffed ref =>
    cases hp : s.plock <;>
      simp [file_next, hp, file_refs, file_glock, file_plock, file_entering]
  | o_plock ref =>
    have hg : s.glock = true := by
      cases h : s.glock
      · simp [h, file_glock] at hG
      · rfl
    simp [file_next, hg, file_refs, file_glock, file_plock, file_entering]
  | o_body ref =>
    have hp : s.plock = true := by
      cases h : s.plock
      · simp [h, file_plock] at hP
      · rfl
    have hf := open_locked_lnb_frame env s.dev id ref
    simp only [file_next]
    refine ⟨?_, ?_, ?_, hf.2.2.1, ?_, ?_⟩
    · rw [hf.1]
      by_cases hb : (px4_tsdev_open_locked env s.dev id ref).1 = 0 <;> simp [hb, file_refs]
    · by_cases hb : (px4_tsdev_open_locked env s.dev id ref).1 = 0 <;> simp [hb, file_glock]
    · by_cases hb : (px4_tsdev_open_locked env s.dev id ref).1 = 0 <;>
        simp [hb, file_plock, hp]
    · intro _; left; rfl
    · right; rfl
  | o_fail ret =>
    simp [file_next, px4_unref, file_refs, file_glock, file_plock, file_entering]
  | o_failed ret =>
    simp [file_next, file_refs, file_glock, file_plock, file_entering]
  | opened =>
    simp [file_next, file_refs, file_glock, file_plock, file_entering]
  | r_avail avail =>
    cases hp : s.plock <;>
      simp [file_next, hp, file_refs, file_glock, file_plock, file_entering]
  | r_plock avail =>
    have hf := release_locked_ref env s.dev id avail
    simp only [file_next]
    refine ⟨?_, ?_, ?_, hf.2.2, ?_, ?_⟩
    · rw [hf.2.1]; simp [file_refs]
    · simp [file_glock]
    · simp [file_plock]
    · intro h; simp [file_entering] at h
    · left; simp [file_refs]
  | r_unreffed avail ref =>
    have hp : s.plock = true := by
      cases h : s.plock
      · simp [h, file_plock] at hP
      · rfl
    have hf := release_power_ref env s.dev avail ref
    simp only [file_next]
    refine ⟨?_, ?_, ?_, hf.2, ?_, ?_⟩
    · rw [hf.1]; simp [file_refs]
    · simp [file_glock]
    · simp [file_plock, hp]
    · intro h; simp [file_entering] at h
    · left; simp [file_refs]
  | r_unlocked =>
    simp [file_next, file_refs, file_glock, file_plock, file_entering]
  | r_woke =>
    simp [file_next, file_refs, file_glock, file_plock, file_entering]
  | closed =>
    simp [file_next, file_refs, file_glock, file_plock, file_entering]

theorem sys_inv_open_call (s : px4_system) (id : Fin 4) (h : sys_inv s) :
    sys_inv { s with files := s.files ++ [(id, .o_start)] } := by
  obtain ⟨h1, h2, h3, h4, h5, h6⟩ := h
  refine ⟨?_, ?_, ?_, h4, ?_, ?_⟩
  · simp only [sum_files_append, file_refs, Nat.add_zero]; exact h1
  · simp only [sum_files_append, file_glock, Nat.add_zero]; exact h2
  · simp only [sum_files_append, file_plock, Nat.add_zero]; exact h3
  · intro hr f hf
    rcases List.mem_append.mp hf with hf | hf
    · exact h5 hr f hf
    · simp only [List.mem_singleton] at hf; subst hf; rfl
  · intro hd f hf
    rcases List.mem_append.mp hf with hf | hf
    · exact h6 hd f hf
    · simp only [List.mem_singleton] at hf; subst hf; rfl

theorem sys_inv_file_step (env : HwEnv) (s : px4_system) (k : Nat) (h : sys_inv s) :
    sys_inv (sys_step env s (.file_step k)) := by
  cases hk : s.files.get? k with
  | none =>
    have e : sys_step env s (.file_step k) = s := by simp only [sys_step, hk]
    rw [e]; exact h
  | some f =>
    obtain ⟨id, pc⟩ := f
    have e : sys_step env s (.file_step k) =
        { s with dev := (file_next env s id pc).1, glock := (file_next env s id pc).2.1,
                 plock := (file_next env s id pc).2.2.1,
                 files := s.files.set k (id, (file_next env s id pc).2.2.2) } := by
      simp only [sys_step, hk]
    rw [e]
    have hmem := mem_of_get? _ _ _ hk
    obtain ⟨h1, h2, h3, h4, h5, h6⟩ := h
    have hG : file_glock pc ≤ (if s.glock then 1 else 0) := by
      have := sum_files_ge file_glock _ _ hmem
      simp only at this
      omega
    have hP : file_plock pc ≤ (if s.plock then 1 else 0) := by
      have := sum_files_ge file_plock _ _ hmem
      simp only at this
      omega
    obtain ⟨n1, n2, n3, n4, n5, n6⟩ := file_next_ok env s id pc hG hP
    have s1 := sum_files_set file_refs s.files k (id, pc) (id, (file_next env s id pc).2.2.2) hk
    have s2 := sum_files_set file_glock s.files k (id, pc) (id, (file_next env s id pc).2.2.2) hk
    have s3 := sum_files_set file_plock s.files k (id, pc) (id, (file_next env s id pc).2.2.2) hk
    simp only at s1 s2 s3
    generalize file_next env s id pc = n at n1 n2 n3 n4 n5 n6 s1 s2 s3 ⊢
    refine ⟨?_, ?_, ?_, ?_, ?_, ?_⟩
    · show n.1.ref =
        ((disc_refs s.disc + sum_files file_refs (s.files.set k (id, n.2.2.2)) : Nat) : Int)
      push_cast
      push_cast at h1
      have : (sum_files file_refs (s.files.set k (id, n.2.2.2)) : Int) + (file_refs pc : Int) =
          (sum_files file_refs s.files : Int) + (file_refs n.2.2.2 : Int) := by
        exact_mod_cast s1
      omega
    · show (if n.2.1 = true then 1 else 0) =
        disc_glock s.disc + sum_files file_glock (s.files.set k (id, n.2.2.2))
      omega
    · show (if n.2.2.1 = true then 1 else 0) =
        disc_plock s.disc + sum_files file_plock (s.files.set k (id, n.2.2.2))
      omega
    · show (n.1.registered = false ↔ _)
      rw [n4]; exact h4
    · show n.1.registered = false → _
      intro hr f hf
      rw [n4] at hr
      rcases List.mem_or_eq_of_mem_set hf with hf | hf
      · exact h5 hr f hf
      · subst hf
        cases he : file_entering n.2.2.2
        · rfl
        · rcases n5 he with h' | h'
          · have := h5 hr _ hmem
            simp only at this
            rw [this] at h'
            exact absurd h' (by decide)
          · rw [hr] at h'
            exact absurd h' (by decide)
    · show disc_drained s.disc = true → _
      intro hd f hf
      rcases List.mem_or_eq_of_mem_set hf with hf | hf
      · exact h6 hd f hf
      · subst hf
        have hold := h6 hd _ hmem
        simp only at hold
        rcases n6 with h' | h'
        · show file_refs n.2.2.2 = 0
          omega
        · have hr := h4.mpr (disc_unpublished_of_drained _ hd)
          have := h5 hr _ hmem
          simp only at this
          rw [this] at h'
          exact absurd h' (by decide)

theorem sum_files_zero (g : file_pc → Nat) (l : List (Fin 4 × file_pc))
    (h : sum_files g l = 0) : ∀ f ∈ l, g f.2 = 0 := by
  intro f hf
  have := sum_files_ge g l f hf
  omega

theorem sys_inv_disc_step (s : px4_system) (h : sys_inv s) : sys_inv (disc_next s) := by
  obtain ⟨h1, h2, h3, h4, h5, h6⟩ := h
  unfold disc_next
  cases hd : s.disc with
  | d_start =>
    rw [hd] at h1 h2 h3 h4 h6
    exact ⟨h1, h2, h3, h4, h5, fun h' => absurd h' (by simp [disc_drained])⟩
  | d_flagged =>
    rw [hd] at h1 h2 h3 h4 h6
    simp only []
    cases hp : s.plock
    · simp only [Bool.false_eq_true, if_false]
      rw [hp] at h3
      refine ⟨h1, h2, ?_, h4, h5, fun h' => absurd h' (by simp [disc_drained])⟩
      simp only [disc_plock, Bool.false_eq_true, if_false, if_true] at h3 ⊢
      omega
    · simp only [if_true]
      exact ⟨by rw [hd]; exact h1, by rw [hd]; exact h2, by rw [hd, hp]; exact hp ▸ h3,
        by rw [hd]; exact h4, h5, by rw [hd]; exact h6⟩
  | d_plock =>
    rw [hd] at h1 h2 h3 h4 h6
    simp only []
    cases hg : s.glock
    · simp only [Bool.false_eq_true, if_false]
      rw [hg] at h2
      refine ⟨h1, ?_, h3, h4, h5, fun h' => absurd h' (by simp [disc_drained])⟩
      simp only [disc_glock, Bool.false_eq_true, if_false, if_true] at h2 ⊢
      omega
    · simp only [if_true]
      exact ⟨by rw [hd]; exact h1, by rw [hd, hg]; exact hg ▸ h2, by rw [hd]; exact h3,
        by rw [hd]; exact h4, h5, by rw [hd]; exact h6⟩
  | d_both =>
    rw [hd] at h1 h2 h3 h4 h6
    simp only []
    have g0 : sum_files file_glock s.files = 0 := by
      simp only [disc_glock] at h2
      split_ifs at h2 <;> omega
    have p0 : sum_files file_plock s.files = 0 := by
      simp only [disc_plock] at h3
      split_ifs at h3 <;> omega
    refine ⟨h1, ?_, h3, by simp [disc_unpublished], ?_,
      fun h' => absurd h' (by simp [disc_drained])⟩
    · simp only [disc_glock, g0, Bool.false_eq_true, if_false]
    · intro _ f hf
      have a := sum_files_zero _ _ g0 f hf
      have b := sum_files_zero _ _ p0 f hf
      cases hpc : f.2 <;> simp_all [file_glock, file_plock, file_entering]
  | d_unpublished =>
    rw [hd] at h1 h2 h3 h4 h6
    simp only []
    have hu : (px4_unref s.dev).1 = (sum_files file_refs s.files : Int) := by
      simp only [px4_unref, h1, disc_refs]
      push_cast
      omega
    refine ⟨?_, h2, h3, ?_, h5, ?_⟩
    · simp only [px4_unref, h1, disc_refs]
      push_cast
      omega
    · simpa [px4_unref, disc_unpublished] using h4
    · intro h' f hf
      simp only [disc_drained, beq_iff_eq] at h'
      rw [hu] at h'
      exact sum_files_zero _ _ (by exact_mod_cast h') f hf
  | d_unreffed ref =>
    rw [hd] at h1 h2 h3 h4 h6
    simp only []
    have p0 : sum_files file_plock s.files = 0 := by
      simp only [disc_plock] at h3
      split_ifs at h3 <;> omega
    refine ⟨h1, h2, ?_, by simpa [disc_unpublished] using h4, h5, ?_⟩
    · simp only [disc_plock, p0, Bool.false_eq_true, if_false]
    · intro h'
      exact h6 (by simpa [disc_drained] using h')
  | d_loop ref =>
    rw [hd] at h1 h2 h3 h4 h6
    simp only []
    by_cases hr : ref = 0
    · rw [if_pos hr]
      subst hr
      exact ⟨h1, h2, h3, by simpa [disc_unpublished] using h4, h5,
        fun _ => h6 (by simp [disc_drained])⟩
    · rw [if_neg hr]
      by_cases hw : ref ≠ s.dev.ref
      · rw [if_pos hw]
        exact ⟨h1, h2, h3, by simpa [disc_unpublished] using h4, h5,
          fun h' => absurd h' (by simp [disc_drained])⟩
      · rw [if_neg hw]
        exact ⟨by rw [hd]; exact h1, by rw [hd]; exact h2, by rw [hd]; exact h3,
          by rw [hd]; exact h4, h5, by rw [hd]; exact h6⟩
  | d_wake =>
    rw [hd] at h1 h2 h3 h4 h6
    simp only []
    refine ⟨h1, h2, h3, by simpa [disc_unpublished] using h4, h5, ?_⟩
    intro h' f hf
    simp only [disc_drained, beq_iff_eq] at h'
    rw [h1] at h'
    simp only [disc_refs] at h'
    have h'' : sum_files file_refs s.files = 0 := by
      have : (0 : Int) + (sum_files file_refs s.files : Int) = 0 := by exact_mod_cast h'
      omega
    exact sum_files_zero _ _ h'' f hf
  | d_torn_down =>
    simp only []
    exact ⟨h1, h2, h3, h4, h5, h6⟩

theorem sys_inv_step (env : HwEnv) (s : px4_system) (ev : sys_event) (h : sys_inv s) :
    sys_inv (sys_step env s ev) := by
  cases ev with
  | open_call id => exact sys_inv_open_call s id h
  | file_step k => exact sys_inv_file_step env s k h
  | disc_step => exact sys_inv_disc_step s h

theorem sys_inv_run (env : HwEnv) (evs : List sys_event) :
    ∀ s, sys_inv s → sys_inv (run_system env s evs) := by
  induction evs with
  | nil => intro s h; exact h
  | cons ev evs ih =>
    intro s h
    unfold run_system
    rw [List.foldl_cons]
    exact ih _ (sys_inv_step env s ev h)

theorem sys_inv_attached (xfer_packets : Nat) : sys_inv (attached_system xfer_packets) := by
  refine ⟨rfl, rfl, rfl, ?_, ?_, ?_⟩
  · simp [attached_system, px4_probe_ok, disc_unpublished]
  · intro _ f hf; simp [attached_system] at hf
  · intro _ f hf; simp [attached_system] at hf

theorem run_system_append (env : HwEnv) (s : px4_system) (a b : List sys_event) :
    run_system env s (a ++ b) = run_system env (run_system env s a) b := by
  simp [run_system, List.foldl_append]

theorem run_system_snoc (env : HwEnv) (s : px4_system) (a : List sys_event) (ev : sys_event) :
    run_system env s (a ++ [ev]) = sys_step env (run_system env s a) ev := by
  simp [run_system, List.foldl_append]

theorem sys_step_disc (env : HwEnv) (s : px4_system) (ev : sys_event)
    (h : (sys_step env s ev).disc = .d_torn_down) :
    s.disc = .d_torn_down ∨ (ev = .disc_step ∧ s.disc = .d_loop 0) := by
  cases ev with
  | open_call id => left; exact h
  | file_step k =>
    left
    cases hk : s.files.get? k with
    | none => simpa only [sys_step, hk] using h
    | some f => simpa only [sys_step, hk] using h
  | disc_step =>
    simp only [sys_step, disc_next] at h
    cases hd : s.disc with
    | d_torn_down => left; rfl
    | d_loop ref =>
      right
      rw [hd] at h
      simp only [] at h
      by_cases hr : ref = 0
      · subst hr; exact ⟨rfl, rfl⟩
      · rw [if_neg hr] at h
        by_cases hw : ref ≠ s.dev.ref
        · rw [if_pos hw] at h; cases h
        · rw [if_neg hw, hd] at h; cases h
    | d_start => rw [hd] at h; simp at h
    | d_flagged => rw [hd] at h; simp only [] at h; split_ifs at h; all_goals simp_all
    | d_plock => rw [hd] at h; simp only [] at h; split_ifs at h; all_goals simp_all
    | d_both => rw [hd] at h; simp at h
    | d_unpublished => rw [hd] at h; simp at h
    | d_unreffed ref => rw [hd] at h; simp at h
    | d_wake => rw [hd] at h; simp at h

theorem sys_step_torn_down (env : HwEnv) (s : px4_system) (ev : sys_event)
    (h : s.disc = .d_torn_down) : (sys_step env s ev).disc = .d_torn_down := by
  cases ev with
  | open_call id => exact h
  | file_step k =>
    cases hk : s.files.get? k with
    | none => simpa only [sys_step, hk] using h
    | some f => simpa only [sys_step, hk] using h
  | disc_step => simp only [sys_step, disc_next, h]

theorem run_system_torn_down (env : HwEnv) (evs : List sys_event) :
    ∀ s : px4_system, s.disc = .d_torn_down → (run_system env s evs).disc = .d_torn_down := by
  induction evs with
  | nil => intro s h; exact h
  | cons ev evs ih =>
    intro s h
    unfold run_system
    rw [List.foldl_cons]
    exact ih _ (sys_step_torn_down env s ev h)

theorem sys_inv_drained (s : px4_system) (h : sys_inv s) (hd : disc_drained s.disc = true) :
    s.dev.ref = 0 ∧ s.dev.registered = false ∧
    ∀ f ∈ s.files, f.2 ≠ .opened ∧ file_session f.2 = false ∧ file_entering f.2 = false ∧
      file_refs f.2 = 0 := by
  obtain ⟨h1, h2, h3, h4, h5, h6⟩ := h
  have hreg := h4.mpr (disc_unpublished_of_drained _ hd)
  have hz := h6 hd
  refine ⟨?_, hreg, ?_⟩
  · have hs : sum_files file_refs s.files = 0 := by
      unfold sum_files
      apply List.sum_eq_zero
      intro x hx
      simp only [List.mem_map] at hx
      obtain ⟨f, hf, rfl⟩ := hx
      exact hz f hf
    have hdr : disc_refs s.disc = 0 := by
      cases hdd : s.disc <;> simp_all [disc_drained, disc_refs]
    rw [h1, hs, hdr]
    rfl
  · intro f hf
    have a := hz f hf
    have b := h5 hreg f hf
    refine ⟨?_, ?_, b, a⟩
    · intro e; rw [e] at a; simp [file_refs] at a
    · cases hpc : f.2 <;> simp_all [file_refs, file_session]

theorem teardown_from_loop (env : HwEnv) (s0 : px4_system) (h0 : s0.disc ≠ .d_torn_down)
    (evs : List sys_event) :
    (run_system env s0 evs).disc = .d_torn_down →
    ∃ evs0 rest, evs = evs0 ++ sys_event.disc_step :: rest ∧
      (run_system env s0 evs0).disc = .d_loop 0 := by
  induction evs using List.reverseRecOn with
  | nil => intro h; exact absurd h h0
  | append_singleton evs ev ih =>
    intro h
    rw [run_system_snoc] at h
    rcases sys_step_disc env _ ev h with h' | ⟨rfl, h'⟩
    · obtain ⟨evs0, rest, e, hl⟩ := ih h'
      exact ⟨evs0, rest ++ [ev], by rw [e]; simp, hl⟩
    · exact ⟨evs, [], rfl, h'⟩

/-- C12. From the state `px4_probe` leaves, in every interleaving of the steps of any
number of threads that open and release endpoints and of the thread of
`px4_disconnect`, under any hardware: if `px4_disconnect` has executed its teardown
(`px4_term`, `it930x_bus_term`, `kfree`), then (1) it took that step from the test of
its wait loop with its local `ref` equal to 0, and at that moment the reference count
was 0 and no thread held an open session; (2) at the teardown and at every later
moment the reference count is 0, the slot in `devs` is null, no thread holds an open
session, no thread is inside `px4_tsdev_open` past the test of the slot, and no thread
stands between a `px4_ref` and its `px4_unref`: no open has succeeded or can succeed. -/
theorem px4_disconnect_drain_before_destroy (env : HwEnv) (xfer_packets : Nat)
    (evs : List sys_event)
    (h : (run_system env (attached_system xfer_packets) evs).disc = .d_torn_down) :
    (∃ evs0 rest, evs = evs0 ++ sys_event.disc_step :: rest ∧
      (run_system env (attached_system xfer_packets) evs0).disc = .d_loop 0 ∧
      (run_system env (attached_system xfer_packets) evs0).dev.ref = 0 ∧
      ∀ f ∈ (run_system env (attached_system xfer_packets) evs0).files,
        file_session f.2 = false) ∧
    (∀ evs',
      (run_system env (attached_system xfer_packets) (evs ++ evs')).disc = .d_torn_down ∧
      (run_system env (attached_system xfer_packets) (evs ++ evs')).dev.ref = 0 ∧
      (run_system env (attached_system xfer_packets) (evs ++ evs')).dev.registered = false ∧
      ∀ f ∈ (run_system env (attached_system xfer_packets) (evs ++ evs')).files,
        f.2 ≠ .opened ∧ file_session f.2 = false ∧ file_entering f.2 = false ∧
        file_refs f.2 = 0) := by
  constructor
  · obtain ⟨evs0, rest, e, hl⟩ :=
      teardown_from_loop env (attached_system xfer_packets) (by simp [attached_system]) evs h
    have hi := sys_inv_run env evs0 _ (sys_inv_attached xfer_packets)
    have hd := sys_inv_drained _ hi (by rw [hl]; rfl)
    exact ⟨evs0, rest, e, hl, hd.1, fun f hf => (hd.2.2 f hf).2.1⟩
  · intro evs'
    have ht : (run_system env (attached_system xfer_packets) (evs ++ evs')).disc =
        .d_torn_down := by
      rw [run_system_append]
      exact run_system_torn_down env evs' _ h
    have hi := sys_inv_run env (evs ++ evs') _ (sys_inv_attached xfer_packets)
    have hd := sys_inv_drained _ hi (by rw [ht]; rfl)
    exact ⟨ht, hd.1, hd.2.1, hd.2.2⟩

/-- Witness for `px4_disconnect_drain_before_destroy`, a schedule with one session, every
hardware call succeeding: a thread opens endpoint 0 (its open returns 0);
`px4_disconnect` runs up to its wait loop and waits there; the thread releases the
endpoint; `px4_disconnect` wakes, reads the reference count 0 and tears down. -/
theorem px4_disconnect_drain_before_destroy_witness :
    (run_system env_ok (attached_system 816)
      ([.open_call 0] ++ List.replicate 7 (.file_step 0))).files = [(0, .opened)] ∧
    (run_system env_ok (attached_system 816)
      ([.open_call 0] ++ List.replicate 7 (.file_step 0) ++
        List.replicate 7 .disc_step)).disc = .d_loop 1 ∧
    (run_system env_ok (attached_system 816)
      ([.open_call 0] ++ List.replicate 7 (.file_step 0) ++ List.replicate 7 .disc_step ++
        List.replicate 6 (.file_step 0) ++ List.replicate 3 .disc_step)).disc = .d_torn_down ∧
    (run_system env_ok (attached_system 816)
      (([.open_call 0] ++ List.replicate 7 (.file_step 0) ++ List.replicate 7 .disc_step ++
        List.replicate 6 (.file_step 0) ++ List.replicate 3 .disc_step) ++ [])).dev.ref = 0 := by
  refine ⟨by decide!, by decide!, by decide!, ?_⟩
  exact ((px4_disconnect_drain_before_destroy env_ok 816
      ([.open_call 0] ++ List.replicate 7 (.file_step 0) ++ List.replicate 7 .disc_step ++
        List.replicate 6 (.file_step 0) ++ List.replicate 3 .disc_step) (by decide!)).2 []).2.1

end Px4
